import Mathlib

/-!
# KNUST Enterprise Hub: the business handlers, the cart, logout and star ratings

A shallow embedding of the query layer of `backend/controllers/businessController.js`
and `backend/routes/businesses.js`: the WHERE-clause builders, the pagination
arithmetic, and the SQL statements the handlers send, run against a small relational
model of the store. Of the frontend it embeds the cart and `generateStarRating` of
`scripts.js` and `AuthManager.logout` of `js/auth.js`.

Modelling conventions.
* A JavaScript number is a rational, or NaN, or one of the two infinities, and the sign
  of zero is not represented. `computeOffset` and `paginationOf` compute in exact
  arithmetic; `computeOffsetDouble` and `paginationOfDouble` round every step to the
  nearest IEEE double as JavaScript does. The two agree while `page * limit` stays
  within `2 ^ 53` and the row count below it, and what is stated of the values a
  handler returns for a page and a limit is stated on that range.
* A query-string criterion (`category`, `location`, `search`, `q`) is absent or a
  string, which is what a plain `key=value` query string gives.
* Text is compared character by character; case folding is the ASCII one.
* Where a statement leaves the order of rows open (equal sort keys) the order is the
  choice of PostgreSQL, which the source does not fix: the model returns one of the
  orders the statement allows, and no theorem depends on which one.
* PostgreSQL rejects a statement in which the first use of a parameter gives it no
  type, as `$n IS NOT NULL` does.
* Timestamps count seconds; a path parameter `id` is a value of the id column.
* In the cart, `parseInt(quantity, 10)` gives an infinity for digits beyond the range of
  doubles: of the conversion to doubles this overflow alone is represented. A numeric
  id of a cart item is an integer.
-/

namespace EnterpriseHub

/-! ## JavaScript values -/

/-- A JavaScript number, with exact arithmetic on the finite ones. -/
inductive JSNum where
  | nan
  | posInf
  | negInf
  | fin (q : ℚ)
  deriving DecidableEq

/-- A JavaScript value as it occurs in `req.query` and in a parameter array. -/
inductive JSVal where
  | undefined
  | null
  | num (n : JSNum)
  | str (s : String)
  deriving DecidableEq

/-- Truthiness of an optional query-string value: `if (category)` holds for a
non-empty string only. -/
def truthy : Option String → Bool
  | none => false
  | some s => s ≠ ""

/-- The template literal `$${paramCount}`. -/
def placeholder (paramCount : Nat) : String :=
  "$" ++ toString paramCount

/-! ## Filter builders -/

/-- The three variables a filter builder maintains. -/
structure Filter where
  whereClause : String
  params : List JSVal
  paramCount : Nat
  deriving DecidableEq

/-- `if (category) { paramCount++; whereClause += ...; params.push(category) }`. -/
def addCategory (category : Option String) (f : Filter) : Filter :=
  match category with
  | some c =>
    if truthy (some c) then
      let paramCount := f.paramCount + 1
      { whereClause := f.whereClause ++ " AND b.category = " ++ placeholder paramCount,
        params := f.params ++ [JSVal.str c],
        paramCount := paramCount }
    else f
  | none => f

/-- `if (location) { paramCount++; whereClause += ...; params.push(location) }`. -/
def addLocation (location : Option String) (f : Filter) : Filter :=
  match location with
  | some l =>
    if truthy (some l) then
      let paramCount := f.paramCount + 1
      { whereClause := f.whereClause ++ " AND b.location = " ++ placeholder paramCount,
        params := f.params ++ [JSVal.str l],
        paramCount := paramCount }
    else f
  | none => f

/-- `if (search) { paramCount++; whereClause += ...; params.push('%' + search + '%') }`,
also used for `q` in `searchBusinesses`. -/
def addSearch (search : Option String) (f : Filter) : Filter :=
  match search with
  | some s =>
    if truthy (some s) then
      let paramCount := f.paramCount + 1
      { whereClause := f.whereClause ++ " AND (b.name ILIKE " ++ placeholder paramCount
          ++ " OR b.description ILIKE " ++ placeholder paramCount ++ ")",
        params := f.params ++ [JSVal.str ("%" ++ s ++ "%")],
        paramCount := paramCount }
    else f
  | none => f

/-- The state before any criterion is looked at (controller, lines 18-20 and 285-287). -/
def baseFilter : Filter :=
  { whereClause := "WHERE b.is_active = true", params := [], paramCount := 0 }

/-- Filter builder of `BusinessController.getAllBusinesses`: category, location, search. -/
def getAllBusinessesFilter (category location search : Option String) : Filter :=
  addSearch search (addLocation location (addCategory category baseFilter))

/-- Filter builder of `BusinessController.searchBusinesses`: q, category, location. -/
def searchBusinessesFilter (q category location : Option String) : Filter :=
  addLocation location (addCategory category (addSearch q baseFilter))

/-- The variables of the router's builder: `whereParts`, `params`, `idx`. -/
structure RouterFilter where
  whereParts : List String
  params : List JSVal
  idx : Nat
  deriving DecidableEq

/-- Router `GET /`, lines 19-31. -/
def routerGetRootParts (category location search : Option String) : RouterFilter :=
  let r0 : RouterFilter := { whereParts := ["b.is_active = true"], params := [], idx := 0 }
  let r1 : RouterFilter :=
    match category with
    | some c =>
      if truthy (some c) then
        let idx := r0.idx + 1
        { whereParts := r0.whereParts ++ ["b.category = " ++ placeholder idx],
          params := r0.params ++ [JSVal.str c], idx := idx }
      else r0
    | none => r0
  let r2 : RouterFilter :=
    match location with
    | some l =>
      if truthy (some l) then
        let idx := r1.idx + 1
        { whereParts := r1.whereParts ++ ["b.location = " ++ placeholder idx],
          params := r1.params ++ [JSVal.str l], idx := idx }
      else r1
    | none => r1
  match search with
  | some s =>
    if truthy (some s) then
      let idx := r2.idx + 1
      { whereParts := r2.whereParts ++ ["(b.name ILIKE " ++ placeholder idx
          ++ " OR b.description ILIKE " ++ placeholder idx ++ ")"],
        params := r2.params ++ [JSVal.str ("%" ++ s ++ "%")], idx := idx }
    else r2
  | none => r2

/-- Router `GET /`, line 33: `whereParts.length ? 'WHERE ' + whereParts.join(' AND ') : ''`. -/
def routerGetRootFilter (category location search : Option String) : Filter :=
  let r := routerGetRootParts category location search
  { whereClause :=
      if r.whereParts.length ≠ 0 then "WHERE " ++ " AND ".intercalate r.whereParts else "",
    params := r.params,
    paramCount := r.idx }

/-! ## Reading placeholders back out of SQL text -/

/-- Scanner state: outside a placeholder, just after `$`, or inside the digits. -/
inductive Scan where
  | idle
  | dollar
  | digits (n : Nat)
  deriving DecidableEq

/-- Value of a decimal digit character. -/
def digitVal (c : Char) : Nat := c.toNat - 48

/-- Every occurrence of `$<digits>` in the text, in order of appearance. -/
def scanPlaceholders : Scan → List Char → List Nat
  | Scan.digits n, [] => [n]
  | _, [] => []
  | st, c :: cs =>
    if c.isDigit then
      match st with
      | Scan.idle => scanPlaceholders Scan.idle cs
      | Scan.dollar => scanPlaceholders (Scan.digits (digitVal c)) cs
      | Scan.digits n => scanPlaceholders (Scan.digits (10 * n + digitVal c)) cs
    else
      let next := if c = '$' then Scan.dollar else Scan.idle
      match st with
      | Scan.digits n => n :: scanPlaceholders next cs
      | _ => scanPlaceholders next cs

/-- Placeholder occurrences of an SQL fragment. -/
def placeholderOccurrences (sql : String) : List Nat :=
  scanPlaceholders Scan.idle sql.data

/-- The distinct placeholders of an SQL fragment, in order of first appearance. -/
def placeholders (sql : String) : List Nat :=
  (placeholderOccurrences sql).reverse.dedup.reverse

/-- How many of the three criteria are present. -/
def presentCount (category location search : Option String) : Nat :=
  (truthy category).toNat + (truthy location).toNat + (truthy search).toNat

/-- Number the entries of a list consecutively, starting at `k`. -/
def numberFrom {α : Type} : Nat → List (Nat → α) → List α
  | _, [] => []
  | k, g :: gs => g k :: numberFrom (k + 1) gs

/-- The conjuncts a listing predicate is expected to have after the base condition, each
paired with the value bound to it: present criteria in the order category, location,
search, the k-th of them written with placeholder `$k`. -/
def expectedConjuncts (category location search : Option String) : List (String × JSVal) :=
  numberFrom 1 <|
    (if truthy category then
      [fun k => ("b.category = " ++ placeholder k, JSVal.str (category.getD ""))] else [])
    ++ (if truthy location then
      [fun k => ("b.location = " ++ placeholder k, JSVal.str (location.getD ""))] else [])
    ++ (if truthy search then
      [fun k => ("(b.name ILIKE " ++ placeholder k ++ " OR b.description ILIKE "
        ++ placeholder k ++ ")", JSVal.str ("%" ++ search.getD "" ++ "%"))] else [])

/-- The WHERE clause of `getAllBusinesses` as a function of the presence pattern alone. -/
def getAllWhereOf (c l s : Bool) : String :=
  (getAllBusinessesFilter (if c then some "x" else none) (if l then some "x" else none)
    (if s then some "x" else none)).whereClause

/-! ## JavaScript numbers: conversions and arithmetic -/

/-- White space as `ToNumber` and `parseInt` strip it: the WhiteSpace and LineTerminator
code points. -/
def isJSWhitespace (c : Char) : Bool :=
  c.toNat ∈ [9, 10, 11, 12, 13, 32, 160, 5760, 8232, 8233, 8239, 8287, 12288, 65279]
    || (8192 ≤ c.toNat && c.toNat ≤ 8202)

/-- `String.prototype.trim` on the characters of a string. -/
def jsTrim (cs : List Char) : List Char :=
  ((cs.dropWhile isJSWhitespace).reverse.dropWhile isJSWhitespace).reverse

/-- Value of a run of decimal digits, most significant first. -/
def natOfDigits (cs : List Char) : Nat :=
  cs.foldl (fun n c => 10 * n + digitVal c) 0

/-- Value of a hexadecimal, octal or binary digit, if the character is one in that radix. -/
def radixDigit (radix : Nat) (c : Char) : Option Nat :=
  let v : Option Nat :=
    if c.isDigit then some (c.toNat - 48)
    else if 97 ≤ c.toNat ∧ c.toNat ≤ 102 then some (c.toNat - 87)
    else if 65 ≤ c.toNat ∧ c.toNat ≤ 70 then some (c.toNat - 55)
    else none
  v.bind fun d => if d < radix then some d else none

/-- A non-empty run of digits in the given radix, read to the end of the text. -/
def natOfRadixDigits (radix : Nat) (cs : List Char) : Option Nat :=
  if cs = [] then none
  else cs.foldl (fun acc c => acc.bind fun n => (radixDigit radix c).map fun d => radix * n + d)
    (some 0)

/-- The exponent part of a decimal literal: nothing, or `e`/`E`, an optional sign and
digits up to the end of the text. -/
def parseExponent (cs : List Char) : Option Int :=
  match cs with
  | [] => some 0
  | c :: rest =>
    if c = 'e' ∨ c = 'E' then
      let signed : Int × List Char :=
        match rest with
        | '+' :: r => (1, r)
        | '-' :: r => (-1, r)
        | _ => (1, rest)
      if signed.2 ≠ [] ∧ signed.2.all Char.isDigit then
        some (signed.1 * (natOfDigits signed.2 : Int))
      else none
    else none

/-- An unsigned decimal literal (`12`, `12.`, `12.5`, `.5`, each with an optional
exponent), read to the end of the text. -/
def parseUnsignedDecimal (cs : List Char) : Option ℚ :=
  let intPart := cs.takeWhile Char.isDigit
  let afterInt := cs.dropWhile Char.isDigit
  let fracPart : List Char :=
    match afterInt with
    | '.' :: r => r.takeWhile Char.isDigit
    | _ => []
  let afterFrac : List Char :=
    match afterInt with
    | '.' :: r => r.dropWhile Char.isDigit
    | _ => afterInt
  if intPart = [] ∧ fracPart = [] then none
  else
    (parseExponent afterFrac).map fun e =>
      ((natOfDigits intPart : ℚ) + (natOfDigits fracPart : ℚ) / (10 : ℚ) ^ fracPart.length)
        * (10 : ℚ) ^ e

/-- Text after an optional leading sign. -/
def dropSign (cs : List Char) : List Char :=
  if cs.head? = some '+' ∨ cs.head? = some '-' then cs.drop 1 else cs

/-- The radix a `0x`, `0o` or `0b` literal announces. -/
def radixOfMarker (cs : List Char) : Option Nat :=
  if cs.take 2 = ['0', 'x'] ∨ cs.take 2 = ['0', 'X'] then some 16
  else if cs.take 2 = ['0', 'o'] ∨ cs.take 2 = ['0', 'O'] then some 8
  else if cs.take 2 = ['0', 'b'] ∨ cs.take 2 = ['0', 'B'] then some 2
  else none

/-- `StringToNumber`: the numeric value of a string, NaN when it is not a numeric
literal. -/
def stringToNumber (s : String) : JSNum :=
  let cs := jsTrim s.data
  if cs = [] then JSNum.fin 0
  else
    match radixOfMarker cs with
    | some radix =>
      match natOfRadixDigits radix (cs.drop 2) with
      | some n => JSNum.fin n
      | none => JSNum.nan
    | none =>
      let negative : Bool := cs.head? = some '-'
      let body := dropSign cs
      if body = "Infinity".data then
        if negative then JSNum.negInf else JSNum.posInf
      else
        match parseUnsignedDecimal body with
        | some q => JSNum.fin (if negative then -q else q)
        | none => JSNum.nan

/-- `ToNumber`. -/
def toNumber : JSVal → JSNum
  | JSVal.undefined => JSNum.nan
  | JSVal.null => JSNum.fin 0
  | JSVal.num n => n
  | JSVal.str s => stringToNumber s

/-- Rounding toward zero. -/
def truncate (q : ℚ) : Int :=
  if 0 ≤ q then ⌊q⌋ else ⌈q⌉

/-- `parseInt(string)` without a radix argument. -/
def parseIntString (s : String) : JSNum :=
  let cs := s.data.dropWhile isJSWhitespace
  let negative : Bool := cs.head? = some '-'
  let body := dropSign cs
  let magnitude : Option Nat :=
    if radixOfMarker body = some 16 then
      natOfRadixDigits 16 ((body.drop 2).takeWhile fun c => (radixDigit 16 c).isSome)
    else
      let ds := body.takeWhile Char.isDigit
      if ds = [] then none else some (natOfDigits ds)
  match magnitude with
  | some n => JSNum.fin (if negative then -(n : ℚ) else n)
  | none => JSNum.nan

/-- `parseInt(value)`: the value is converted to a string first. A finite number prints
in positional notation (for magnitudes from 1e-6 up to 1e21, the range represented
here), so its integer part is what is read back; `undefined`, `null`, NaN and the
infinities print as words and give NaN. -/
def parseInt : JSVal → JSNum
  | JSVal.str s => parseIntString s
  | JSVal.num (JSNum.fin q) => JSNum.fin (truncate q)
  | _ => JSNum.nan

namespace JSNum

/-- The `-` operator on numbers. -/
def sub : JSNum → JSNum → JSNum
  | fin a, fin b => fin (a - b)
  | nan, _ => nan
  | _, nan => nan
  | posInf, posInf => nan
  | negInf, negInf => nan
  | posInf, _ => posInf
  | negInf, _ => negInf
  | fin _, posInf => negInf
  | fin _, negInf => posInf

/-- Sign of a number that is not NaN: `-1`, `0` or `1`. -/
def sign : JSNum → Int
  | fin a => if a < 0 then -1 else if a = 0 then 0 else 1
  | posInf => 1
  | negInf => -1
  | nan => 0

/-- The infinity of the given sign, NaN for sign zero. -/
def ofSign (s : Int) : JSNum :=
  if s < 0 then negInf else if s = 0 then nan else posInf

/-- The `*` operator on numbers. -/
def mul : JSNum → JSNum → JSNum
  | fin a, fin b => fin (a * b)
  | nan, _ => nan
  | _, nan => nan
  | a, b => ofSign (sign a * sign b)

/-- The `/` operator on numbers (a zero divisor counts as `+0`). -/
def div : JSNum → JSNum → JSNum
  | fin a, fin b => if b = 0 then ofSign (sign (fin a)) else fin (a / b)
  | nan, _ => nan
  | _, nan => nan
  | fin _, _ => fin 0
  | posInf, fin b => if b < 0 then negInf else posInf
  | negInf, fin b => if b < 0 then posInf else negInf
  | _, _ => nan

/-- The `<` operator on numbers; false as soon as one side is NaN. -/
def lt : JSNum → JSNum → Bool
  | fin a, fin b => a < b
  | nan, _ => false
  | _, nan => false
  | negInf, negInf => false
  | negInf, _ => true
  | _, negInf => false
  | posInf, _ => false
  | _, posInf => true

/-- `Math.ceil`. -/
def ceil : JSNum → JSNum
  | fin a => fin ⌈a⌉
  | x => x

end JSNum

/-! ## Pagination arithmetic of `getAllBusinesses` -/

/-- A destructuring default `{ x = d } = req.query`: the default replaces `undefined`
only. -/
def withDefault (d : JSVal) : JSVal → JSVal
  | JSVal.undefined => d
  | v => v

/-- `const offset = (page - 1) * limit`, on the values left by the destructuring, in exact
arithmetic; `computeOffsetDouble` is the same computation on doubles. -/
def computeOffset (page limit : JSVal) : JSNum :=
  JSNum.mul (JSNum.sub (toNumber page) (JSNum.fin 1)) (toNumber limit)

/-- The `pagination` object of the listing response. -/
structure Pagination where
  currentPage : JSNum
  totalPages : JSNum
  totalCount : JSNum
  hasNext : Bool
  hasPrev : Bool
  deriving DecidableEq

/-- Controller lines 70-76, on the values left by the destructuring, in exact arithmetic;
`paginationOfDouble` is the same computation on doubles. -/
def paginationOf (page limit : JSVal) (totalCount : JSNum) : Pagination :=
  { currentPage := parseInt page,
    totalPages := JSNum.ceil (JSNum.div totalCount (toNumber limit)),
    totalCount := totalCount,
    hasNext := JSNum.lt (JSNum.mul (toNumber page) (toNumber limit)) totalCount,
    hasPrev := JSNum.lt (JSNum.fin 1) (toNumber page) }

/-! ## The store -/

/-- A row of `businesses`. The text columns may be NULL (`none`); `is_active` is set by
its column default on insert and only ever written as `true` or `false`. -/
structure Business where
  id : Nat
  name : Option String
  description : Option String
  category : Option String
  location : Option String
  contact_number : Option String
  whatsapp_link : Option String
  instagram_handle : Option String
  logo_url : Option String
  owner_id : Option Nat
  is_active : Bool
  created_at : Nat
  updated_at : Nat
  deriving DecidableEq

/-- A row of `products`. -/
structure Product where
  id : Nat
  business_id : Nat
  name : Option String
  is_available : Bool
  created_at : Nat
  deriving DecidableEq

/-- A row of `reviews`. -/
structure Review where
  id : Nat
  business_id : Nat
  user_id : Nat
  rating : ℚ
  created_at : Nat
  deriving DecidableEq

/-- A row of `users`; `id` is the key of the table. -/
structure User where
  id : Nat
  username : Option String
  first_name : Option String
  last_name : Option String
  deriving DecidableEq

/-- A row of `orders`; the status and the amount of an order are always set. -/
structure Order where
  id : Nat
  business_id : Nat
  status : String
  total_amount : ℚ
  created_at : Nat
  deriving DecidableEq

/-- A row of `order_items`. -/
structure OrderItem where
  id : Nat
  order_id : Nat
  product_id : Nat
  quantity : Int
  deriving DecidableEq

/-- The tables the business handlers read and write, each in its stored order. -/
structure Db where
  businesses : List Business
  products : List Product
  reviews : List Review
  users : List User
  orders : List Order := []
  order_items : List OrderItem := []

/-- An error raised by `pool.query`; the message is whatever the driver reports. -/
structure DbError where
  message : String
  deriving DecidableEq

/-- Failures of the store that do not depend on the statement (connection loss,
timeouts): the k-th query a handler issues fails with the given error. -/
abbrev Fault := Nat → Option DbError

/-- A store whose queries all get through. -/
def noFault : Fault := fun _ => none

/-! ## SQL: three-valued logic and pattern matching -/

/-- SQL `AND` on truth values, `none` being NULL. -/
def and3 : Option Bool → Option Bool → Option Bool
  | some false, _ => some false
  | _, some false => some false
  | some true, some true => some true
  | _, _ => none

/-- SQL `OR` on truth values, `none` being NULL. -/
def or3 : Option Bool → Option Bool → Option Bool
  | some true, _ => some true
  | _, some true => some true
  | some false, some false => some false
  | _, _ => none

/-- Does the predicate hold of the text or of one of its suffixes. -/
def anySuffix (f : List Char → Bool) : List Char → Bool
  | [] => f []
  | c :: cs => f (c :: cs) || anySuffix f cs

/-- The escape character of `LIKE` patterns. -/
def likeEscape : Char := Char.ofNat 92

/-- PostgreSQL `LIKE`: `%` stands for any run of characters, `_` for any one character,
the backslash makes the next pattern character literal. A pattern that ends in a lone
backslash is rejected by PostgreSQL; it is read as matching nothing here (no pattern of
this program ends in one, all end in `%`). -/
def likeMatch : List Char → List Char → Bool
  | [], s => s.isEmpty
  | p :: ps, s =>
    if p = '%' then anySuffix (likeMatch ps) s
    else if p = '_' then
      match s with
      | [] => false
      | _ :: rest => likeMatch ps rest
    else if p = likeEscape then
      match ps with
      | [] => false
      | q :: qs =>
        match s with
        | [] => false
        | d :: rest => d == q && likeMatch qs rest
    else
      match s with
      | [] => false
      | d :: rest => d == p && likeMatch ps rest

/-- Case folding used by `ILIKE`. -/
def lowerChars (s : String) : List Char := s.data.map Char.toLower

/-- `text ILIKE pattern` on non-NULL operands. -/
def ilikeMatch (text pattern : String) : Bool :=
  likeMatch (lowerChars pattern) (lowerChars text)

/-! ## SQL: the WHERE clauses the builders produce -/

/-- The text columns of `businesses` a filter may mention. -/
inductive Column where
  | name
  | description
  | category
  | location
  deriving DecidableEq

/-- The column as it is written in a predicate. -/
def Column.sqlName : Column → String
  | Column.name => "b.name"
  | Column.description => "b.description"
  | Column.category => "b.category"
  | Column.location => "b.location"

/-- The value of a column in a row. -/
def Column.value (b : Business) : Column → Option String
  | Column.name => b.name
  | Column.description => b.description
  | Column.category => b.category
  | Column.location => b.location

/-- An elementary condition: `b.is_active = true`, `col = $k` or `col ILIKE $k`. -/
inductive Atom where
  | isActive
  | eq (col : Column) (k : Nat)
  | ilike (col : Column) (k : Nat)
  deriving DecidableEq

/-- A conjunct of a WHERE clause: an elementary condition or a parenthesised `OR` of
elementary conditions. -/
inductive Conjunct where
  | atom (a : Atom)
  | disj (atoms : List Atom)
  deriving DecidableEq

/-- The rest of the text after a given beginning, if it begins so. -/
def stripLeading (start cs : List Char) : Option (List Char) :=
  if start.isPrefixOf cs then some (cs.drop start.length) else none

/-- Split a text at every occurrence of a separator; `skip` counts the characters of a
separator still to be passed over, `cur` is the piece being read, in reverse. -/
def splitAt (sep : List Char) : Nat → List Char → List Char → List (List Char)
  | _, cur, [] => [cur.reverse]
  | skip + 1, cur, _ :: cs => splitAt sep skip cur cs
  | 0, cur, c :: cs =>
    if sep.isPrefixOf (c :: cs) then cur.reverse :: splitAt sep (sep.length - 1) [] cs
    else splitAt sep 0 (c :: cur) cs

/-- All values of a list of options, if none is missing. -/
def allSome {α : Type} : List (Option α) → Option (List α)
  | [] => some []
  | none :: _ => none
  | some a :: rest => (allSome rest).map (a :: ·)

/-- A placeholder `$<digits>` making up the whole text. -/
def parsePlaceholder (cs : List Char) : Option Nat :=
  match cs with
  | '$' :: ds => if ds ≠ [] ∧ ds.all Char.isDigit then some (natOfDigits ds) else none
  | _ => none

/-- A column name at the beginning of the text, with the rest of the text. -/
def parseColumn (cs : List Char) : Option (Column × List Char) :=
  [Column.name, Column.description, Column.category, Column.location].findSome? fun col =>
    (stripLeading col.sqlName.data cs).map fun rest => (col, rest)

/-- Read an elementary condition. -/
def parseAtom (cs : List Char) : Option Atom :=
  if cs = "b.is_active = true".data then some Atom.isActive
  else
    match parseColumn cs with
    | none => none
    | some (col, rest) =>
      match stripLeading " = ".data rest with
      | some r => (parsePlaceholder r).map (Atom.eq col)
      | none =>
        match stripLeading " ILIKE ".data rest with
        | some r => (parsePlaceholder r).map (Atom.ilike col)
        | none => none

/-- Read a conjunct. -/
def parseConjunct (cs : List Char) : Option Conjunct :=
  if cs.head? = some '(' ∧ cs.getLast? = some ')' then
    (allSome ((splitAt " OR ".data 0 [] (cs.drop 1).dropLast).map parseAtom)).map Conjunct.disj
  else (parseAtom cs).map Conjunct.atom

/-- Read a WHERE clause of the form `WHERE c1 AND c2 AND ...`. -/
def parseWhere (sql : String) : Option (List Conjunct) :=
  match stripLeading "WHERE ".data sql.data with
  | none => none
  | some body => allSome ((splitAt " AND ".data 0 [] body).map parseConjunct)

/-- The value bound to `$k` as a text operand: a string, or NULL for `null` and
`undefined`; no value if the parameter is missing or is not text. -/
def textParam (params : List JSVal) (k : Nat) : Option (Option String) :=
  if k = 0 then none
  else
    match params[k - 1]? with
    | some (JSVal.str s) => some (some s)
    | some JSVal.null => some none
    | some JSVal.undefined => some none
    | _ => none

/-- An elementary condition with its parameter value filled in (`none` is NULL). -/
inductive BoundAtom where
  | isActive
  | eq (col : Column) (value : Option String)
  | ilike (col : Column) (pattern : Option String)
  deriving DecidableEq

/-- A conjunct with its parameter values filled in. -/
inductive BoundConjunct where
  | atom (a : BoundAtom)
  | disj (atoms : List BoundAtom)
  deriving DecidableEq

/-- Fill in the parameter of an elementary condition; fails when it is not bound. -/
def bindAtom (params : List JSVal) : Atom → Option BoundAtom
  | Atom.isActive => some BoundAtom.isActive
  | Atom.eq col k => (textParam params k).map (BoundAtom.eq col)
  | Atom.ilike col k => (textParam params k).map (BoundAtom.ilike col)

/-- Fill in the parameters of a conjunct. -/
def bindConjunct (params : List JSVal) : Conjunct → Option BoundConjunct
  | Conjunct.atom a => (bindAtom params a).map BoundConjunct.atom
  | Conjunct.disj atoms => (allSome (atoms.map (bindAtom params))).map BoundConjunct.disj

/-- Read a WHERE clause and bind its parameters; `none` when the clause cannot be read
or mentions a parameter that is not supplied. -/
def compileWhere (whereClause : String) (params : List JSVal) : Option (List BoundConjunct) :=
  match parseWhere whereClause with
  | none => none
  | some conjuncts => allSome (conjuncts.map (bindConjunct params))

/-- Truth value of an elementary condition in a row (`none` is NULL). -/
def BoundAtom.eval (b : Business) : BoundAtom → Option Bool
  | BoundAtom.isActive => some b.is_active
  | BoundAtom.eq col value =>
    match col.value b, value with
    | some v, some s => some (decide (v = s))
    | _, _ => none
  | BoundAtom.ilike col pattern =>
    match col.value b, pattern with
    | some v, some s => some (ilikeMatch v s)
    | _, _ => none

/-- Truth value of a conjunct in a row. -/
def BoundConjunct.eval (b : Business) : BoundConjunct → Option Bool
  | BoundConjunct.atom a => a.eval b
  | BoundConjunct.disj atoms => (atoms.map (BoundAtom.eval b)).foldl or3 (some false)

/-- Does the row pass the WHERE clause: it does when the conjunction is true, not when it
is false or NULL. -/
def accepts (conjuncts : List BoundConjunct) (b : Business) : Bool :=
  (conjuncts.map (BoundConjunct.eval b)).foldl and3 (some true) == some true

/-- The verdict of a WHERE clause with its parameters on a row; `none` when the clause
cannot be read or run. -/
def evalWhere (whereClause : String) (params : List JSVal) (b : Business) : Option Bool :=
  (compileWhere whereClause params).map fun conjuncts => accepts conjuncts b

/-! ## SQL: statements, parameters, LIMIT and OFFSET -/

/-- A statement can be run with an array of `n` parameters when its placeholders are
exactly `$1 .. $n`. -/
def bindsAll (text : String) (n : Nat) : Bool :=
  (placeholders text).all (fun k => 1 ≤ k && k ≤ n)
    && (List.range' 1 n).all (fun k => (placeholders text).contains k)

/-- White space PostgreSQL skips around an integer literal. -/
def isSqlSpace (c : Char) : Bool :=
  c.toNat = 32 || (9 ≤ c.toNat && c.toNat ≤ 13)

/-- The largest `bigint`. -/
def maxBigint : Int := 9223372036854775807

/-- The text of an integer literal read as `bigint`: optional sign and digits, white
space around them allowed. -/
def bigintOfText (cs : List Char) : Option Int :=
  let body := ((cs.dropWhile isSqlSpace).reverse.dropWhile isSqlSpace).reverse
  let negative : Bool := body.head? = some '-'
  let ds := dropSign body
  if ds ≠ [] ∧ ds.all Char.isDigit then
    let v : Int := if negative then -(natOfDigits ds : Int) else natOfDigits ds
    if -maxBigint - 1 ≤ v ∧ v ≤ maxBigint then some v else none
  else none

/-- A parameter bound to `LIMIT` or `OFFSET`, which PostgreSQL reads as `bigint`. The
driver sends a string as it is and a number in its decimal notation, `null` and
`undefined` as NULL (inner `none`); the outer `none` is a value that is not an integer
literal in range, on which the statement fails. -/
def sqlBigint : JSVal → Option (Option Int)
  | JSVal.null => some none
  | JSVal.undefined => some none
  | JSVal.str s => (bigintOfText s.data).map some
  | JSVal.num (JSNum.fin q) =>
    if q.isInt ∧ -maxBigint - 1 ≤ q.num ∧ q.num ≤ maxBigint then some (some q.num) else none
  | JSVal.num _ => none

/-- The row count of `LIMIT`: NULL means no limit, a negative count is an error. -/
def sqlLimit (v : JSVal) : Option (Option Nat) :=
  match sqlBigint v with
  | none => none
  | some none => some none
  | some (some i) => if 0 ≤ i then some (some i.toNat) else none

/-- The row count of `OFFSET`: NULL means none skipped, a negative count is an error. -/
def sqlOffset (v : JSVal) : Option Nat :=
  match sqlBigint v with
  | none => none
  | some none => some 0
  | some (some i) => if 0 ≤ i then some i.toNat else none

/-- `OFFSET m LIMIT n` applied to an ordered result. -/
def window (limit : Option Nat) (offset : Nat) {α : Type} (rows : List α) : List α :=
  match limit with
  | none => rows.drop offset
  | some n => (rows.drop offset).take n

/-! ## SQL: aggregates over the product and review joins -/

/-- One side of a `LEFT JOIN`: the matching rows, or a single all-NULL row. -/
def leftJoinSide {α : Type} (rows : List α) : List (Option α) :=
  if rows.isEmpty then [none] else rows.map some

/-- The rows of
`businesses b LEFT JOIN products p ON b.id = p.business_id
 LEFT JOIN reviews r ON b.id = r.business_id`
that stem from one business: each of its products (or NULL) with each of its reviews (or
NULL). -/
def joinedRows (db : Db) (b : Business) : List (Option Product × Option Review) :=
  (leftJoinSide (db.products.filter fun p => p.business_id = b.id)).flatMap fun p =>
    (leftJoinSide (db.reviews.filter fun r => r.business_id = b.id)).map fun r => (p, r)

/-- `AVG` of the non-NULL values: NULL for none. -/
def sqlAvg (values : List ℚ) : Option ℚ :=
  if values.isEmpty then none else some (values.sum / values.length)

/-- A row of an aggregate query: `b.*`, the three aggregates, and the columns selected
from the owner's `users` row, by name. -/
structure AggregateRow where
  business : Business
  product_count : Nat
  average_rating : Option ℚ
  review_count : Nat
  owner : List (String × Option String)
  deriving DecidableEq

/-- `LEFT JOIN users u ON b.owner_id = u.id`, `users.id` being a key: the owner's row if
there is one. -/
def ownerOf (db : Db) (b : Business) : Option User :=
  db.users.find? fun u => some u.id = b.owner_id

/-- The selected columns of the owner's row, NULL when there is no owner row. -/
def ownerColumns (db : Db) (b : Business) (columns : List (String × (User → Option String))) :
    List (String × Option String) :=
  columns.map fun c => (c.1, (ownerOf db b).bind c.2)

/-- `SELECT b.*, COUNT(DISTINCT p.id) as product_count, AVG(r.rating) as average_rating,
COUNT(r.id) as review_count ... GROUP BY b.id`: the group of one business. Selecting
`b.*` under `GROUP BY b.id` takes `b.id` to be the key of `businesses`, so every row of
`businesses` is a group of its own. -/
def aggregate (db : Db) (columns : List (String × (User → Option String))) (b : Business) :
    AggregateRow :=
  let rows := joinedRows db b
  { business := b,
    product_count := ((rows.filterMap fun row => row.1.map fun p => p.id).dedup).length,
    average_rating := sqlAvg (rows.filterMap fun row => row.2.map fun r => r.rating),
    review_count := (rows.filterMap fun row => row.2.map fun r => r.id).length,
    owner := ownerColumns db b columns }

/-- `ORDER BY key DESC`. The statements sort by one key and PostgreSQL is free in the
order of rows with equal keys; the source does not say which order it takes. The list
given here is one of the orders the statement allows, and the theorems about it state
what holds in each of them. -/
def orderByDesc {α : Type} (key : α → Nat) (rows : List α) : List α :=
  rows.insertionSort fun a b => key a ≥ key b

/-- `ORDER BY b.created_at DESC`. -/
def orderByCreatedDesc (rows : List Business) : List Business :=
  orderByDesc (fun b => b.created_at) rows

/-! ## The statements of `getAllBusinesses` -/

/-- The count statement: its WHERE clause and parameter array. -/
structure CountQuery where
  whereClause : String
  params : List JSVal
  deriving DecidableEq

/-- The template of `countQuery` (line breaks written as spaces). -/
def CountQuery.text (q : CountQuery) : String :=
  "SELECT COUNT(*) FROM businesses b " ++ q.whereClause

/-- The row statement: its WHERE clause, the numbers of the LIMIT and OFFSET
placeholders, and the parameter array. -/
structure ListingQuery where
  whereClause : String
  limitPlaceholder : Nat
  offsetPlaceholder : Nat
  params : List JSVal
  deriving DecidableEq

/-- The template of `query` in `getAllBusinesses` (line breaks written as spaces). -/
def ListingQuery.text (q : ListingQuery) : String :=
  "SELECT b.*, COUNT(DISTINCT p.id) as product_count, AVG(r.rating) as average_rating, "
    ++ "COUNT(r.id) as review_count, u.first_name, u.last_name "
    ++ "FROM businesses b "
    ++ "LEFT JOIN products p ON b.id = p.business_id "
    ++ "LEFT JOIN reviews r ON b.id = r.business_id "
    ++ "LEFT JOIN users u ON b.owner_id = u.id "
    ++ q.whereClause
    ++ " GROUP BY b.id, u.first_name, u.last_name"
    ++ " ORDER BY b.created_at DESC"
    ++ " LIMIT " ++ placeholder q.limitPlaceholder
    ++ " OFFSET " ++ placeholder q.offsetPlaceholder

/-- Run the count statement: the number of `businesses` rows that pass the WHERE
clause. -/
def runCount (db : Db) (fault : Option DbError) (q : CountQuery) : Except DbError Nat :=
  match fault with
  | some e => Except.error e
  | none =>
    if bindsAll q.text q.params.length then
      match compileWhere q.whereClause q.params with
      | some conjuncts => Except.ok (db.businesses.filter (accepts conjuncts)).length
      | none => Except.error { message := "syntax error in: " ++ q.text }
    else Except.error { message := "wrong number of parameters for: " ++ q.text }

/-- The owner columns `getAllBusinesses` selects. -/
def listingOwnerColumns : List (String × (User → Option String)) :=
  [("first_name", fun u => u.first_name), ("last_name", fun u => u.last_name)]

/-- Run the row statement: the rows that pass the WHERE clause, newest first, each with
its aggregates, cut to the LIMIT/OFFSET window. -/
def runListing (db : Db) (fault : Option DbError) (q : ListingQuery) :
    Except DbError (List AggregateRow) :=
  match fault with
  | some e => Except.error e
  | none =>
    if bindsAll q.text q.params.length then
      match compileWhere q.whereClause q.params with
      | none => Except.error { message := "syntax error in: " ++ q.text }
      | some conjuncts =>
        match (q.params[q.limitPlaceholder - 1]?).bind sqlLimit,
              (q.params[q.offsetPlaceholder - 1]?).bind sqlOffset with
        | some limit, some offset =>
          Except.ok (window limit offset
            ((orderByCreatedDesc (db.businesses.filter (accepts conjuncts))).map
              (aggregate db listingOwnerColumns)))
        | _, _ => Except.error { message := "invalid LIMIT or OFFSET in: " ++ q.text }
    else Except.error { message := "wrong number of parameters for: " ++ q.text }

/-! ## Handlers -/

/-- What a handler sends: `res.json(body)` (status 200 unless set) or
`res.status(code).json(\x7b error: message \x7d)`. -/
inductive Response (α : Type) where
  | json (status : Nat) (body : α)
  | error (status : Nat) (message : String)

/-- The query string of a listing request. -/
structure ListRequest where
  page : JSVal
  limit : JSVal
  category : Option String
  location : Option String
  search : Option String

/-- The body of a listing response. -/
structure ListBody where
  businesses : List AggregateRow
  pagination : Pagination

/-- The two statements `getAllBusinesses` sends for a request, as built on lines 15-65,
the offset in exact arithmetic. -/
def getAllBusinessesQueries (req : ListRequest) : CountQuery × ListingQuery :=
  let page := withDefault (JSVal.num (JSNum.fin 1)) req.page
  let limit := withDefault (JSVal.num (JSNum.fin 10)) req.limit
  let offset := computeOffset page limit
  let f := getAllBusinessesFilter req.category req.location req.search
  ({ whereClause := f.whereClause, params := f.params },
   { whereClause := f.whereClause,
     limitPlaceholder := f.paramCount + 1,
     offsetPlaceholder := f.paramCount + 2,
     params := f.params ++ [limit, JSVal.num offset] })

/-- `BusinessController.getAllBusinesses`. The count comes back as a decimal string and
goes through `parseInt`; the pagination object is computed in exact arithmetic. -/
def getAllBusinesses (db : Db) (fault : Fault) (req : ListRequest) : Response ListBody :=
  let page := withDefault (JSVal.num (JSNum.fin 1)) req.page
  let limit := withDefault (JSVal.num (JSNum.fin 10)) req.limit
  let queries := getAllBusinessesQueries req
  match runCount db (fault 0) queries.1 with
  | Except.error _ => Response.error 500 "Error fetching businesses"
  | Except.ok count =>
    let totalCount := parseInt (JSVal.str (toString count))
    match runListing db (fault 1) queries.2 with
    | Except.error _ => Response.error 500 "Error fetching businesses"
    | Except.ok rows =>
      Response.json 200
        { businesses := rows, pagination := paginationOf page limit totalCount }

/-- The body of a single-business response: the aggregate row with `products` and
`reviews` attached, each review with the columns of its author's `users` row. -/
structure DetailBody where
  business : AggregateRow
  products : List Product
  reviews : List (Review × User)

/-- The owner columns the controller's `getBusinessById` selects. -/
def detailOwnerColumns : List (String × (User → Option String)) :=
  [("first_name", fun u => u.first_name), ("last_name", fun u => u.last_name),
   ("username", fun u => u.username)]

/-- `SELECT * FROM products WHERE business_id = $1 AND is_available = true
ORDER BY created_at DESC`. -/
def availableProducts (db : Db) (id : Nat) : List Product :=
  orderByDesc (fun p => p.created_at)
    (db.products.filter fun p => p.business_id = id ∧ p.is_available = true)

/-- `SELECT r.*, u... FROM reviews r JOIN users u ON r.user_id = u.id
WHERE r.business_id = $1 ORDER BY r.created_at DESC LIMIT n`. -/
def recentReviews (db : Db) (id : Nat) (n : Nat) : List (Review × User) :=
  (orderByDesc (fun ru => ru.1.created_at)
    ((db.reviews.flatMap fun r =>
        (db.users.filter fun u => r.user_id = u.id).map fun u => (r, u)).filter
      fun ru => ru.1.business_id = id)).take n

/-- A statement that fails exactly when the store does. -/
def runQuery {α : Type} (fault : Option DbError) (result : α) : Except DbError α :=
  match fault with
  | some e => Except.error e
  | none => Except.ok result

/-- `BusinessController.getBusinessById`; `id` is the path parameter as a value of the
`id` column. -/
def getBusinessById (db : Db) (fault : Fault) (id : Nat) : Response DetailBody :=
  match runQuery (fault 0)
      ((db.businesses.filter fun b => b.id = id ∧ b.is_active = true).map
        (aggregate db detailOwnerColumns)) with
  | Except.error _ => Response.error 500 "Error fetching business"
  | Except.ok rows =>
    match rows with
    | [] => Response.error 404 "Business not found"
    | business :: _ =>
      match runQuery (fault 1) (availableProducts db id) with
      | Except.error _ => Response.error 500 "Error fetching business"
      | Except.ok products =>
        match runQuery (fault 2) (recentReviews db id 10) with
        | Except.error _ => Response.error 500 "Error fetching business"
        | Except.ok reviews =>
          Response.json 200 { business := business, products := products, reviews := reviews }

/-- Router `GET /`: the statement has no LIMIT and selects no owner columns. -/
def routerGetRoot (db : Db) (fault : Fault) (category location search : Option String) :
    Response (List AggregateRow) :=
  let f := routerGetRootFilter category location search
  let result : Except DbError (List AggregateRow) :=
    match fault 0 with
    | some e => Except.error e
    | none =>
      if bindsAll f.whereClause f.params.length then
        match compileWhere f.whereClause f.params with
        | some conjuncts =>
          Except.ok ((orderByCreatedDesc (db.businesses.filter (accepts conjuncts))).map
            (aggregate db []))
        | none => Except.error { message := "syntax error in: " ++ f.whereClause }
      else Except.error { message := "wrong number of parameters for: " ++ f.whereClause }
  match result with
  | Except.error _ => Response.error 500 "Error fetching businesses"
  | Except.ok rows => Response.json 200 rows

/-- Router `GET /:id`: the aggregate row is selected by `WHERE b.id = $1`; the product
and review statements are sent together and awaited with `Promise.all`. -/
def routerGetById (db : Db) (fault : Fault) (id : Nat) : Response DetailBody :=
  match runQuery (fault 0)
      ((db.businesses.filter fun b => b.id = id).map (aggregate db [])) with
  | Except.error _ => Response.error 500 "Error fetching business"
  | Except.ok rows =>
    match rows with
    | [] => Response.error 404 "Business not found"
    | business :: _ =>
      match runQuery (fault 1) (availableProducts db id),
            runQuery (fault 2) (recentReviews db id 20) with
      | Except.ok products, Except.ok reviews =>
        Response.json 200 { business := business, products := products, reviews := reviews }
      | _, _ => Response.error 500 "Error fetching business"

/-- The query string of a search request. -/
structure SearchRequest where
  q : Option String
  category : Option String
  location : Option String
  page : JSVal
  limit : JSVal

/-- The statement of `searchBusinesses`: its WHERE clause, the numbers of the rank,
LIMIT and OFFSET placeholders, and the parameter array. -/
structure SearchQuery where
  whereClause : String
  rankPlaceholder : Nat
  limitPlaceholder : Nat
  offsetPlaceholder : Nat
  params : List JSVal
  deriving DecidableEq

/-- The statement `searchBusinesses` sends for a request, as built on lines 282-325, the
offset in exact arithmetic. -/
def searchBusinessesQuery (req : SearchRequest) : SearchQuery :=
  let page := withDefault (JSVal.num (JSNum.fin 1)) req.page
  let limit := withDefault (JSVal.num (JSNum.fin 10)) req.limit
  let offset := computeOffset page limit
  let f := searchBusinessesFilter req.q req.category req.location
  { whereClause := f.whereClause,
    rankPlaceholder := f.paramCount + 1,
    limitPlaceholder := f.paramCount + 2,
    offsetPlaceholder := f.paramCount + 3,
    params := f.params ++
      [match req.q with
        | some q => if truthy (some q) then JSVal.str ("%" ++ q ++ "%") else JSVal.null
        | none => JSVal.null,
       limit, JSVal.num offset] }

/-! ## The predicates of the specification -/

/-- Case-insensitive substring containment; a NULL text contains nothing. -/
def containsCI (text : Option String) (term : String) : Bool :=
  match text with
  | none => false
  | some t => decide (lowerChars term <:+: lowerChars t)

/-- The listing predicate in words: the row is active, its category and location equal
the criteria that are present, and its name or description contains the search term, if
one is present, without regard to case. -/
def matchesCriteria (b : Business) (category location search : Option String) : Bool :=
  b.is_active
    && (!truthy category || b.category == category)
    && (!truthy location || b.location == location)
    && (!truthy search
        || containsCI b.name (search.getD "") || containsCI b.description (search.getD ""))

/-- `text ILIKE '%term%'` as a condition of a WHERE clause: true or not (false or
NULL). -/
def ilikeWrapped (text : Option String) (term : String) : Bool :=
  match text with
  | none => false
  | some t => ilikeMatch t ("%" ++ term ++ "%")

/-- The listing predicate as the statement evaluates it: as `matchesCriteria`, with the
search term matched as the pattern `%term%`. -/
def matchesPattern (b : Business) (category location search : Option String) : Bool :=
  b.is_active
    && (!truthy category || b.category == category)
    && (!truthy location || b.location == location)
    && (!truthy search
        || ilikeWrapped b.name (search.getD "") || ilikeWrapped b.description (search.getD ""))

/-- A character with a special meaning in a `LIKE` pattern. -/
def isLikeSpecial (c : Char) : Bool :=
  c = '%' || c = '_' || c = likeEscape

/-- The conjuncts of a listing predicate for a presence pattern: the base condition, then
one conjunct per present criterion, numbered in the order category, location, search. -/
def listingAst (c l s : Bool) : List Conjunct :=
  Conjunct.atom Atom.isActive ::
    numberFrom 1
      ((if c then [fun k => Conjunct.atom (Atom.eq Column.category k)] else [])
        ++ (if l then [fun k => Conjunct.atom (Atom.eq Column.location k)] else [])
        ++ (if s then
          [fun k => Conjunct.disj [Atom.ilike Column.name k, Atom.ilike Column.description k]]
          else []))

/-- The conjuncts of a listing predicate with the values of a request filled in. -/
def listingConjuncts (category location search : Option String) : List BoundConjunct :=
  BoundConjunct.atom BoundAtom.isActive ::
    ((if truthy category then
        [BoundConjunct.atom (BoundAtom.eq Column.category (some (category.getD "")))] else [])
      ++ (if truthy location then
        [BoundConjunct.atom (BoundAtom.eq Column.location (some (location.getD "")))] else [])
      ++ (if truthy search then
        [BoundConjunct.disj
          [BoundAtom.ilike Column.name (some ("%" ++ search.getD "" ++ "%")),
           BoundAtom.ilike Column.description (some ("%" ++ search.getD "" ++ "%"))]]
        else []))

/-- A natural number given as a number or as its decimal string. -/
def IsNatValue (v : JSVal) (n : ℕ) : Prop :=
  v = JSVal.num (JSNum.fin n) ∨ v = JSVal.str (toString n)

/-! ## Example data -/

/-- An active business with the given id, name, description and creation time, in
category Food at Kumasi, owned by user 1. -/
def sampleBusiness (id : Nat) (name description : String) (created : Nat) : Business :=
  { id := id, name := some name, description := some description,
    category := some "Food", location := some "Kumasi",
    contact_number := none, whatsapp_link := none, instagram_handle := none, logo_url := none,
    owner_id := some 1, is_active := true, created_at := created, updated_at := created }

/-- A store with two active businesses and an inactive one; business 1 has two products
(the second unavailable) and three reviews rated 5, 4 and 3. -/
def sampleDb : Db :=
  { businesses :=
      [sampleBusiness 1 "Kofi Foods" "Jollof" 5,
       sampleBusiness 2 "Ama Prints" "T-shirts and rice bags" 7,
       { sampleBusiness 3 "Closed Shop" "Gone" 1 with is_active := false }],
    products :=
      [{ id := 1, business_id := 1, name := some "Jollof bowl", is_available := true,
         created_at := 6 },
       { id := 2, business_id := 1, name := some "Waakye", is_available := false,
         created_at := 8 }],
    reviews :=
      [{ id := 1, business_id := 1, user_id := 2, rating := 5, created_at := 10 },
       { id := 2, business_id := 1, user_id := 3, rating := 4, created_at := 11 },
       { id := 3, business_id := 1, user_id := 2, rating := 3, created_at := 12 }],
    users :=
      [{ id := 1, username := some "kofi", first_name := some "Kofi", last_name := some "Mensah" },
       { id := 2, username := some "esi", first_name := some "Esi", last_name := none },
       { id := 3, username := some "yaw", first_name := some "Yaw", last_name := none }] }

/-- A listing request with the given page and limit and no criteria. -/
def pageRequest (page limit : JSVal) : ListRequest :=
  { page := page, limit := limit, category := none, location := none, search := none }

/-! ## `searchBusinesses` -/

/-- The template of `query` in `searchBusinesses` (line breaks written as spaces). -/
def SearchQuery.text (q : SearchQuery) : String :=
  "SELECT b.*, COUNT(DISTINCT p.id) as product_count, AVG(r.rating) as average_rating, "
    ++ "COUNT(r.id) as review_count "
    ++ "FROM businesses b "
    ++ "LEFT JOIN products p ON b.id = p.business_id "
    ++ "LEFT JOIN reviews r ON b.id = r.business_id "
    ++ q.whereClause
    ++ " GROUP BY b.id"
    ++ " ORDER BY CASE WHEN " ++ placeholder q.rankPlaceholder ++ " IS NOT NULL THEN"
    ++ " CASE WHEN b.name ILIKE " ++ placeholder q.rankPlaceholder ++ " THEN 1 ELSE 2 END"
    ++ " ELSE 3 END, b.created_at DESC"
    ++ " LIMIT " ++ placeholder q.limitPlaceholder
    ++ " OFFSET " ++ placeholder q.offsetPlaceholder

/-- The uses of placeholders in a statement, in the order of the text: the number of
each `$<digits>` with the text that follows it. -/
def placeholderUses : List Char → List (Nat × List Char)
  | [] => []
  | c :: rest =>
    if c = '$' ∧ rest.takeWhile Char.isDigit ≠ [] then
      (natOfDigits (rest.takeWhile Char.isDigit), rest.dropWhile Char.isDigit)
        :: placeholderUses rest
    else placeholderUses rest

/-- A use of a parameter as the operand of `IS NULL` or `IS NOT NULL` asks nothing of
its type. -/
def isUntypedUse (after : List Char) : Bool :=
  " IS NOT NULL".data.isPrefixOf after || " IS NULL".data.isPrefixOf after

/-- The driver sends parameters without types, and PostgreSQL settles the type of each
at its uses, in the order in which it analyses the statement; for the uses of one
parameter in these statements that is the order of the text. A use that asks nothing of
the type, before any use that does, leaves that occurrence without a type, and the
statement is rejected: `could not determine data type of parameter $n` (42P08). The
result is the first parameter whose first use is of that kind. Of the statements of
the handlers only that of `searchBusinesses` tests a parameter for NULL. -/
def untypedParameter (text : String) : Option Nat :=
  ((placeholderUses text.data).find? fun use =>
      isUntypedUse use.2
        && ((placeholderUses text.data).find? fun other => other.1 = use.1) = some use).map
    fun use => use.1

/-- The ordering key
`CASE WHEN $r IS NOT NULL THEN CASE WHEN b.name ILIKE $r THEN 1 ELSE 2 END ELSE 3 END`
of a row, `rank` being the value bound to `$r` (`none` is NULL). A NULL name does not
match. -/
def searchRank (rank : Option String) (b : Business) : Nat :=
  match rank with
  | none => 3
  | some pattern =>
    match b.name with
    | some name => if ilikeMatch name pattern then 1 else 2
    | none => 2

/-- The order `ORDER BY <rank key>, b.created_at DESC` puts two rows in: smaller key
first, and for equal keys the newer row first. -/
def searchBefore (rank : Option String) (a b : Business) : Prop :=
  searchRank rank a < searchRank rank b
    ∨ (searchRank rank a = searchRank rank b ∧ a.created_at ≥ b.created_at)

instance searchBeforeDecidable (rank : Option String) : DecidableRel (searchBefore rank) :=
  fun a b => inferInstanceAs (Decidable
    (searchRank rank a < searchRank rank b
      ∨ (searchRank rank a = searchRank rank b ∧ a.created_at ≥ b.created_at)))

/-- `ORDER BY <rank key>, b.created_at DESC`: one of the orders the clause allows, the
order of rows equal in both keys being the choice of PostgreSQL. -/
def orderBySearchRank (rank : Option String) (rows : List Business) : List Business :=
  rows.insertionSort (searchBefore rank)

/-- Run the statement of `searchBusinesses`. PostgreSQL analyses it first and rejects it
when a parameter is left without a type. A statement that passes returns the rows that
pass the WHERE clause, ordered by rank and then newest first, each with its aggregates,
cut to the LIMIT/OFFSET window. -/
def runSearch (db : Db) (fault : Option DbError) (q : SearchQuery) :
    Except DbError (List AggregateRow) :=
  match fault with
  | some e => Except.error e
  | none =>
    match untypedParameter q.text with
    | some k =>
      Except.error { message := "could not determine data type of parameter " ++ placeholder k }
    | none =>
      if bindsAll q.text q.params.length then
        match compileWhere q.whereClause q.params, textParam q.params q.rankPlaceholder with
        | some conjuncts, some rank =>
          match (q.params[q.limitPlaceholder - 1]?).bind sqlLimit,
                (q.params[q.offsetPlaceholder - 1]?).bind sqlOffset with
          | some limit, some offset =>
            Except.ok (window limit offset
              ((orderBySearchRank rank (db.businesses.filter (accepts conjuncts))).map
                (aggregate db [])))
          | _, _ => Except.error { message := "invalid LIMIT or OFFSET in: " ++ q.text }
        | _, _ => Except.error { message := "syntax error in: " ++ q.text }
      else Except.error { message := "wrong number of parameters for: " ++ q.text }

/-- The body of a search response: the rows, the term as given, and the two filters. -/
structure SearchBody where
  businesses : List AggregateRow
  searchQuery : Option String
  filters : Option String × Option String

/-- `BusinessController.searchBusinesses`: one statement inside `try`, any error of
which is answered with 500. -/
def searchBusinesses (db : Db) (fault : Fault) (req : SearchRequest) : Response SearchBody :=
  match runSearch db (fault 0) (searchBusinessesQuery req) with
  | Except.error _ => Response.error 500 "Error searching businesses"
  | Except.ok rows =>
    Response.json 200
      { businesses := rows, searchQuery := req.q, filters := (req.category, req.location) }

/-! ## The router's search -/

/-- `WHERE b.name ILIKE $1 OR b.description ILIKE $1 OR b.category ILIKE $1` with
`'%' + query + '%'` bound to `$1`: true when one of the three columns matches, a NULL
column matching nothing. -/
def routerSearchAccepts (query : String) (b : Business) : Bool :=
  ilikeWrapped b.name query || ilikeWrapped b.description query
    || ilikeWrapped b.category query

/-- Router `GET /search/:query`: the matching rows, newest first, each with its
aggregates. -/
def routerSearch (db : Db) (fault : Fault) (query : String) : Response (List AggregateRow) :=
  match runQuery (fault 0)
      ((orderByCreatedDesc (db.businesses.filter (routerSearchAccepts query))).map
        (aggregate db [])) with
  | Except.error _ => Response.error 500 "Error searching businesses"
  | Except.ok rows => Response.json 200 rows

/-- The WHERE clause of `searchBusinesses` as a function of the presence pattern alone. -/
def searchWhereOf (q c l : Bool) : String :=
  (searchBusinessesFilter (if q then some "x" else none) (if c then some "x" else none)
    (if l then some "x" else none)).whereClause

/-- The conjuncts of a search predicate for a presence pattern: the base condition, then
one conjunct per present criterion, numbered in the order term, category, location. -/
def searchAst (q c l : Bool) : List Conjunct :=
  Conjunct.atom Atom.isActive ::
    numberFrom 1
      ((if q then
          [fun k => Conjunct.disj [Atom.ilike Column.name k, Atom.ilike Column.description k]]
          else [])
        ++ (if c then [fun k => Conjunct.atom (Atom.eq Column.category k)] else [])
        ++ (if l then [fun k => Conjunct.atom (Atom.eq Column.location k)] else []))

/-- The conjuncts of a search predicate with the values of a request filled in. -/
def searchConjuncts (q category location : Option String) : List BoundConjunct :=
  BoundConjunct.atom BoundAtom.isActive ::
    ((if truthy q then
        [BoundConjunct.disj
          [BoundAtom.ilike Column.name (some ("%" ++ q.getD "" ++ "%")),
           BoundAtom.ilike Column.description (some ("%" ++ q.getD "" ++ "%"))]]
        else [])
      ++ (if truthy category then
        [BoundConjunct.atom (BoundAtom.eq Column.category (some (category.getD "")))] else [])
      ++ (if truthy location then
        [BoundConjunct.atom (BoundAtom.eq Column.location (some (location.getD "")))] else []))

/-- The value `searchBusinesses` binds to the rank placeholder, as a text operand:
`q ? '%' + q + '%' : null`. -/
def searchRankParam (q : Option String) : Option String :=
  if truthy q then some ("%" ++ q.getD "" ++ "%") else none

/-- A search request with the given term and nothing else. -/
def termRequest (term : String) : SearchRequest :=
  { q := some term, category := none, location := none, page := JSVal.undefined,
    limit := JSVal.undefined }

/-- A store with two active businesses: the older one has "rice" in its name, the newer
one only in its description. -/
def riceDb : Db :=
  { businesses :=
      [sampleBusiness 1 "Rice House" "Meals" 1,
       sampleBusiness 2 "Ama Prints" "T-shirts and rice bags" 7],
    products := [], reviews := [], users := [] }

/-! ## The analytics report -/

/-- `SUM` of the non-NULL values: NULL for none. -/
def sqlSum (values : List ℚ) : Option ℚ :=
  if values.isEmpty then none else some values.sum

/-- The row of the totals statement. -/
structure Totals where
  total_orders : Nat
  total_revenue : ℚ
  avg_order_value : ℚ
  deriving DecidableEq

/-- `SELECT COUNT(*)::int AS total_orders, COALESCE(SUM(total_amount),0)::numeric AS
total_revenue, COALESCE(AVG(total_amount),0)::numeric AS avg_order_value FROM orders
WHERE business_id = $1`. -/
def orderTotals (db : Db) (id : Nat) : Totals :=
  let amounts := (db.orders.filter fun o => o.business_id = id).map fun o => o.total_amount
  { total_orders := amounts.length,
    total_revenue := (sqlSum amounts).getD 0,
    avg_order_value := (sqlAvg amounts).getD 0 }

/-- A row of the status statement. -/
structure StatusCount where
  status : String
  count : Nat
  deriving DecidableEq

/-- `SELECT status, COUNT(*)::int AS count FROM orders WHERE business_id = $1
GROUP BY status`. -/
def statusBreakdown (db : Db) (id : Nat) : List StatusCount :=
  let orders := db.orders.filter fun o => o.business_id = id
  (orders.map fun o => o.status).dedup.map fun s =>
    { status := s, count := (orders.filter fun o => o.status = s).length }

/-- A row of the product statement. -/
structure ProductSales where
  id : Nat
  name : Option String
  total_sold : Int
  deriving DecidableEq

/-- The groups of
`SELECT p.id, p.name, SUM(oi.quantity)::int AS total_sold FROM order_items oi
JOIN products p ON oi.product_id = p.id WHERE p.business_id = $1 GROUP BY p.id, p.name`:
one for every product of the business that has an order item, `products.id` being the
key of the table. -/
def productSales (db : Db) (id : Nat) : List ProductSales :=
  (db.products.filter fun p => p.business_id = id).filterMap fun p =>
    let items := db.order_items.filter fun oi => oi.product_id = p.id
    if items.isEmpty then none
    else some { id := p.id, name := p.name, total_sold := (items.map fun oi => oi.quantity).sum }

/-- `... ORDER BY total_sold DESC LIMIT 5`. The statement sorts by the sum alone and
PostgreSQL is free in the order of groups with equal sums; the source does not say which
order it takes. The list given here is one of the orders the statement allows, and the
theorems about it state what holds in each of them. -/
def topProducts (db : Db) (id : Nat) : List ProductSales :=
  ((productSales db id).insertionSort fun a b => a.total_sold ≥ b.total_sold).take 5

/-- Seconds in a day; timestamps count seconds. -/
def secondsPerDay : Nat := 86400

/-- `date_trunc('day', t)`, as the number of the day. -/
def dayOf (t : Nat) : Nat := t / secondsPerDay

/-- A row of the daily statement; the day stands for its `YYYY-MM-DD` text, which sorts
as the days do. -/
structure DayCount where
  day : Nat
  orders : Nat
  deriving DecidableEq

/-- The rows the daily statement groups: `FROM orders WHERE business_id = $1 AND
created_at >= NOW() - INTERVAL '30 days'`. -/
def recentOrders (db : Db) (now : Nat) (id : Nat) : List Order :=
  db.orders.filter fun o => o.business_id = id ∧ o.created_at ≥ now - 30 * secondsPerDay

/-- `SELECT to_char(date_trunc('day', created_at), 'YYYY-MM-DD') AS day,
COUNT(*)::int AS orders ... GROUP BY day ORDER BY day ASC`. -/
def dailyOrders (db : Db) (now : Nat) (id : Nat) : List DayCount :=
  (((recentOrders db now id).map fun o => dayOf o.created_at).dedup.insertionSort
      fun a b => a ≤ b).map fun d =>
    { day := d, orders := ((recentOrders db now id).filter fun o => dayOf o.created_at = d).length }

/-- The report of the analytics handler. -/
structure AnalyticsBody where
  totals : Totals
  ordersByStatus : List StatusCount
  topProducts : List ProductSales
  ordersPerDay : List DayCount
  deriving DecidableEq

/-- Router `GET /:id/analytics`: four statements sent together and awaited with
`Promise.all`; `now` is the time of the request. -/
def routerAnalytics (db : Db) (fault : Fault) (now : Nat) (id : Nat) : Response AnalyticsBody :=
  match runQuery (fault 0) (orderTotals db id), runQuery (fault 1) (statusBreakdown db id),
        runQuery (fault 2) (topProducts db id), runQuery (fault 3) (dailyOrders db now id) with
  | Except.ok ordersAgg, Except.ok statusAgg, Except.ok products, Except.ok daily =>
    Response.json 200
      { totals := ordersAgg, ordersByStatus := statusAgg, topProducts := products,
        ordersPerDay := daily }
  | _, _, _, _ => Response.error 500 "Error fetching analytics"

/-! ## Deleting a business -/

/-- `UPDATE businesses SET is_active = false, updated_at = NOW() WHERE id = $1`. -/
def softDelete (db : Db) (now : Nat) (id : Nat) : Db :=
  { db with
    businesses := db.businesses.map fun b =>
      if b.id = id then { b with is_active := false, updated_at := now } else b }

/-- `BusinessController.deleteBusiness`: the response and the store afterwards. -/
def deleteBusiness (db : Db) (fault : Fault) (now : Nat) (id : Nat) : Response String × Db :=
  match runQuery (fault 0) (db.businesses.filter fun b => b.id = id ∧ b.is_active = true) with
  | Except.error _ => (Response.error 500 "Error deleting business", db)
  | Except.ok existingBusiness =>
    match existingBusiness with
    | [] => (Response.error 404 "Business not found", db)
    | _ :: _ =>
      match runQuery (fault 1) (softDelete db now id) with
      | Except.error _ => (Response.error 500 "Error deleting business", db)
      | Except.ok db' => (Response.json 200 "Business deleted successfully", db')

/-- Router `DELETE /:id`, for a request that has passed `authenticateToken` and
`authorizeOwner`: `DELETE FROM businesses WHERE id = $1 RETURNING *`, with the response
and the store afterwards. Rows of other tables that refer to the business are left as
they are. -/
def routerDelete (db : Db) (fault : Fault) (id : Nat) : Response String × Db :=
  match fault 0 with
  | some _ => (Response.error 500 "Error deleting business", db)
  | none =>
    let deleted := db.businesses.filter fun b => b.id = id
    let db' : Db := { db with businesses := db.businesses.filter fun b => b.id ≠ id }
    match deleted with
    | [] => (Response.error 404 "Business not found", db')
    | _ :: _ => (Response.json 200 "Business deleted successfully", db')

/-- A store with one business, three orders of 10, 20 and 30 on two days, and order
items for two products that sold three items each. -/
def ordersDb : Db :=
  { businesses := [sampleBusiness 1 "Kofi Foods" "Jollof" 5],
    products :=
      [{ id := 1, business_id := 1, name := some "Jollof bowl", is_available := true,
         created_at := 6 },
       { id := 2, business_id := 1, name := some "Waakye", is_available := true,
         created_at := 8 }],
    reviews := [], users := [],
    orders :=
      [{ id := 1, business_id := 1, status := "pending", total_amount := 10,
         created_at := 100 * 86400 + 5 },
       { id := 2, business_id := 1, status := "completed", total_amount := 20,
         created_at := 100 * 86400 + 9 },
       { id := 3, business_id := 1, status := "completed", total_amount := 30,
         created_at := 101 * 86400 }],
    order_items :=
      [{ id := 1, order_id := 1, product_id := 1, quantity := 3 },
       { id := 2, order_id := 2, product_id := 2, quantity := 1 },
       { id := 3, order_id := 3, product_id := 2, quantity := 2 }] }

/-! ## Creating a business -/

/-- Truthiness of a JavaScript value: `!v` holds for `undefined`, `null`, NaN, zero and
the empty string. -/
def JSVal.truthy : JSVal → Bool
  | JSVal.undefined => false
  | JSVal.null => false
  | JSVal.num JSNum.nan => false
  | JSVal.num (JSNum.fin q) => q ≠ 0
  | JSVal.num _ => true
  | JSVal.str s => s ≠ ""

/-- The body of a create request: a text field is absent or a string, `owner_id` is any
value. -/
structure CreateBody where
  name : Option String
  description : Option String
  category : Option String
  location : Option String
  contact_number : Option String
  whatsapp_link : Option String
  instagram_handle : Option String
  logo_url : Option String
  owner_id : JSVal

/-- Modelled from the spec: the default of the column `is_active`, declared in the
schema of `businesses`, which is not part of the sources. A business is "created on
registration" and "soft-deleted by clearing the active flag": a new row is active. -/
def isActiveDefault : Bool := true

/-- `INSERT INTO businesses (name, ..., owner_id) VALUES ($1, ..., $9) RETURNING *`: the
new row, stored after the others, and the store afterwards. The id is the value the
sequence of the key column hands out, the timestamps are the time of the statement; an
id already in use violates the key and the statement fails. Other constraints of the
schema fail the statement like a failure of the store does. -/
def insertBusiness (db : Db) (fresh now : Nat) (body : CreateBody) (owner : Option Nat) :
    Except DbError (Business × Db) :=
  if db.businesses.any (fun b => b.id = fresh) then
    Except.error { message := "duplicate key value violates unique constraint" }
  else
    let row : Business :=
      { id := fresh,
        name := body.name,
        description := body.description,
        category := body.category,
        location := body.location,
        contact_number := body.contact_number,
        whatsapp_link := body.whatsapp_link,
        instagram_handle := body.instagram_handle,
        logo_url := body.logo_url,
        owner_id := owner,
        is_active := isActiveDefault,
        created_at := now,
        updated_at := now }
    Except.ok (row, { db with businesses := db.businesses ++ [row] })

/-- What `createBusiness` sends. -/
inductive CreateResponse where
  | created (message : String) (business : Business)
  | missing (error : String) (required : List String)
  | error (status : Nat) (message : String)
  deriving DecidableEq

/-- A parameter compared with a key column: read as an integer like `sqlBigint` reads
it. The outer `none` is a value that is no integer, on which the statement fails; the
inner `none` is a value no key equals (NULL, or a negative number). -/
def sqlKey (v : JSVal) : Option (Option Nat) :=
  (sqlBigint v).map fun i => i.bind fun k => if 0 ≤ k then some k.toNat else none

/-- `BusinessController.createBusiness`: the response and the store afterwards. The
three statements are `SELECT id FROM users WHERE id = $1`,
`SELECT id FROM businesses WHERE owner_id = $1 AND is_active = true` and the INSERT. -/
def createBusiness (db : Db) (fault : Fault) (fresh now : Nat) (body : CreateBody) :
    CreateResponse × Db :=
  if !truthy body.name || !truthy body.description || !truthy body.category
      || !truthy body.location || !truthy body.contact_number || !body.owner_id.truthy then
    (CreateResponse.missing "Missing required fields"
      ["name", "description", "category", "location", "contact_number", "owner_id"], db)
  else
    match sqlKey body.owner_id with
    | none => (CreateResponse.error 500 "Error creating business", db)
    | some owner =>
      match runQuery (fault 0) (db.users.filter fun u => some u.id = owner) with
      | Except.error _ => (CreateResponse.error 500 "Error creating business", db)
      | Except.ok [] => (CreateResponse.error 400 "User not found", db)
      | Except.ok (_ :: _) =>
        match runQuery (fault 1)
            (db.businesses.filter fun b =>
              owner ≠ none ∧ b.owner_id = owner ∧ b.is_active = true) with
        | Except.error _ => (CreateResponse.error 500 "Error creating business", db)
        | Except.ok (_ :: _) =>
          (CreateResponse.error 400 "User already has an active business", db)
        | Except.ok [] =>
          match (runQuery (fault 2) ()).bind fun _ => insertBusiness db fresh now body owner with
          | Except.error _ => (CreateResponse.error 500 "Error creating business", db)
          | Except.ok (row, db') =>
            (CreateResponse.created "Business created successfully" row, db')

/-- Router `POST /`, for a request that has passed `authenticateToken`, which sets
`req.user`; `userId` is `req.user.id`. The body's `owner_id` is not read. -/
def routerPost (db : Db) (fault : Fault) (fresh now : Nat) (userId : Nat) (body : CreateBody) :
    Response Business × Db :=
  match (runQuery (fault 0) ()).bind fun _ => insertBusiness db fresh now body (some userId) with
  | Except.error _ => (Response.error 500 "Error creating business", db)
  | Except.ok (row, db') => (Response.json 201 row, db')

/-- Every owner has at most one active business. -/
def OneActivePerOwner (db : Db) : Prop :=
  ∀ owner : Nat,
    (db.businesses.filter fun b => b.owner_id = some owner ∧ b.is_active = true).length ≤ 1

/-- A complete create body for the given owner. -/
def shopBody (owner_id : JSVal) : CreateBody :=
  { name := some "Ama Snacks", description := some "Snacks", category := some "Food",
    location := some "Unity Hall", contact_number := some "0200000000",
    whatsapp_link := none, instagram_handle := none, logo_url := none,
    owner_id := owner_id }

/-- A store in which user 1 owns the active business 1 and user 2 owns none. -/
def ownerDb : Db :=
  { businesses := [sampleBusiness 1 "Kofi Foods" "Jollof" 5],
    products := [], reviews := [],
    users := [{ id := 1, username := some "kofi", first_name := some "Kofi",
                last_name := some "Mensah" },
              { id := 2, username := some "ama", first_name := some "Ama",
                last_name := some "Owusu" }] }

/-- The `n` most recent of the reviews `all`, newest first: `shown` is in descending
order of creation time, has `n` entries or all of them, and, together with the reviews
left out, is `all`, none of those left out being newer than one that is shown. -/
def IsMostRecent (n : Nat) (all shown : List Review) : Prop :=
  shown.length = min n all.length ∧
  shown.Pairwise (fun x y => x.created_at ≥ y.created_at) ∧
  ∃ rest : List Review, (shown ++ rest).Perm all ∧
    ∀ x ∈ shown, ∀ y ∈ rest, x.created_at ≥ y.created_at

/-! ## The frontend: `AuthManager.logout` -/

/-- The entries of `localStorage` or of `sessionStorage`. -/
abbrev Storage := List (String × String)

/-- `storage.getItem(key)`: the value, or `null`. -/
def Storage.getItem (storage : Storage) (key : String) : Option String :=
  (storage.find? fun entry => entry.1 = key).map fun entry => entry.2

/-- `storage.removeItem(key)`. -/
def Storage.removeItem (storage : Storage) (key : String) : Storage :=
  storage.filter fun entry => entry.1 ≠ key

/-- The user object the server sends on login. -/
structure AuthUser where
  id : Nat
  firstName : Option String
  deriving DecidableEq

/-- The fields of `AuthManager` and the two storages of the page. -/
structure AuthState where
  currentUser : Option AuthUser
  token : Option String
  localStorage : Storage
  sessionStorage : Storage
  deriving DecidableEq

/-- How the `try` block of `logout` runs: the request is rejected (`await fetch` throws),
or it is answered, with whatever status, and then the interface update and the alert go
through or one of them throws. -/
inductive LogoutRun where
  | rejected
  | answered (status : Nat) (uiThrows : Bool)
  deriving DecidableEq

/-- The four assignments of the `try` block, after the request. -/
def clearAfterResponse (st : AuthState) : AuthState :=
  { currentUser := none,
    token := none,
    localStorage := st.localStorage.removeItem "token",
    sessionStorage := st.sessionStorage.removeItem "welcomeShown" }

/-- The three assignments of the `catch` block. -/
def clearAfterError (st : AuthState) : AuthState :=
  { currentUser := none,
    token := none,
    localStorage := st.localStorage.removeItem "token",
    sessionStorage := st.sessionStorage }

/-- `AuthManager.logout`: the state it leaves. With `currentUser` null, `updateUI`
writes to the document only. -/
def logout (run : LogoutRun) (st : AuthState) : AuthState :=
  match run with
  | LogoutRun.rejected => clearAfterError st
  | LogoutRun.answered _ uiThrows =>
    if uiThrows then clearAfterError (clearAfterResponse st) else clearAfterResponse st

/-- `AuthManager.isAuthenticated`: `!!this.currentUser`. -/
def isAuthenticated (st : AuthState) : Bool :=
  st.currentUser.isSome

/-- A logged-in page that has shown its welcome message. -/
def loggedIn : AuthState :=
  { currentUser := some { id := 1, firstName := some "Kofi" },
    token := some "t0k3n",
    localStorage := [("token", "t0k3n"), ("cart", "[]")],
    sessionStorage := [("welcomeShown", "true")] }

/-! ## The frontend: the cart -/

namespace JSNum

/-- The `+` operator on numbers. -/
def add : JSNum → JSNum → JSNum
  | fin a, fin b => fin (a + b)
  | nan, _ => nan
  | _, nan => nan
  | posInf, negInf => nan
  | negInf, posInf => nan
  | posInf, _ => posInf
  | negInf, _ => negInf
  | fin _, posInf => posInf
  | fin _, negInf => negInf

/-- The `<=` operator on numbers; false as soon as one side is NaN. -/
def le : JSNum → JSNum → Bool
  | nan, _ => false
  | _, nan => false
  | a, b => !lt b a

/-- Truthiness of a number: `!q` holds for NaN and for zero. -/
def truthy : JSNum → Bool
  | nan => false
  | fin q => q ≠ 0
  | _ => true

end JSNum

/-- The integers from here on are rounded to `Infinity` when converted to a double: half
way between the largest double and `2^1024`. -/
def doubleOverflow : Nat := 2 ^ 1024 - 2 ^ 970

/-- `parseInt(string, 10)`: leading white space, an optional sign, then the longest run
of decimal digits; NaN without a digit. The integer is converted to a double; of that
conversion only the overflow to an infinity is represented. -/
def parseIntString10 (s : String) : JSNum :=
  let cs := s.data.dropWhile isJSWhitespace
  let negative : Bool := cs.head? = some '-'
  let ds := (dropSign cs).takeWhile Char.isDigit
  if ds = [] then JSNum.nan
  else if doubleOverflow ≤ natOfDigits ds then
    if negative then JSNum.negInf else JSNum.posInf
  else JSNum.fin (if negative then -(natOfDigits ds : ℚ) else natOfDigits ds)

/-- `parseInt(value, 10)`: the value is converted to a string first, numbers as in
`parseInt`. -/
def parseInt10 : JSVal → JSNum
  | JSVal.str s => parseIntString10 s
  | JSVal.num (JSNum.fin q) => JSNum.fin (truncate q)
  | _ => JSNum.nan

/-- The id of a cart item: a number or a string. A numeric id is an integer (ids are
keys of `products`), written in decimal notation when it is converted to a string. -/
inductive CartId where
  | num (n : Int)
  | str (s : String)
  deriving DecidableEq

/-- `String(id)`. -/
def CartId.toText : CartId → String
  | CartId.num n => toString n
  | CartId.str s => s

/-- The fields of a product that the cart reads; `id` is `none` when the product has no
`id` that is a number or a string, a text field is `none` when it is `undefined`. -/
structure CartProduct where
  id : Option CartId
  name : Option String
  business_name : Option String
  business : Option String
  price : JSVal
  deriving DecidableEq

/-- An entry of `cart.items`: the fields of the product, with `id` and `quantity` set by
`addItem`. -/
structure CartItem where
  id : CartId
  name : Option String
  business_name : Option String
  business : Option String
  price : JSVal
  quantity : JSNum
  deriving DecidableEq

/-- A text field inside a template literal. -/
def templateText : Option String → String
  | none => "undefined"
  | some s => s

/-- Line 8 of `scripts.js`: the id of the product, or
`name-(business_name || business)` for a product without one. -/
def cartItemId (product : CartProduct) : CartId :=
  match product.id with
  | some id => id
  | none =>
    CartId.str (templateText product.name ++ "-" ++
      templateText (if truthy product.business_name then product.business_name
        else product.business))

/-- Apply `f` to the first element that satisfies `p`, as an assignment to the object
that `Array.prototype.find` returns does. -/
def updateFirst {α : Type} (p : α → Bool) (f : α → α) : List α → List α
  | [] => []
  | a :: as => if p a then f a :: as else a :: updateFirst p f as

/-- `cart.addItem`, on `cart.items`. -/
def addItem (items : List CartItem) (product : CartProduct) : List CartItem :=
  let id := cartItemId product
  match items.find? fun item => item.id = id with
  | some _ =>
    updateFirst (fun item => item.id = id)
      (fun item => { item with quantity := JSNum.add item.quantity (JSNum.fin 1) }) items
  | none =>
    items ++ [{ id := id, name := product.name, business_name := product.business_name,
                business := product.business, price := product.price,
                quantity := JSNum.fin 1 }]

/-- `cart.removeItem`, on `cart.items`; of the argument only its string form is used. -/
def removeItem (items : List CartItem) (productId : CartId) : List CartItem :=
  items.filter fun item => item.id.toText ≠ productId.toText

/-- `cart.updateQuantity`, on `cart.items`. -/
def updateQuantity (items : List CartItem) (productId : CartId) (quantity : JSVal) :
    List CartItem :=
  match items.find? fun item => item.id.toText = productId.toText with
  | none => items
  | some _ =>
    let q := parseInt10 quantity
    if !q.truthy || JSNum.le q (JSNum.fin 0) then removeItem items productId
    else
      updateFirst (fun item => item.id.toText = productId.toText)
        (fun item => { item with quantity := q }) items

/-- `cart.clear`, on `cart.items`. -/
def clear (_items : List CartItem) : List CartItem := []

/-- A call of one of the four methods of the cart that change `items`. -/
inductive CartCall where
  | addItem (product : CartProduct)
  | removeItem (productId : CartId)
  | updateQuantity (productId : CartId) (quantity : JSVal)
  | clear

/-- The items after a call. -/
def CartCall.run (items : List CartItem) : CartCall → List CartItem
  | CartCall.addItem product => EnterpriseHub.addItem items product
  | CartCall.removeItem productId => EnterpriseHub.removeItem items productId
  | CartCall.updateQuantity productId quantity =>
    EnterpriseHub.updateQuantity items productId quantity
  | CartCall.clear => EnterpriseHub.clear items

/-- The items after a sequence of calls on the empty cart. -/
def cartAfter (calls : List CartCall) : List CartItem :=
  calls.foldl CartCall.run []

/-- A product as the products API sends it, with a numeric id. -/
def bowl : CartProduct :=
  { id := some (CartId.num 1), name := some "Jollof bowl", business_name := some "Kofi Foods",
    business := none, price := JSVal.str "15.00" }

/-- A quantity of 310 digits, as text. -/
def hugeQuantity : String := String.mk (List.replicate 310 '9')

/-- A quantity the cart can hold after calls on the empty cart: a whole number from 1 on,
or `Infinity`. -/
def IsCartQuantity (q : JSNum) : Prop :=
  (∃ n : ℕ, 1 ≤ n ∧ q = JSNum.fin n) ∨ q = JSNum.posInf

/-- The same product as `bowl`, with its id as a string. -/
def bowlText : CartProduct :=
  { bowl with id := some (CartId.str "1") }

/-! ## The frontend: star ratings -/

namespace JSNum

/-- `Math.floor`. -/
def floor : JSNum → JSNum
  | fin a => fin ⌊a⌋
  | x => x

/-- The `%` operator on numbers: the remainder has the sign of the dividend. -/
def mod : JSNum → JSNum → JSNum
  | fin a, fin b => if b = 0 then nan else fin (a - b * truncate (a / b))
  | fin a, posInf => fin a
  | fin a, negInf => fin a
  | _, _ => nan

/-- The `===` operator on numbers: NaN equals nothing. -/
def strictEq : JSNum → JSNum → Bool
  | nan, _ => false
  | _, nan => false
  | a, b => a = b

end JSNum

/-- The icon of a full star. -/
def fullStarIcon : String := "<i class=\"fas fa-star\"></i>"

/-- The icon of a half star. -/
def halfStarIcon : String := "<i class=\"fas fa-star-half-alt\"></i>"

/-- The icon of an empty star. -/
def emptyStarIcon : String := "<i class=\"far fa-star\"></i>"

/-- The icon the loop of `generateStarRating` appends in round `i`. -/
def starIcon (fullStars : JSNum) (hasHalfStar : Bool) (i : Nat) : String :=
  if JSNum.lt (JSNum.fin i) fullStars then fullStarIcon
  else if JSNum.strictEq (JSNum.fin i) fullStars && hasHalfStar then halfStarIcon
  else emptyStarIcon

/-- The two constants `generateStarRating` computes before its loop: `fullStars` and
`hasHalfStar`. -/
def starCounts (rating : JSVal) : JSNum × Bool :=
  (JSNum.floor (toNumber rating),
   !JSNum.strictEq (JSNum.mod (toNumber rating) (JSNum.fin 1)) (JSNum.fin 0))

/-- `generateStarRating`: five rounds, each appending one icon to `html`. -/
def generateStarRating (rating : JSVal) : String :=
  (List.range 5).foldl
    (fun html i => html ++ starIcon (starCounts rating).1 (starCounts rating).2 i) ""

/-- The icons the specification names for a rating `r >= 0`: `min(floor(r), 5)` full
stars, a half star if `r` is no integer and `floor(r) < 5`, empty stars up to five. -/
def expectedStars (r : ℚ) : List String :=
  List.replicate (min ⌊r⌋.toNat 5) fullStarIcon
    ++ (if r ≠ ⌊r⌋ ∧ ⌊r⌋ < 5 then [halfStarIcon] else [])
    ++ List.replicate (5 - min ⌊r⌋.toNat 5 - (if r ≠ ⌊r⌋ ∧ ⌊r⌋ < 5 then 1 else 0))
        emptyStarIcon

/-! ## JavaScript numbers as doubles -/

/-- The nearest integer, a tie going to the even one. -/
def roundHalfEven (x : ℚ) : ℤ :=
  if x - ⌊x⌋ < 1 / 2 then ⌊x⌋
  else if 1 / 2 < x - ⌊x⌋ then ⌊x⌋ + 1
  else if ⌊x⌋ % 2 = 0 then ⌊x⌋
  else ⌊x⌋ + 1

/-- The exponent `e` of the binade of a rational, `2 ^ e ≤ |q| < 2 ^ (e + 1)`; what lies
below the smallest normal double has the exponent `-1022` of that one. -/
def doubleExponent (q : ℚ) : ℤ :=
  max (Int.log 2 |q|) (-1022)

/-- The double nearest to a rational: doubles carry 53 significant bits, so in the binade
of exponent `e` they are the multiples of `2 ^ (e - 52)`; a tie goes to the even
multiple, and what rounds to `2 ^ 1024` or beyond is an infinity. The sign of zero is
not represented. -/
def roundToDouble (q : ℚ) : JSNum :=
  let r : ℚ := roundHalfEven (q / 2 ^ (doubleExponent q - 52)) * 2 ^ (doubleExponent q - 52)
  if (2 : ℚ) ^ (1024 : ℕ) ≤ |r| then (if q < 0 then JSNum.negInf else JSNum.posInf)
  else JSNum.fin r

/-- A number as the double that holds it. -/
def JSNum.toDouble : JSNum → JSNum
  | JSNum.fin q => roundToDouble q
  | x => x

/-- `const offset = (page - 1) * limit` as doubles compute it: the two conversions and
the two operations of `computeOffset`, each followed by the rounding to a double. -/
def computeOffsetDouble (page limit : JSVal) : JSNum :=
  (JSNum.mul (JSNum.sub (toNumber page).toDouble (JSNum.fin 1)).toDouble
    (toNumber limit).toDouble).toDouble

/-- The `pagination` object as doubles compute it: the conversions and operations of
`paginationOf`, each followed by the rounding to a double. -/
def paginationOfDouble (page limit : JSVal) (totalCount : JSNum) : Pagination :=
  { currentPage := (parseInt page).toDouble,
    totalPages := JSNum.ceil (JSNum.div totalCount (toNumber limit).toDouble).toDouble,
    totalCount := totalCount,
    hasNext :=
      JSNum.lt (JSNum.mul (toNumber page).toDouble (toNumber limit).toDouble).toDouble totalCount,
    hasPrev := JSNum.lt (JSNum.fin 1) (toNumber page).toDouble }

/-! # Theorems -/

/-! ## Filter builders: basic facts -/

theorem addCategory_eq (category : Option String) (f : Filter) :
    addCategory category f =
      if truthy category = true then
        { whereClause := f.whereClause ++ " AND b.category = " ++ placeholder (f.paramCount + 1),
          params := f.params ++ [JSVal.str (category.getD "")],
          paramCount := f.paramCount + 1 }
      else f := by
  cases category <;> simp [addCategory, truthy]

theorem addLocation_eq (location : Option String) (f : Filter) :
    addLocation location f =
      if truthy location = true then
        { whereClause := f.whereClause ++ " AND b.location = " ++ placeholder (f.paramCount + 1),
          params := f.params ++ [JSVal.str (location.getD "")],
          paramCount := f.paramCount + 1 }
      else f := by
  cases location <;> simp [addLocation, truthy]

theorem addSearch_eq (search : Option String) (f : Filter) :
    addSearch search f =
      if truthy search = true then
        { whereClause := f.whereClause ++ " AND (b.name ILIKE " ++ placeholder (f.paramCount + 1)
            ++ " OR b.description ILIKE " ++ placeholder (f.paramCount + 1) ++ ")",
          params := f.params ++ [JSVal.str ("%" ++ search.getD "" ++ "%")],
          paramCount := f.paramCount + 1 }
      else f := by
  cases search <;> simp [addSearch, truthy]

theorem routerGetRootParts_eq (category location search : Option String) :
    routerGetRootParts category location search =
      let r0 : RouterFilter := { whereParts := ["b.is_active = true"], params := [], idx := 0 }
      let r1 : RouterFilter :=
        if truthy category = true then
          { whereParts := r0.whereParts ++ ["b.category = " ++ placeholder (r0.idx + 1)],
            params := r0.params ++ [JSVal.str (category.getD "")], idx := r0.idx + 1 }
        else r0
      let r2 : RouterFilter :=
        if truthy location = true then
          { whereParts := r1.whereParts ++ ["b.location = " ++ placeholder (r1.idx + 1)],
            params := r1.params ++ [JSVal.str (location.getD "")], idx := r1.idx + 1 }
        else r1
      if truthy search = true then
        { whereParts := r2.whereParts ++ ["(b.name ILIKE " ++ placeholder (r2.idx + 1)
            ++ " OR b.description ILIKE " ++ placeholder (r2.idx + 1) ++ ")"],
          params := r2.params ++ [JSVal.str ("%" ++ search.getD "" ++ "%")], idx := r2.idx + 1 }
      else r2 := by
  cases category <;> cases location <;> cases search <;> simp [routerGetRootParts, truthy]

theorem getAllBusinessesFilter_whereClause (category location search : Option String) :
    (getAllBusinessesFilter category location search).whereClause =
      getAllWhereOf (truthy category) (truthy location) (truthy search) := by
  rw [getAllBusinessesFilter, addSearch_eq, addLocation_eq, addCategory_eq]
  cases truthy category <;> cases truthy location <;> cases truthy search <;> rfl

theorem getAllBusinessesFilter_params_length (c l s : Option String) :
    (getAllBusinessesFilter c l s).params.length = presentCount c l s := by
  simp only [getAllBusinessesFilter, addSearch_eq, addLocation_eq, addCategory_eq,
    presentCount]
  cases truthy c <;> cases truthy l <;> cases truthy s <;> rfl

/-- C1: in the three filter builders (controller `getAllBusinesses`, controller
`searchBusinesses`, router `GET /`) two requests with the same presence pattern of
category, location and search term get the same WHERE-clause text, whatever the values
are; the values only reach the parameter list. -/
theorem predicate_text_depends_only_on_presence
    (c l s c' l' s' : Option String)
    (hc : truthy c = truthy c') (hl : truthy l = truthy l') (hs : truthy s = truthy s') :
    (getAllBusinessesFilter c l s).whereClause = (getAllBusinessesFilter c' l' s').whereClause ∧
    (searchBusinessesFilter s c l).whereClause = (searchBusinessesFilter s' c' l').whereClause ∧
    (routerGetRootFilter c l s).whereClause = (routerGetRootFilter c' l' s').whereClause := by
  refine ⟨?_, ?_, ?_⟩
  · rw [getAllBusinessesFilter_whereClause, getAllBusinessesFilter_whereClause, hc, hl, hs]
  · simp only [searchBusinessesFilter, addSearch_eq, addLocation_eq, addCategory_eq, hc, hl, hs]
    cases truthy c' <;> cases truthy l' <;> cases truthy s' <;> rfl
  · simp only [routerGetRootFilter, routerGetRootParts_eq, hc, hl, hs]
    cases truthy c' <;> cases truthy l' <;> cases truthy s' <;> rfl

theorem predicate_text_depends_only_on_presence_witness :
    (getAllBusinessesFilter (some "Food") none (some "rice")).whereClause =
      (getAllBusinessesFilter (some "x' OR 1=1 --") (some "") (some "%")).whereClause ∧
    (searchBusinessesFilter (some "rice") (some "Food") none).whereClause =
      (searchBusinessesFilter (some "%") (some "x' OR 1=1 --") (some "")).whereClause ∧
    (routerGetRootFilter (some "Food") none (some "rice")).whereClause =
      (routerGetRootFilter (some "x' OR 1=1 --") (some "") (some "%")).whereClause :=
  predicate_text_depends_only_on_presence (some "Food") none (some "rice")
    (some "x' OR 1=1 --") (some "") (some "%") (by decide) (by decide) (by decide)

/-- C2: for every combination of criteria the parameter list of `getAllBusinesses` has as
many entries as the predicate has distinct placeholders and as there are present
criteria, so a request with more present criteria has a strictly longer list; with no
criterion present the list is empty and the predicate is the base condition alone. -/
theorem getAllBusinesses_params_match_placeholders (c l s : Option String) :
    (getAllBusinessesFilter c l s).params.length
        = (placeholders (getAllBusinessesFilter c l s).whereClause).length ∧
    (getAllBusinessesFilter c l s).params.length = presentCount c l s ∧
    (∀ c' l' s' : Option String, presentCount c l s < presentCount c' l' s' →
      (getAllBusinessesFilter c l s).params.length
        < (getAllBusinessesFilter c' l' s').params.length) ∧
    (presentCount c l s = 0 →
      (getAllBusinessesFilter c l s).params = [] ∧
      (getAllBusinessesFilter c l s).whereClause = "WHERE b.is_active = true") := by
  have hlen := getAllBusinessesFilter_params_length
  refine ⟨?_, hlen c l s, ?_, ?_⟩
  · rw [hlen, getAllBusinessesFilter_whereClause, presentCount]
    cases truthy c <;> cases truthy l <;> cases truthy s <;> decide
  · intro c' l' s' h
    rw [hlen, hlen]; exact h
  · intro h
    rw [getAllBusinessesFilter_whereClause]
    simp only [getAllBusinessesFilter, addSearch_eq, addLocation_eq, addCategory_eq,
      presentCount] at h ⊢
    revert h
    cases truthy c <;> cases truthy l <;> cases truthy s <;> simp [Bool.toNat]
    decide

theorem getAllBusinesses_params_match_placeholders_witness :
    presentCount none (some "") none = 0 ∧
    (getAllBusinessesFilter none (some "") none).params = [] ∧
    (getAllBusinessesFilter none (some "") none).whereClause = "WHERE b.is_active = true" :=
  ⟨by decide,
    (getAllBusinesses_params_match_placeholders none (some "") none).2.2.2 (by decide)⟩

theorem routerGetRootFilter_whereClause (category location search : Option String) :
    (routerGetRootFilter category location search).whereClause =
      getAllWhereOf (truthy category) (truthy location) (truthy search) := by
  simp only [routerGetRootFilter, routerGetRootParts_eq]
  cases truthy category <;> cases truthy location <;> cases truthy search <;>
    (simp only [Bool.false_eq_true, if_false, if_true]; decide)

/-- The values a listing request binds: those of the present criteria, in the order
category, location, search. -/
theorem getAllBusinessesFilter_params (c l s : Option String) :
    (getAllBusinessesFilter c l s).params =
      (if truthy c then [JSVal.str (c.getD "")] else [])
        ++ (if truthy l then [JSVal.str (l.getD "")] else [])
        ++ (if truthy s then [JSVal.str ("%" ++ s.getD "" ++ "%")] else []) := by
  simp only [getAllBusinessesFilter, addSearch_eq, addLocation_eq, addCategory_eq]
  cases truthy c <;> cases truthy l <;> cases truthy s <;> rfl

theorem routerGetRootFilter_params (c l s : Option String) :
    (routerGetRootFilter c l s).params = (getAllBusinessesFilter c l s).params := by
  rw [getAllBusinessesFilter_params]
  simp only [routerGetRootFilter, routerGetRootParts_eq]
  cases truthy c <;> cases truthy l <;> cases truthy s <;> rfl

theorem expectedConjuncts_snd (c l s : Option String) :
    (expectedConjuncts c l s).map Prod.snd = (getAllBusinessesFilter c l s).params := by
  rw [getAllBusinessesFilter_params]
  unfold expectedConjuncts
  cases truthy c <;> cases truthy l <;> cases truthy s <;> rfl

/-- The texts of the expected conjuncts, as a function of the presence pattern alone. -/
theorem expectedConjuncts_fst (c l s : Option String) :
    (expectedConjuncts c l s).map Prod.fst =
      (expectedConjuncts (if truthy c then some "x" else none)
        (if truthy l then some "x" else none) (if truthy s then some "x" else none)).map
        Prod.fst := by
  unfold expectedConjuncts
  cases truthy c <;> cases truthy l <;> cases truthy s <;> rfl

/-- C3: in `getAllBusinesses` and in the router's `GET /` the placeholders of the
predicate are exactly `$1 .. $n`, `n` the length of the parameter list, in the order
category, location, search: the predicate is the base condition followed by one conjunct
per present criterion, the k-th conjunct mentions `$k` and no other placeholder, and the
k-th parameter is that criterion's value (the search term wrapped as `%term%`). -/
theorem placeholders_numbered_in_criterion_order (c l s : Option String) :
    (placeholders (getAllBusinessesFilter c l s).whereClause
        = List.range' 1 (getAllBusinessesFilter c l s).params.length ∧
      (getAllBusinessesFilter c l s).whereClause
        = "WHERE " ++ " AND ".intercalate
            ("b.is_active = true" :: (expectedConjuncts c l s).map Prod.fst) ∧
      (getAllBusinessesFilter c l s).params = (expectedConjuncts c l s).map Prod.snd) ∧
    (placeholders (routerGetRootFilter c l s).whereClause
        = List.range' 1 (routerGetRootFilter c l s).params.length ∧
      (routerGetRootFilter c l s).whereClause
        = "WHERE " ++ " AND ".intercalate
            ("b.is_active = true" :: (expectedConjuncts c l s).map Prod.fst) ∧
      (routerGetRootFilter c l s).params = (expectedConjuncts c l s).map Prod.snd) ∧
    (∀ (k : Nat) (conjunct : String × JSVal),
      (expectedConjuncts c l s)[k]? = some conjunct → placeholders conjunct.1 = [k + 1]) ∧
    (expectedConjuncts c l s).map Prod.snd
      = (if truthy c then [JSVal.str (c.getD "")] else [])
        ++ (if truthy l then [JSVal.str (l.getD "")] else [])
        ++ (if truthy s then [JSVal.str ("%" ++ s.getD "" ++ "%")] else []) := by
  have key : placeholders (getAllWhereOf (truthy c) (truthy l) (truthy s))
        = List.range' 1 (getAllBusinessesFilter c l s).params.length ∧
      getAllWhereOf (truthy c) (truthy l) (truthy s)
        = "WHERE " ++ " AND ".intercalate
            ("b.is_active = true" :: (expectedConjuncts c l s).map Prod.fst) := by
    rw [getAllBusinessesFilter_params_length, expectedConjuncts_fst,
      presentCount]
    cases truthy c <;> cases truthy l <;> cases truthy s <;> decide
  refine ⟨?_, ?_, ?_, ?_⟩
  · rw [getAllBusinessesFilter_whereClause]
    exact ⟨key.1, key.2, (expectedConjuncts_snd c l s).symm⟩
  · rw [routerGetRootFilter_whereClause, routerGetRootFilter_params]
    exact ⟨key.1, key.2, (expectedConjuncts_snd c l s).symm⟩
  · intro k conjunct h
    have h1 : ((expectedConjuncts c l s).map Prod.fst)[k]? = some conjunct.1 := by
      rw [List.getElem?_map, h]; rfl
    rw [expectedConjuncts_fst] at h1
    generalize conjunct.1 = text at h1 ⊢
    revert h1
    cases truthy c <;> cases truthy l <;> cases truthy s <;>
      rcases k with _ | _ | _ | k <;> intro h1 <;>
      simp [expectedConjuncts, numberFrom] at h1 <;> subst h1 <;> decide
  · rw [expectedConjuncts_snd, getAllBusinessesFilter_params]

theorem placeholders_numbered_in_criterion_order_witness :
    (expectedConjuncts none (some "Kumasi") (some "rice"))[1]?
      = some ("(b.name ILIKE $2 OR b.description ILIKE $2)", JSVal.str "%rice%") ∧
    placeholders "(b.name ILIKE $2 OR b.description ILIKE $2)" = [2] :=
  ⟨by decide,
    (placeholders_numbered_in_criterion_order none (some "Kumasi") (some "rice")).2.2.1 1
      ("(b.name ILIKE $2 OR b.description ILIKE $2)", JSVal.str "%rice%") (by decide)⟩

/-! ## Decimal strings -/

theorem natOfDigits_append_singleton (ds : List Char) (d : Char) :
    natOfDigits (ds ++ [d]) = 10 * natOfDigits ds + digitVal d := by
  simp [natOfDigits, List.foldl_append]

theorem digitChar_isDigit {m : Nat} (hm : m < 10) :
    (Nat.digitChar m).isDigit = true ∧ digitVal (Nat.digitChar m) = m := by
  interval_cases m <;> decide

/-- The digit loop of `Nat.repr` only ever puts characters in front of what it was
given. -/
theorem toDigitsCore_acc (fuel : Nat) (n : Nat) (acc : List Char) :
    Nat.toDigitsCore 10 fuel n acc = Nat.toDigitsCore 10 fuel n [] ++ acc := by
  induction fuel generalizing n acc with
  | zero => rfl
  | succ k ih =>
    unfold Nat.toDigitsCore
    simp only []
    split_ifs with hq
    · rfl
    · rw [ih (n / 10) (Nat.digitChar (n % 10) :: acc), ih (n / 10) [Nat.digitChar (n % 10)]]
      simp

/-- Run with more fuel than the number, the digit loop writes the number in decimal. -/
theorem natOfDigits_toDigitsCore (fuel : Nat) (n : Nat) (hfuel : n < fuel) :
    natOfDigits (Nat.toDigitsCore 10 fuel n []) = n := by
  induction fuel generalizing n with
  | zero => omega
  | succ k ih =>
    have hval := (digitChar_isDigit (Nat.mod_lt n (by decide : 0 < 10))).2
    unfold Nat.toDigitsCore
    simp only []
    split_ifs with hq
    · simp only [natOfDigits, List.foldl_cons, List.foldl_nil, hval]
      omega
    · rw [toDigitsCore_acc, natOfDigits_append_singleton, ih (n / 10) (by omega), hval]
      omega

theorem isDigit_toDigitsCore (fuel : Nat) (n : Nat) :
    ∀ c ∈ Nat.toDigitsCore 10 fuel n [], c.isDigit = true := by
  induction fuel generalizing n with
  | zero => intro c hc; cases hc
  | succ k ih =>
    have hdig := (digitChar_isDigit (Nat.mod_lt n (by decide : 0 < 10))).1
    unfold Nat.toDigitsCore
    simp only []
    split_ifs with hq
    · intro c hc
      rw [List.mem_singleton.mp hc]; exact hdig
    · rw [toDigitsCore_acc]
      intro c hc
      rcases List.mem_append.mp hc with h | h
      · exact ih (n / 10) c h
      · rw [List.mem_singleton.mp h]; exact hdig

theorem toDigitsCore_ne_nil (fuel : Nat) (n : Nat) :
    Nat.toDigitsCore 10 (fuel + 1) n [] ≠ [] := by
  unfold Nat.toDigitsCore
  simp only []
  split_ifs with hq
  · simp
  · rw [toDigitsCore_acc]; simp

/-- The characters of `toString n` are a non-empty run of decimal digits of value `n`. -/
theorem toString_nat_digits (n : Nat) :
    (toString n).data ≠ [] ∧ (∀ c ∈ (toString n).data, c.isDigit = true) ∧
      natOfDigits (toString n).data = n := by
  have hdata : (toString n).data = Nat.toDigitsCore 10 (n + 1) n [] := rfl
  rw [hdata]
  exact ⟨toDigitsCore_ne_nil n n, isDigit_toDigitsCore (n + 1) n,
    natOfDigits_toDigitsCore (n + 1) n (by omega)⟩

theorem isDigit_not_whitespace {c : Char} (h : c.isDigit = true) :
    isJSWhitespace c = false := by
  simp only [Char.isDigit, Bool.and_eq_true, decide_eq_true_eq] at h
  have h1 : 48 ≤ c.toNat := h.1
  have h2 : c.toNat ≤ 57 := h.2
  simp only [isJSWhitespace, Bool.or_eq_false_iff, decide_eq_false_iff_not, Bool.and_eq_false_iff,
    List.mem_cons, List.mem_singleton, List.not_mem_nil, or_false]
  omega

theorem dropWhile_whitespace_digits {ds : List Char} (hdig : ∀ c ∈ ds, c.isDigit = true) :
    ds.dropWhile isJSWhitespace = ds := by
  cases ds with
  | nil => rfl
  | cons d ds =>
    rw [List.dropWhile_cons, isDigit_not_whitespace (hdig d (List.mem_cons_self _ _))]
    simp

theorem jsTrim_digits {ds : List Char} (hdig : ∀ c ∈ ds, c.isDigit = true) :
    jsTrim ds = ds := by
  unfold jsTrim
  rw [dropWhile_whitespace_digits hdig,
    dropWhile_whitespace_digits (fun c hc => hdig c (List.mem_reverse.mp hc)),
    List.reverse_reverse]

theorem radixOfMarker_digits {ds : List Char} (hdig : ∀ c ∈ ds, c.isDigit = true) :
    radixOfMarker ds = none := by
  have key : ∀ x : Char, x.isDigit = false → ds.take 2 ≠ ['0', x] := by
    intro x hx h
    have hmem : x ∈ ds.take 2 := by rw [h]; simp
    have := hdig x (List.mem_of_mem_take hmem)
    rw [hx] at this
    exact Bool.noConfusion this
  simp [radixOfMarker, key 'x' (by decide), key 'X' (by decide), key 'o' (by decide),
    key 'O' (by decide), key 'b' (by decide), key 'B' (by decide)]

theorem head_digits {ds : List Char} (hdig : ∀ c ∈ ds, c.isDigit = true) (x : Char)
    (hx : x.isDigit = false) : ds.head? ≠ some x := by
  intro h
  have := hdig x (List.mem_of_mem_head? h)
  rw [hx] at this
  exact Bool.noConfusion this

theorem dropSign_digits {ds : List Char} (hdig : ∀ c ∈ ds, c.isDigit = true) :
    dropSign ds = ds := by
  simp [dropSign, head_digits hdig '+' (by decide), head_digits hdig '-' (by decide)]

theorem parseUnsignedDecimal_digits {ds : List Char} (hne : ds ≠ [])
    (hdig : ∀ c ∈ ds, c.isDigit = true) :
    parseUnsignedDecimal ds = some (natOfDigits ds : ℚ) := by
  have h1 : ds.takeWhile Char.isDigit = ds := List.takeWhile_eq_self_iff.mpr hdig
  have h2 : ds.dropWhile Char.isDigit = [] := List.dropWhile_eq_nil_iff.mpr hdig
  simp [parseUnsignedDecimal, h1, h2, hne, parseExponent, natOfDigits]

/-- `ToNumber` reads a run of decimal digits as its decimal value. -/
theorem stringToNumber_digits {ds : List Char} (hne : ds ≠ [])
    (hdig : ∀ c ∈ ds, c.isDigit = true) :
    stringToNumber (String.mk ds) = JSNum.fin (natOfDigits ds) := by
  have hinf : ds ≠ "Infinity".data := by
    intro h
    have := hdig 'I' (by rw [h]; decide)
    exact absurd this (by decide)
  simp [stringToNumber, jsTrim_digits hdig, hne, radixOfMarker_digits hdig,
    dropSign_digits hdig, hinf, parseUnsignedDecimal_digits hne hdig,
    head_digits hdig '-' (by decide)]

/-- `parseInt` reads a run of decimal digits as its decimal value. -/
theorem parseIntString_digits {ds : List Char} (hne : ds ≠ [])
    (hdig : ∀ c ∈ ds, c.isDigit = true) :
    parseIntString (String.mk ds) = JSNum.fin (natOfDigits ds) := by
  have h1 : ds.takeWhile Char.isDigit = ds := List.takeWhile_eq_self_iff.mpr hdig
  simp [parseIntString, dropWhile_whitespace_digits hdig, radixOfMarker_digits hdig,
    dropSign_digits hdig, h1, hne, head_digits hdig '-' (by decide)]

theorem toNumber_toString (n : Nat) : toNumber (JSVal.str (toString n)) = JSNum.fin n := by
  obtain ⟨hne, hdig, hval⟩ := toString_nat_digits n
  have := stringToNumber_digits hne hdig
  rw [hval] at this
  exact this

theorem parseInt_toString (n : Nat) : parseInt (JSVal.str (toString n)) = JSNum.fin n := by
  obtain ⟨hne, hdig, hval⟩ := toString_nat_digits n
  have := parseIntString_digits hne hdig
  rw [hval] at this
  exact this

/-! ## LIKE patterns without special characters -/

theorem anySuffix_isEmpty (s : List Char) : anySuffix (fun u => u.isEmpty) s = true := by
  induction s with
  | nil => rfl
  | cons c cs ih => simp [anySuffix, ih]

theorem anySuffix_iff_infix (f : List Char → Bool) (t : List Char)
    (hf : ∀ u, f u = true ↔ t <+: u) (s : List Char) :
    anySuffix f s = true ↔ t <:+: s := by
  induction s with
  | nil => simp [anySuffix, hf]
  | cons c cs ih =>
    rw [anySuffix, Bool.or_eq_true, hf, ih, List.infix_cons_iff]

theorem likeMatch_nil (s : List Char) : likeMatch [] s = s.isEmpty := by
  cases s <;> rfl

theorem likeMatch_percent (ps s : List Char) :
    likeMatch ('%' :: ps) s = anySuffix (likeMatch ps) s := by
  rw [likeMatch.eq_def]
  simp

theorem likeMatch_plain_cons (p : Char) (ps : List Char) (hp : isLikeSpecial p = false)
    (d : Char) (rest : List Char) :
    likeMatch (p :: ps) (d :: rest) = (d == p && likeMatch ps rest) := by
  simp only [isLikeSpecial, Bool.or_eq_false_iff, decide_eq_false_iff_not] at hp
  rw [likeMatch.eq_def]
  simp [hp.1.1, hp.1.2, hp.2]

theorem likeMatch_plain_nil (p : Char) (ps : List Char) (hp : isLikeSpecial p = false) :
    likeMatch (p :: ps) [] = false := by
  simp only [isLikeSpecial, Bool.or_eq_false_iff, decide_eq_false_iff_not] at hp
  rw [likeMatch.eq_def]
  simp only [hp.1.1, hp.1.2, hp.2, if_false]

/-- A pattern of ordinary characters followed by `%` matches the texts that begin with
those characters. -/
theorem likeMatch_plain_percent (t : List Char) (ht : ∀ c ∈ t, isLikeSpecial c = false) :
    ∀ s : List Char, likeMatch (t ++ ['%']) s = true ↔ t <+: s := by
  induction t with
  | nil =>
    intro s
    have h : likeMatch [] = fun u => u.isEmpty := funext likeMatch_nil
    simp [likeMatch_percent, h, anySuffix_isEmpty]
  | cons c t ih =>
    intro s
    have hc := ht c (List.mem_cons_self _ _)
    have iht := ih (fun d hd => ht d (List.mem_cons_of_mem _ hd))
    cases s with
    | nil => simp [likeMatch_plain_nil c _ hc]
    | cons d rest =>
      rw [List.cons_append, likeMatch_plain_cons c _ hc]
      simp only [Bool.and_eq_true, beq_iff_eq, iht rest, List.cons_prefix_cons]
      constructor
      · rintro ⟨h1, h2⟩; exact ⟨h1.symm, h2⟩
      · rintro ⟨h1, h2⟩; exact ⟨h1.symm, h2⟩

/-- `%t%` with `t` free of special characters matches exactly the texts that contain
`t`. -/
theorem likeMatch_wrapped (t s : List Char) (ht : ∀ c ∈ t, isLikeSpecial c = false) :
    likeMatch ('%' :: (t ++ ['%'])) s = true ↔ t <:+: s := by
  rw [likeMatch_percent]
  exact anySuffix_iff_infix _ t (likeMatch_plain_percent t ht) s

theorem toLower_not_special (c : Char) (h : isLikeSpecial c = false) :
    isLikeSpecial c.toLower = false := by
  unfold Char.toLower
  by_cases hup : c.toNat ≥ 65 ∧ c.toNat ≤ 90
  · have h1 : 65 ≤ c.toNat := hup.1
    have h2 : c.toNat ≤ 90 := hup.2
    simp only [hup, and_self, if_true]
    generalize c.toNat = n at h1 h2
    interval_cases n <;> decide
  · simp only [hup, if_false]
    exact h

theorem lowerChars_wrapped (term : String) :
    lowerChars ("%" ++ term ++ "%") = '%' :: (lowerChars term ++ ['%']) := by
  simp [lowerChars, String.data_append]

/-- For a term free of `%`, `_` and the backslash, `text ILIKE '%term%'` is
case-insensitive containment. -/
theorem ilikeWrapped_eq_containsCI (text : Option String) (term : String)
    (h : ∀ c ∈ term.data, isLikeSpecial c = false) :
    ilikeWrapped text term = containsCI text term := by
  cases text with
  | none => rfl
  | some t =>
    have hl : ∀ c ∈ lowerChars term, isLikeSpecial c = false := by
      intro c hc
      obtain ⟨d, hd, rfl⟩ := List.mem_map.mp hc
      exact toLower_not_special d (h d hd)
    have := likeMatch_wrapped (lowerChars term) (lowerChars t) hl
    simp only [ilikeWrapped, containsCI, ilikeMatch, lowerChars_wrapped]
    rw [Bool.eq_iff_iff, this, decide_eq_true_iff]

/-! ## Reading the listing predicate back -/

theorem parseWhere_listing (c l s : Bool) :
    parseWhere (getAllWhereOf c l s) = some (listingAst c l s) := by
  cases c <;> cases l <;> cases s <;> decide

/-- The WHERE clause and parameters of a listing request compile to the conjuncts of the
request. -/
theorem compileWhere_listing (c l s : Option String) :
    compileWhere (getAllBusinessesFilter c l s).whereClause (getAllBusinessesFilter c l s).params
      = some (listingConjuncts c l s) := by
  rw [getAllBusinessesFilter_whereClause, getAllBusinessesFilter_params, compileWhere,
    parseWhere_listing]
  cases hc : truthy c <;> cases hl : truthy l <;> cases hs : truthy s <;>
    simp [listingAst, listingConjuncts, numberFrom, allSome, bindConjunct, bindAtom, textParam,
      hc, hl, hs]

theorem foldl_and3_eq_true (vs : List (Option Bool)) (acc : Option Bool) :
    (vs.foldl and3 acc == some true) = (acc == some true && vs.all fun v => v == some true) := by
  induction vs generalizing acc with
  | nil => simp
  | cons v vs ih =>
    rw [List.foldl_cons, ih, List.all_cons, ← Bool.and_assoc]
    congr 1
    rcases acc with _ | _ | _ <;> rcases v with _ | _ | _ <;> rfl

theorem accepts_eq_all (conjuncts : List BoundConjunct) (b : Business) :
    accepts conjuncts b = conjuncts.all fun c => c.eval b == some true := by
  rw [accepts, foldl_and3_eq_true]
  simp only [beq_self_eq_true, Bool.true_and]
  induction conjuncts with
  | nil => rfl
  | cons c cs ih => simp only [List.map_cons, List.all_cons, ih]

theorem eval_eq_true (b : Business) (col : Column) (x : String) :
    ((BoundConjunct.atom (BoundAtom.eq col (some x))).eval b == some true)
      = (col.value b == some x) := by
  rcases h : col.value b with _ | v
  · simp [BoundConjunct.eval, BoundAtom.eval, h]
  · by_cases hv : v = x <;> simp [BoundConjunct.eval, BoundAtom.eval, h, hv]

theorem eval_search_true (b : Business) (term : String) :
    ((BoundConjunct.disj
        [BoundAtom.ilike Column.name (some ("%" ++ term ++ "%")),
         BoundAtom.ilike Column.description (some ("%" ++ term ++ "%"))]).eval b == some true)
      = (ilikeWrapped b.name term || ilikeWrapped b.description term) := by
  rcases hn : b.name with _ | n <;> rcases hd : b.description with _ | d <;>
    simp only [BoundConjunct.eval, BoundAtom.eval, Column.value, ilikeWrapped, hn, hd,
      List.map_cons, List.map_nil, List.foldl_cons, List.foldl_nil]
  · rfl
  · cases ilikeMatch d ("%" ++ term ++ "%") <;> rfl
  · cases ilikeMatch n ("%" ++ term ++ "%") <;> rfl
  · cases ilikeMatch n ("%" ++ term ++ "%") <;> cases ilikeMatch d ("%" ++ term ++ "%") <;> rfl

theorem eval_isActive_true (b : Business) :
    ((BoundConjunct.atom BoundAtom.isActive).eval b == some true) = b.is_active := by
  cases h : b.is_active <;> simp [BoundConjunct.eval, BoundAtom.eval, h]

theorem truthy_some_getD {c : Option String} (h : truthy c = true) : c = some (c.getD "") := by
  cases c with
  | none => simp [truthy] at h
  | some x => rfl

/-- On a row the conjuncts of a request decide as `matchesPattern` says. -/
theorem accepts_listing (b : Business) (c l s : Option String) :
    accepts (listingConjuncts c l s) b = matchesPattern b c l s := by
  rw [accepts_eq_all]
  unfold listingConjuncts matchesPattern
  have hcat : truthy c = true → (b.category == c) = (b.category == some (c.getD "")) :=
    fun h => by rw [← truthy_some_getD h]
  have hloc : truthy l = true → (b.location == l) = (b.location == some (l.getD "")) :=
    fun h => by rw [← truthy_some_getD h]
  cases hc : truthy c <;> cases hl : truthy l <;> cases hs : truthy s <;>
    simp [eval_eq_true, eval_search_true, eval_isActive_true, Column.value, hcat, hloc, hc, hl,
      Bool.and_assoc]

/-! ## The listing predicate on rows -/

/-- The verdict of a listing predicate on a row, for both builders. -/
theorem evalWhere_listing (b : Business) (c l s : Option String) :
    evalWhere (getAllBusinessesFilter c l s).whereClause (getAllBusinessesFilter c l s).params b
        = some (matchesPattern b c l s) ∧
    evalWhere (routerGetRootFilter c l s).whereClause (routerGetRootFilter c l s).params b
        = some (matchesPattern b c l s) := by
  have h : evalWhere (getAllBusinessesFilter c l s).whereClause
      (getAllBusinessesFilter c l s).params b = some (matchesPattern b c l s) := by
    rw [evalWhere, compileWhere_listing, Option.map_some', accepts_listing]
  refine ⟨h, ?_⟩
  rw [routerGetRootFilter_whereClause, routerGetRootFilter_params,
    ← getAllBusinessesFilter_whereClause]
  exact h

theorem matchesPattern_eq_matchesCriteria (b : Business) (c l s : Option String)
    (h : ∀ ch ∈ (s.getD "").data, isLikeSpecial ch = false) :
    matchesPattern b c l s = matchesCriteria b c l s := by
  unfold matchesPattern matchesCriteria
  rw [ilikeWrapped_eq_containsCI _ _ h, ilikeWrapped_eq_containsCI _ _ h]

/-- C4, as the code has it: a row passes the listing predicate of `getAllBusinesses` and
of the router's `GET /` if and only if it is active, its category and location equal the
criteria that are present, and, when a search term is present, its name or description
contains the term without regard to case, for every term free of `%`, `_` and the
backslash. -/
theorem listing_predicate_matches_criteria (b : Business) (c l s : Option String)
    (h : ∀ ch ∈ (s.getD "").data, isLikeSpecial ch = false) :
    evalWhere (getAllBusinessesFilter c l s).whereClause (getAllBusinessesFilter c l s).params b
        = some (matchesCriteria b c l s) ∧
    evalWhere (routerGetRootFilter c l s).whereClause (routerGetRootFilter c l s).params b
        = some (matchesCriteria b c l s) := by
  rw [← matchesPattern_eq_matchesCriteria b c l s h]
  exact evalWhere_listing b c l s

theorem listing_predicate_matches_criteria_witness :
    (∀ ch ∈ ((some "KOFI" : Option String).getD "").data, isLikeSpecial ch = false) ∧
    matchesCriteria (sampleBusiness 1 "Kofi Foods" "Jollof" 5) (some "Food") none (some "KOFI")
      = true ∧
    evalWhere (getAllBusinessesFilter (some "Food") none (some "KOFI")).whereClause
      (getAllBusinessesFilter (some "Food") none (some "KOFI")).params
      (sampleBusiness 1 "Kofi Foods" "Jollof" 5) = some true :=
  ⟨by decide, by decide,
    (by decide : matchesCriteria (sampleBusiness 1 "Kofi Foods" "Jollof" 5) (some "Food") none
        (some "KOFI") = true) ▸
      (listing_predicate_matches_criteria (sampleBusiness 1 "Kofi Foods" "Jollof" 5)
        (some "Food") none (some "KOFI") (by decide)).1⟩

/-- C4 as stated fails: with the search term `_` the predicate of `getAllBusinesses` and
of the router's `GET /` accepts a business whose name and description do not contain an
underscore. -/
theorem underscore_term_accepts_row_without_it :
    evalWhere (getAllBusinessesFilter none none (some "_")).whereClause
      (getAllBusinessesFilter none none (some "_")).params
      (sampleBusiness 1 "Kofi Foods" "Jollof" 5) = some true ∧
    evalWhere (routerGetRootFilter none none (some "_")).whereClause
      (routerGetRootFilter none none (some "_")).params
      (sampleBusiness 1 "Kofi Foods" "Jollof" 5) = some true ∧
    containsCI (some "Kofi Foods") "_" = false ∧ containsCI (some "Jollof") "_" = false ∧
    matchesCriteria (sampleBusiness 1 "Kofi Foods" "Jollof" 5) none none (some "_") = false := by
  decide

/-! ## Running the statements of `getAllBusinesses` -/

theorem getAllBusinessesFilter_paramCount (c l s : Option String) :
    (getAllBusinessesFilter c l s).paramCount = presentCount c l s := by
  simp only [getAllBusinessesFilter, addSearch_eq, addLocation_eq, addCategory_eq,
    presentCount]
  cases truthy c <;> cases truthy l <;> cases truthy s <;> rfl

theorem bindsAll_count (c l s : Bool) (params : List JSVal) :
    bindsAll (CountQuery.text { whereClause := getAllWhereOf c l s, params := params })
      (c.toNat + l.toNat + s.toNat) = true := by
  simp only [CountQuery.text]
  cases c <;> cases l <;> cases s <;> decide

set_option maxRecDepth 20000 in
theorem bindsAll_listing (c l s : Bool) (params : List JSVal) :
    bindsAll (ListingQuery.text
      { whereClause := getAllWhereOf c l s,
        limitPlaceholder := c.toNat + l.toNat + s.toNat + 1,
        offsetPlaceholder := c.toNat + l.toNat + s.toNat + 2,
        params := params })
      (c.toNat + l.toNat + s.toNat + 2) = true := by
  simp only [ListingQuery.text]
  cases c <;> cases l <;> cases s <;> decide

theorem compileWhere_listing_append (c l s : Option String) (extra : List JSVal) :
    compileWhere (getAllBusinessesFilter c l s).whereClause
      ((getAllBusinessesFilter c l s).params ++ extra) = some (listingConjuncts c l s) := by
  rw [getAllBusinessesFilter_whereClause, getAllBusinessesFilter_params, compileWhere,
    parseWhere_listing]
  cases hc : truthy c <;> cases hl : truthy l <;> cases hs : truthy s <;>
    simp [listingAst, listingConjuncts, numberFrom, allSome, bindConjunct, bindAtom, textParam,
      hc, hl, hs]

/-- The count statement of a listing request counts the rows `matchesPattern` accepts,
unless the store fails. -/
theorem runCount_listing (db : Db) (fault : Option DbError) (req : ListRequest) :
    runCount db fault (getAllBusinessesQueries req).1 =
      match fault with
      | some e => Except.error e
      | none =>
        Except.ok (db.businesses.filter fun b =>
          matchesPattern b req.category req.location req.search).length := by
  cases fault with
  | some e => rfl
  | none =>
    have hb := bindsAll_count (truthy req.category) (truthy req.location) (truthy req.search)
      (getAllBusinessesFilter req.category req.location req.search).params
    rw [← getAllBusinessesFilter_whereClause, ← presentCount,
      ← getAllBusinessesFilter_params_length] at hb
    have hfilter : accepts (listingConjuncts req.category req.location req.search)
        = fun b => matchesPattern b req.category req.location req.search :=
      funext fun b => accepts_listing b _ _ _
    simp only [runCount, getAllBusinessesQueries, hb, if_true, compileWhere_listing, hfilter]

theorem getElem?_limit_offset (ps : List JSVal) (a b : JSVal) :
    (ps ++ [a, b])[ps.length + 1 - 1]? = some a ∧ (ps ++ [a, b])[ps.length + 2 - 1]? = some b := by
  constructor
  · rw [show ps.length + 1 - 1 = ps.length from rfl, List.getElem?_append_right (by omega)]
    simp
  · rw [show ps.length + 2 - 1 = ps.length + 1 from rfl, List.getElem?_append_right (by omega)]
    simp

/-- The row statement of a listing request returns the rows `matchesPattern` accepts,
newest first, cut to the window, unless the store fails or LIMIT or OFFSET is not a
non-negative integer. -/
theorem runListing_listing (db : Db) (fault : Option DbError) (req : ListRequest) :
    runListing db fault (getAllBusinessesQueries req).2 =
      match fault with
      | some e => Except.error e
      | none =>
        match sqlLimit (withDefault (JSVal.num (JSNum.fin 10)) req.limit),
              sqlOffset (JSVal.num (computeOffset (withDefault (JSVal.num (JSNum.fin 1)) req.page)
                (withDefault (JSVal.num (JSNum.fin 10)) req.limit))) with
        | some limit, some offset =>
          Except.ok (window limit offset
            ((orderByCreatedDesc (db.businesses.filter fun b =>
                matchesPattern b req.category req.location req.search)).map
              (aggregate db listingOwnerColumns)))
        | _, _ =>
          Except.error
            { message := "invalid LIMIT or OFFSET in: " ++ (getAllBusinessesQueries req).2.text } := by
  cases fault with
  | some e => rfl
  | none =>
    have hpc : (getAllBusinessesFilter req.category req.location req.search).paramCount
        = (getAllBusinessesFilter req.category req.location req.search).params.length := by
      rw [getAllBusinessesFilter_params_length, getAllBusinessesFilter_paramCount]
    have hfilter : accepts (listingConjuncts req.category req.location req.search)
        = fun b => matchesPattern b req.category req.location req.search :=
      funext fun b => accepts_listing b _ _ _
    simp only [runListing, getAllBusinessesQueries, hpc]
    generalize withDefault (JSVal.num (JSNum.fin 10)) req.limit = limit
    generalize JSVal.num (computeOffset (withDefault (JSVal.num (JSNum.fin 1)) req.page) limit)
      = offset
    have hb := bindsAll_listing (truthy req.category) (truthy req.location) (truthy req.search)
      ((getAllBusinessesFilter req.category req.location req.search).params ++ [limit, offset])
    rw [← getAllBusinessesFilter_whereClause, ← presentCount,
      ← getAllBusinessesFilter_params_length] at hb
    rw [List.length_append, List.length_cons, List.length_singleton, hb, if_pos rfl,
      compileWhere_listing_append]
    simp only [hfilter, (getElem?_limit_offset _ _ _).1, (getElem?_limit_offset _ _ _).2,
      Option.some_bind]

/-- The rows of `businesses` a listing request selects. -/
theorem getAllBusinesses_of_json (db : Db) (fault : Fault) (req : ListRequest) (body : ListBody)
    (h : getAllBusinesses db fault req = Response.json 200 body) :
    ∃ (limit : Option Nat) (offset : Nat),
      sqlLimit (withDefault (JSVal.num (JSNum.fin 10)) req.limit) = some limit ∧
      sqlOffset (JSVal.num (computeOffset (withDefault (JSVal.num (JSNum.fin 1)) req.page)
        (withDefault (JSVal.num (JSNum.fin 10)) req.limit))) = some offset ∧
      body.businesses = window limit offset
        ((orderByCreatedDesc (db.businesses.filter fun b =>
            matchesPattern b req.category req.location req.search)).map
          (aggregate db listingOwnerColumns)) ∧
      body.pagination = paginationOf (withDefault (JSVal.num (JSNum.fin 1)) req.page)
        (withDefault (JSVal.num (JSNum.fin 10)) req.limit)
        (parseInt (JSVal.str (toString (db.businesses.filter fun b =>
          matchesPattern b req.category req.location req.search).length))) := by
  simp only [getAllBusinesses, runCount_listing, runListing_listing] at h
  rcases h0 : fault 0 with _ | e0
  · rcases h1 : fault 1 with _ | e1
    · simp only [h0, h1] at h
      rcases hl : sqlLimit (withDefault (JSVal.num (JSNum.fin 10)) req.limit) with _ | limit
      · simp [hl] at h
      · rcases ho : sqlOffset (JSVal.num (computeOffset
            (withDefault (JSVal.num (JSNum.fin 1)) req.page)
            (withDefault (JSVal.num (JSNum.fin 10)) req.limit))) with _ | offset
        · simp [hl, ho] at h
        · simp only [hl, ho, Response.json.injEq, true_and] at h
          refine ⟨limit, offset, rfl, rfl, ?_, ?_⟩
          · rw [← h]
          · rw [← h]
    · simp [h0, h1] at h
  · simp [h0] at h

/-- A listing request is answered with status 200 when the store does not fail and LIMIT
and OFFSET are non-negative integers. -/
theorem getAllBusinesses_ok (db : Db) (req : ListRequest) (limit : Option Nat) (offset : Nat)
    (hl : sqlLimit (withDefault (JSVal.num (JSNum.fin 10)) req.limit) = some limit)
    (ho : sqlOffset (JSVal.num (computeOffset (withDefault (JSVal.num (JSNum.fin 1)) req.page)
        (withDefault (JSVal.num (JSNum.fin 10)) req.limit))) = some offset) :
    getAllBusinesses db noFault req = Response.json 200
      { businesses := window limit offset
          ((orderByCreatedDesc (db.businesses.filter fun b =>
              matchesPattern b req.category req.location req.search)).map
            (aggregate db listingOwnerColumns)),
        pagination := paginationOf (withDefault (JSVal.num (JSNum.fin 1)) req.page)
          (withDefault (JSVal.num (JSNum.fin 10)) req.limit)
          (parseInt (JSVal.str (toString (db.businesses.filter fun b =>
            matchesPattern b req.category req.location req.search).length))) } := by
  simp only [getAllBusinesses, runCount_listing, runListing_listing, noFault, hl, ho]

/-! ## Paging with whole numbers -/

theorem truncate_natCast (n : ℕ) : truncate (n : ℚ) = (n : ℤ) := by
  simp [truncate]

theorem toNumber_of_isNatValue {v : JSVal} {n : ℕ} (h : IsNatValue v n) :
    toNumber v = JSNum.fin n := by
  rcases h with rfl | rfl
  · rfl
  · exact toNumber_toString n

theorem parseInt_of_isNatValue {v : JSVal} {n : ℕ} (h : IsNatValue v n) :
    parseInt v = JSNum.fin n := by
  rcases h with rfl | rfl
  · simp [parseInt, truncate_natCast]
  · exact parseInt_toString n

theorem withDefault_of_isNatValue (d : JSVal) {v : JSVal} {n : ℕ} (h : IsNatValue v n) :
    withDefault d v = v := by
  rcases h with rfl | rfl <;> rfl

theorem computeOffset_of_isNatValue {page limit : JSVal} {p l : ℕ} (hp : 1 ≤ p)
    (hpage : IsNatValue page p) (hlimit : IsNatValue limit l) :
    computeOffset page limit = JSNum.fin (((p - 1) * l : ℕ) : ℚ) := by
  rw [computeOffset, toNumber_of_isNatValue hpage, toNumber_of_isNatValue hlimit]
  simp only [JSNum.sub, JSNum.mul]
  congr 1
  push_cast [Nat.cast_sub hp]
  ring

theorem paginationOf_of_isNatValue {page limit : JSVal} {p l : ℕ} (hl : 1 ≤ l)
    (hpage : IsNatValue page p) (hlimit : IsNatValue limit l) (T : ℕ) :
    paginationOf page limit (parseInt (JSVal.str (toString T))) =
      { currentPage := JSNum.fin p,
        totalPages := JSNum.fin (⌈(T : ℚ) / l⌉ : ℤ),
        totalCount := JSNum.fin T,
        hasNext := decide (p * l < T),
        hasPrev := decide (1 < p) } := by
  have hl0 : (l : ℚ) ≠ 0 := by exact_mod_cast (by omega : l ≠ 0)
  rw [paginationOf, toNumber_of_isNatValue hpage, toNumber_of_isNatValue hlimit,
    parseInt_of_isNatValue hpage, parseInt_toString]
  simp only [JSNum.div, JSNum.mul, JSNum.lt, JSNum.ceil, hl0, if_false]
  congr 1
  · simp only [decide_eq_decide]
    exact_mod_cast Iff.rfl
  · simp only [decide_eq_decide]
    exact_mod_cast Iff.rfl

theorem dropWhile_sqlSpace_digits {ds : List Char} (hdig : ∀ c ∈ ds, c.isDigit = true) :
    ds.dropWhile isSqlSpace = ds := by
  cases ds with
  | nil => rfl
  | cons d ds =>
    have h := hdig d (List.mem_cons_self _ _)
    simp only [Char.isDigit, Bool.and_eq_true, decide_eq_true_eq] at h
    have h1 : 48 ≤ d.toNat := h.1
    have hd : isSqlSpace d = false := by
      simp only [isSqlSpace, Bool.or_eq_false_iff, decide_eq_false_iff_not,
        Bool.and_eq_false_iff]
      omega
    rw [List.dropWhile_cons, hd]
    simp

theorem bigintOfText_digits {ds : List Char} (hne : ds ≠ [])
    (hdig : ∀ c ∈ ds, c.isDigit = true) (hmax : (natOfDigits ds : ℤ) ≤ maxBigint) :
    bigintOfText ds = some (natOfDigits ds : ℤ) := by
  have h1 : ((ds.dropWhile isSqlSpace).reverse.dropWhile isSqlSpace).reverse = ds := by
    rw [dropWhile_sqlSpace_digits hdig,
      dropWhile_sqlSpace_digits (fun c hc => hdig c (List.mem_reverse.mp hc)),
      List.reverse_reverse]
  have hall : ds.all Char.isDigit = true := List.all_eq_true.mpr hdig
  have hlow : -maxBigint - 1 ≤ (natOfDigits ds : ℤ) := by
    have : (0 : ℤ) ≤ natOfDigits ds := Int.natCast_nonneg _
    have : -maxBigint - 1 ≤ 0 := by decide
    omega
  simp [bigintOfText, h1, dropSign_digits hdig, hne, hall, head_digits hdig '-' (by decide),
    hmax, hlow]

theorem sqlBigint_of_isNatValue {v : JSVal} {n : ℕ} (h : IsNatValue v n)
    (hmax : (n : ℤ) ≤ maxBigint) : sqlBigint v = some (some (n : ℤ)) := by
  have hlow : -maxBigint - 1 ≤ (n : ℤ) := by
    have : (0 : ℤ) ≤ n := Int.natCast_nonneg _
    have : -maxBigint - 1 ≤ 0 := by decide
    omega
  rcases h with rfl | rfl
  · simp [sqlBigint, Rat.isInt, hmax, hlow]
  · obtain ⟨hne, hdig, hval⟩ := toString_nat_digits n
    have := bigintOfText_digits hne hdig (by rw [hval]; exact hmax)
    rw [hval] at this
    simp [sqlBigint, this]

theorem sqlLimit_of_isNatValue {v : JSVal} {n : ℕ} (h : IsNatValue v n)
    (hmax : (n : ℤ) ≤ maxBigint) : sqlLimit v = some (some n) := by
  simp [sqlLimit, sqlBigint_of_isNatValue h hmax]

theorem sqlOffset_natCast (n : ℕ) (hmax : (n : ℤ) ≤ maxBigint) :
    sqlOffset (JSVal.num (JSNum.fin n)) = some n := by
  simp [sqlOffset, sqlBigint_of_isNatValue (Or.inl rfl : IsNatValue _ n) hmax]

/-! ## Doubles and whole numbers -/

theorem roundHalfEven_intCast (z : ℤ) : roundHalfEven (z : ℚ) = z := by
  unfold roundHalfEven
  rw [Int.floor_intCast, sub_self, if_pos (by norm_num)]

/-- A multiple of the unit of its binade that stays below `2 ^ 1024` is a double. -/
theorem roundToDouble_of_multiple (q : ℚ) (z : ℤ)
    (hz : q = z * 2 ^ (doubleExponent q - 52)) (hlt : |q| < 2 ^ (1024 : ℕ)) :
    roundToDouble q = JSNum.fin q := by
  have hpos : (0 : ℚ) < 2 ^ (doubleExponent q - 52) := zpow_pos (by norm_num) _
  have hdiv : q / 2 ^ (doubleExponent q - 52) = z := by
    rw [div_eq_iff hpos.ne']
    exact hz
  unfold roundToDouble
  simp only [hdiv, roundHalfEven_intCast, ← hz]
  rw [if_neg (not_le.mpr hlt)]

theorem doubleExponent_natCast (n : ℕ) (hn : 1 ≤ n) :
    doubleExponent (n : ℚ) = (Nat.log 2 n : ℤ) := by
  unfold doubleExponent
  rw [abs_of_nonneg (by positivity), Int.log_natCast]
  omega

theorem two_pow_53_lt : (2 : ℚ) ^ (53 : ℕ) < 2 ^ (1024 : ℕ) :=
  pow_lt_pow_right₀ (by norm_num) (by norm_num)

/-- Every whole number up to `2 ^ 53` is a double. -/
theorem roundToDouble_natCast (n : ℕ) (hn : n ≤ 2 ^ 53) :
    roundToDouble (n : ℚ) = JSNum.fin n := by
  rcases Nat.eq_zero_or_pos n with rfl | hpos
  · have h0 : roundToDouble ((0 : ℕ) : ℚ) = JSNum.fin ((0 : ℤ) * 2 ^ (doubleExponent 0 - 52)) := by
      simp [roundToDouble, roundHalfEven]
    simpa using h0
  · have hlog : Nat.log 2 n < 54 :=
      Nat.log_lt_of_lt_pow (by omega) (lt_of_le_of_lt hn (by norm_num))
    have hle : 2 ^ Nat.log 2 n ≤ n := Nat.pow_log_le_self 2 (by omega)
    have hnq : ((n : ℚ)) ≤ 2 ^ (53 : ℕ) := by exact_mod_cast hn
    have hlt : |(n : ℚ)| < 2 ^ (1024 : ℕ) := by
      rw [abs_of_nonneg (by positivity)]
      exact lt_of_le_of_lt hnq two_pow_53_lt
    have hexp := doubleExponent_natCast n hpos
    by_cases h52 : Nat.log 2 n ≤ 52
    · refine roundToDouble_of_multiple (n : ℚ) ((n * 2 ^ (52 - Nat.log 2 n) : ℕ) : ℤ) ?_ hlt
      rw [hexp]
      have hk : ((Nat.log 2 n : ℤ) - 52) = -((52 - Nat.log 2 n : ℕ) : ℤ) := by omega
      rw [hk, zpow_neg, zpow_natCast]
      push_cast
      field_simp
    · have h53 : Nat.log 2 n = 53 := by omega
      have hn53 : n = 2 ^ 53 := by
        rw [h53] at hle
        omega
      refine roundToDouble_of_multiple (n : ℚ) ((2 ^ 52 : ℕ) : ℤ) ?_ hlt
      rw [hexp, h53, hn53]
      norm_num


/-- The whole number `2 ^ 53 + 1` is no double: it lies half way between `2 ^ 53` and
`2 ^ 53 + 2` and is rounded to the first. -/
theorem roundToDouble_two_pow_53_succ :
    roundToDouble (9007199254740993 : ℕ) = JSNum.fin (9007199254740992 : ℕ) := by
  have hlog : Nat.log 2 9007199254740993 = 53 :=
    Nat.log_eq_of_pow_le_of_lt_pow (by norm_num) (by norm_num)
  have hexp := doubleExponent_natCast 9007199254740993 (by norm_num)
  rw [hlog] at hexp
  have hfloor : ⌊((9007199254740993 : ℕ) : ℚ) / 2⌋ = 4503599627370496 := by
    rw [Int.floor_eq_iff]
    constructor <;> norm_num
  have hround : roundHalfEven (((9007199254740993 : ℕ) : ℚ) / 2) = 4503599627370496 := by
    unfold roundHalfEven
    rw [hfloor, if_neg (by norm_num), if_neg (by norm_num), if_pos (by norm_num)]
  unfold roundToDouble
  simp only [hexp]
  have hulp : (2 : ℚ) ^ (((53 : ℕ) : ℤ) - 52) = 2 := by norm_num
  rw [hulp, hround]
  have hr : ((4503599627370496 : ℤ) : ℚ) * 2 = ((9007199254740992 : ℕ) : ℚ) := by norm_num
  rw [hr, if_neg]
  rw [not_le, abs_of_nonneg (by positivity)]
  exact lt_of_le_of_lt (by norm_num) two_pow_53_lt


theorem roundHalfEven_le (x : ℚ) (z : ℤ) (h : x ≤ z) : roundHalfEven x ≤ z := by
  have hfl : ⌊x⌋ ≤ z := Int.floor_le_iff.mpr (lt_of_le_of_lt h (by exact_mod_cast Int.lt_succ z))
  rcases hfl.lt_or_eq with hlt | heq
  · have h1 : ⌊x⌋ + 1 ≤ z := hlt
    unfold roundHalfEven
    split_ifs <;> omega
  · have hx : x = ⌊x⌋ := le_antisymm (by rw [heq]; exact h) (Int.floor_le x)
    unfold roundHalfEven
    rw [if_pos (by rw [← hx, sub_self]; norm_num), heq]

theorem lt_roundHalfEven (x : ℚ) (z : ℤ) (h : (z : ℚ) + 1 / 2 < x) : z < roundHalfEven x := by
  have hzx : (z : ℚ) ≤ x := by linarith
  have hfl : z ≤ ⌊x⌋ := Int.le_floor.mpr hzx
  rcases hfl.lt_or_eq with hlt | heq
  · unfold roundHalfEven
    split_ifs <;> omega
  · have hfrac : 1 / 2 < x - ⌊x⌋ := by rw [← heq]; linarith
    unfold roundHalfEven
    rw [if_neg (not_lt.mpr hfrac.le), if_pos hfrac]
    omega

/-- The quotient of a count below `2 ^ 53` by a limit up to `2 ^ 53` may be rounded, but
its ceiling is the ceiling of the exact quotient. -/
theorem ceil_roundToDouble_div (T l : ℕ) (hl : 1 ≤ l) (hl53 : l ≤ 2 ^ 53) (hT : T < 2 ^ 53) :
    JSNum.ceil (roundToDouble ((T : ℚ) / l)) = JSNum.fin (⌈(T : ℚ) / l⌉ : ℤ) := by
  have hlq : (0 : ℚ) < l := by exact_mod_cast hl
  by_cases hdvd : l ∣ T
  · have hcast : (T : ℚ) / l = ((T / l : ℕ) : ℚ) := by
      rw [Nat.cast_div hdvd hlq.ne']
    rw [hcast, roundToDouble_natCast _ (le_trans (Nat.div_le_self T l) hT.le)]
    simp [JSNum.ceil]
  · obtain ⟨q, hq⟩ : ∃ q : ℚ, q = (T : ℚ) / l := ⟨_, rfl⟩
    rw [← hq]
    have hql : q * l = T := by rw [hq, div_mul_cancel₀ _ hlq.ne']
    have hTpos : 0 < T := by
      rcases Nat.eq_zero_or_pos T with h0 | h
      · exact absurd (h0 ▸ dvd_zero l) hdvd
      · exact h
    have hqpos : 0 < q := by
      rw [hq]
      exact div_pos (by exact_mod_cast hTpos) hlq
    -- the floor and the gap above it
    have hkle : (⌊q⌋ : ℚ) ≤ q := Int.floor_le q
    have hqlt : q < ⌊q⌋ + 1 := Int.lt_floor_add_one q
    have hk0 : 0 ≤ ⌊q⌋ := Int.floor_nonneg.mpr hqpos.le
    have hmul : (⌊q⌋ : ℚ) * l ≤ T := by
      have := mul_le_mul_of_nonneg_right hkle hlq.le
      rwa [hql] at this
    have hmulZ : ⌊q⌋ * (l : ℤ) ≤ (T : ℤ) := by exact_mod_cast hmul
    have hneZ : ⌊q⌋ * (l : ℤ) ≠ (T : ℤ) := by
      intro h
      apply hdvd
      have hnat : (⌊q⌋.toNat : ℤ) = ⌊q⌋ := Int.toNat_of_nonneg hk0
      refine ⟨⌊q⌋.toNat, ?_⟩
      have : ((l * ⌊q⌋.toNat : ℕ) : ℤ) = (T : ℤ) := by
        push_cast
        rw [hnat, mul_comm]
        exact h
      exact_mod_cast this.symm
    have hgapZ : ⌊q⌋ * (l : ℤ) + 1 ≤ (T : ℤ) := by omega
    have hgap : 1 / (l : ℚ) ≤ q - ⌊q⌋ := by
      rw [div_le_iff₀ hlq, sub_mul, hql]
      have : (⌊q⌋ : ℚ) * l + 1 ≤ T := by exact_mod_cast hgapZ
      linarith
    have hq53 : q < 2 ^ (53 : ℕ) := by
      have hTq : (T : ℚ) < 2 ^ (53 : ℕ) := by exact_mod_cast hT
      have : q ≤ T := by
        have h1 : (1 : ℚ) ≤ l := by exact_mod_cast hl
        have h0 : (0 : ℚ) ≤ T := by positivity
        rw [hq, div_le_iff₀ hlq]
        nlinarith
      linarith
    -- the binade of the quotient
    have hlow : (2 : ℚ) ^ (-53 : ℤ) ≤ q := by
      have h1 : (2 : ℚ) ^ (-53 : ℤ) ≤ 1 / l := by
        rw [zpow_neg, one_div]
        apply inv_anti₀ hlq
        exact_mod_cast hl53
      have h2 : 1 / (l : ℚ) ≤ q := by
        have : (0 : ℚ) ≤ ⌊q⌋ := by exact_mod_cast hk0
        linarith
      exact le_trans h1 h2
    have hloglow : (-53 : ℤ) ≤ Int.log 2 q := by
      have h : ((2 : ℕ) : ℚ) ^ (-53 : ℤ) ≤ q ↔ (-53 : ℤ) ≤ Int.log 2 q :=
        Int.zpow_le_iff_le_log (by norm_num) hqpos
      exact h.mp (by exact_mod_cast hlow)
    have hloghigh : Int.log 2 q < 53 := by
      have h : q < ((2 : ℕ) : ℚ) ^ (53 : ℤ) ↔ Int.log 2 q < (53 : ℤ) :=
        Int.lt_zpow_iff_log_lt (by norm_num) hqpos
      exact h.mp (by exact_mod_cast hq53)
    have hexp : doubleExponent q = Int.log 2 q := by
      unfold doubleExponent
      rw [abs_of_pos hqpos]
      omega
    have hbin : (2 : ℚ) ^ (Int.log 2 q) ≤ q := by
      have h : ((2 : ℕ) : ℚ) ^ Int.log 2 q ≤ q := Int.zpow_log_le_self (by norm_num) hqpos
      exact_mod_cast h
    -- the unit of the binade is one over a power of two
    obtain ⟨j, hj⟩ : ∃ j : ℕ, Int.log 2 q - 52 = -(j : ℤ) :=
      ⟨(52 - Int.log 2 q).toNat, by omega⟩
    have hjpos : (0 : ℚ) < 2 ^ j := by positivity
    have hulp : (2 : ℚ) ^ (doubleExponent q - 52) = (2 ^ j)⁻¹ := by
      rw [hexp, hj, zpow_neg, zpow_natCast]
    have hulple : ((2 : ℚ) ^ j)⁻¹ ≤ q / 2 ^ (52 : ℕ) := by
      have he : (2 : ℚ) ^ (Int.log 2 q) = 2 ^ (52 : ℕ) * (2 ^ j)⁻¹ := by
        have : Int.log 2 q = (52 : ℤ) + -(j : ℤ) := by omega
        rw [this, zpow_add₀ (by norm_num), zpow_neg, zpow_natCast]
        norm_num
      rw [le_div_iff₀ (by positivity), mul_comm]
      rw [he] at hbin
      exact hbin
    -- the rounded multiple lies above the floor and not above the ceiling
    have hx : q / 2 ^ (doubleExponent q - 52) = q * 2 ^ j := by
      rw [hulp, div_inv_eq_mul]
    have hupper : roundHalfEven (q * 2 ^ j) ≤ (⌊q⌋ + 1) * 2 ^ j := by
      apply roundHalfEven_le
      push_cast
      exact mul_le_mul_of_nonneg_right hqlt.le hjpos.le
    have hlower : ⌊q⌋ * 2 ^ j < roundHalfEven (q * 2 ^ j) := by
      apply lt_roundHalfEven
      push_cast
      have hhalf : ((2 : ℚ) ^ j)⁻¹ / 2 < q - ⌊q⌋ := by
        have h1 : ((2 : ℚ) ^ j)⁻¹ / 2 ≤ q / 2 ^ (53 : ℕ) := by
          have : q / 2 ^ (53 : ℕ) = q / 2 ^ (52 : ℕ) / 2 := by
            rw [div_div, pow_succ]
          rw [this]
          exact div_le_div_of_nonneg_right hulple (by norm_num)
        have h2 : q / 2 ^ (53 : ℕ) < 1 / l := by
          have hTq : (T : ℚ) < 2 ^ (53 : ℕ) := by exact_mod_cast hT
          rw [div_lt_iff₀ (by positivity), one_div, inv_mul_eq_div, lt_div_iff₀ hlq, hql]
          exact hTq
        linarith
      have : 1 / 2 < (q - ⌊q⌋) * 2 ^ j := by
        have := mul_lt_mul_of_pos_right hhalf hjpos
        rw [div_mul_eq_mul_div, inv_mul_cancel₀ hjpos.ne'] at this
        exact this
      linarith
    have hlower' : ⌊q⌋ * 2 ^ j + 1 ≤ roundHalfEven (q * 2 ^ j) := hlower
    have hrhi : (roundHalfEven (q * 2 ^ j) : ℚ) * (2 ^ j)⁻¹ ≤ ⌊q⌋ + 1 := by
      have : (roundHalfEven (q * 2 ^ j) : ℚ) ≤ (⌊q⌋ + 1) * 2 ^ j := by exact_mod_cast hupper
      rw [← div_eq_mul_inv, div_le_iff₀ hjpos]
      exact this
    have hrlo : (⌊q⌋ : ℚ) < (roundHalfEven (q * 2 ^ j) : ℚ) * (2 ^ j)⁻¹ := by
      have : (⌊q⌋ : ℚ) * 2 ^ j + 1 ≤ (roundHalfEven (q * 2 ^ j) : ℚ) := by
        exact_mod_cast hlower'
      rw [← div_eq_mul_inv, lt_div_iff₀ hjpos]
      linarith
    have hceilq : ⌈q⌉ = ⌊q⌋ + 1 := by
      rw [Int.ceil_eq_iff]
      push_cast
      constructor
      · have hne : (⌊q⌋ : ℚ) ≠ q := by
          intro h
          apply hneZ
          have : (⌊q⌋ : ℚ) * l = T := by rw [h, hql]
          exact_mod_cast this
        have := lt_of_le_of_ne hkle hne
        linarith
      · exact hqlt.le
    unfold roundToDouble
    simp only [hulp, div_inv_eq_mul]
    rw [if_neg]
    · simp only [JSNum.ceil, JSNum.fin.injEq, Int.cast_inj]
      rw [hceilq, Int.ceil_eq_iff]
      push_cast
      constructor
      · linarith
      · exact hrhi
    · rw [not_le, abs_of_pos (lt_of_le_of_lt (by exact_mod_cast hk0) hrlo)]
      have h1 : (⌊q⌋ : ℚ) + 1 < 2 ^ (53 : ℕ) + 1 := by linarith
      have h2 : (2 : ℚ) ^ (53 : ℕ) + 1 ≤ 2 ^ (1024 : ℕ) := by
        have h54 : (2 : ℚ) ^ (53 : ℕ) + 1 ≤ 2 ^ (54 : ℕ) := by norm_num
        exact le_trans h54 (pow_le_pow_right₀ (by norm_num) (by norm_num))
      linarith


theorem toDouble_natCast (n : ℕ) (hn : n ≤ 2 ^ 53) :
    (JSNum.fin (n : ℚ)).toDouble = JSNum.fin n :=
  roundToDouble_natCast n hn

/-- While `page * limit` stays within `2 ^ 53` no step of `(page - 1) * limit` is
rounded: doubles compute what exact arithmetic computes. -/
theorem computeOffsetDouble_of_isNatValue {page limit : JSVal} {p l : ℕ} (hp : 1 ≤ p)
    (hl : 1 ≤ l) (hpage : IsNatValue page p) (hlimit : IsNatValue limit l)
    (hsafe : p * l ≤ 2 ^ 53) :
    computeOffsetDouble page limit = JSNum.fin (((p - 1) * l : ℕ) : ℚ) ∧
    computeOffsetDouble page limit = computeOffset page limit := by
  have hp53 : p ≤ 2 ^ 53 := le_trans (Nat.le_mul_of_pos_right p hl) hsafe
  have hl53 : l ≤ 2 ^ 53 := le_trans (Nat.le_mul_of_pos_left l hp) hsafe
  have hoff53 : (p - 1) * l ≤ 2 ^ 53 :=
    le_trans (Nat.mul_le_mul_right l (Nat.sub_le p 1)) hsafe
  have hsub : JSNum.sub (JSNum.fin (p : ℚ)) (JSNum.fin 1) = JSNum.fin ((p - 1 : ℕ) : ℚ) := by
    simp only [JSNum.sub]
    congr 1
    push_cast [Nat.cast_sub hp]
    ring
  have hmul : JSNum.mul (JSNum.fin ((p - 1 : ℕ) : ℚ)) (JSNum.fin (l : ℚ))
      = JSNum.fin (((p - 1) * l : ℕ) : ℚ) := by
    simp only [JSNum.mul]
    congr 1
    push_cast
    ring
  have h : computeOffsetDouble page limit = JSNum.fin (((p - 1) * l : ℕ) : ℚ) := by
    rw [computeOffsetDouble, toNumber_of_isNatValue hpage, toNumber_of_isNatValue hlimit,
      toDouble_natCast p hp53, toDouble_natCast l hl53, hsub,
      toDouble_natCast (p - 1) (le_trans (Nat.sub_le p 1) hp53), hmul,
      toDouble_natCast _ hoff53]
  exact ⟨h, by rw [h, computeOffset_of_isNatValue hp hpage hlimit]⟩

/-- While `page * limit` stays within `2 ^ 53` and the count below it, no step of the
pagination object goes wrong by rounding: doubles compute what exact arithmetic
computes. -/
theorem paginationOfDouble_of_isNatValue {page limit : JSVal} {p l : ℕ} (hp : 1 ≤ p)
    (hl : 1 ≤ l) (hpage : IsNatValue page p) (hlimit : IsNatValue limit l)
    (hsafe : p * l ≤ 2 ^ 53) (T : ℕ) (hT : T < 2 ^ 53) :
    paginationOfDouble page limit (parseInt (JSVal.str (toString T))).toDouble =
      { currentPage := JSNum.fin p,
        totalPages := JSNum.fin (⌈(T : ℚ) / l⌉ : ℤ),
        totalCount := JSNum.fin T,
        hasNext := decide (p * l < T),
        hasPrev := decide (1 < p) } ∧
    paginationOfDouble page limit (parseInt (JSVal.str (toString T))).toDouble
      = paginationOf page limit (parseInt (JSVal.str (toString T))) := by
  have hp53 : p ≤ 2 ^ 53 := le_trans (Nat.le_mul_of_pos_right p hl) hsafe
  have hl53 : l ≤ 2 ^ 53 := le_trans (Nat.le_mul_of_pos_left l hp) hsafe
  have hl0 : (l : ℚ) ≠ 0 := by exact_mod_cast (by omega : l ≠ 0)
  have hmul : JSNum.mul (JSNum.fin (p : ℚ)) (JSNum.fin (l : ℚ)) = JSNum.fin ((p * l : ℕ) : ℚ) := by
    simp only [JSNum.mul]
    congr 1
    push_cast
    ring
  have hdiv : JSNum.div (JSNum.fin (T : ℚ)) (JSNum.fin (l : ℚ)) = JSNum.fin ((T : ℚ) / l) := by
    simp only [JSNum.div, hl0, if_false]
  have h : paginationOfDouble page limit (parseInt (JSVal.str (toString T))).toDouble =
      { currentPage := JSNum.fin p,
        totalPages := JSNum.fin (⌈(T : ℚ) / l⌉ : ℤ),
        totalCount := JSNum.fin T,
        hasNext := decide (p * l < T),
        hasPrev := decide (1 < p) } := by
    rw [paginationOfDouble, toNumber_of_isNatValue hpage, toNumber_of_isNatValue hlimit,
      parseInt_of_isNatValue hpage, parseInt_toString, toDouble_natCast p hp53,
      toDouble_natCast l hl53, toDouble_natCast T hT.le, hmul, toDouble_natCast _ hsafe, hdiv]
    have hceil : JSNum.ceil (JSNum.fin ((T : ℚ) / l)).toDouble = JSNum.fin (⌈(T : ℚ) / l⌉ : ℤ) :=
      ceil_roundToDouble_div T l hl hl53 hT
    rw [hceil]
    simp only [JSNum.lt]
    congr 1
    · simp only [decide_eq_decide]
      exact_mod_cast Iff.rfl
    · simp only [decide_eq_decide]
      exact_mod_cast Iff.rfl
  exact ⟨h, by rw [h, paginationOf_of_isNatValue hl hpage hlimit T]⟩

theorem toNumber_page_text :
    toNumber (JSVal.str "9007199254740993") = JSNum.fin ((9007199254740993 : ℕ) : ℚ) ∧
    parseInt (JSVal.str "9007199254740993") = JSNum.fin ((9007199254740993 : ℕ) : ℚ) ∧
    toNumber (JSVal.str "1") = JSNum.fin ((1 : ℕ) : ℚ) := by
  have hd : natOfDigits "9007199254740993".data = 9007199254740993 := by decide
  have h1 : natOfDigits "1".data = 1 := by decide
  refine ⟨?_, ?_, ?_⟩
  · have := @stringToNumber_digits "9007199254740993".data (by decide) (by decide)
    rw [hd] at this
    exact this
  · have := @parseIntString_digits "9007199254740993".data (by decide) (by decide)
    rw [hd] at this
    exact this
  · have := @stringToNumber_digits "1".data (by decide) (by decide)
    rw [h1] at this
    exact this

/-- The offset doubles compute for a page that is rounded to the whole number `m` and the
limit 1. -/
theorem computeOffsetDouble_of_rounded (page limit : JSVal) (n m : ℕ)
    (hpage : toNumber page = JSNum.fin (n : ℚ)) (hlimit : toNumber limit = JSNum.fin ((1 : ℕ) : ℚ))
    (hround : roundToDouble (n : ℚ) = JSNum.fin (m : ℚ)) (hm1 : 1 ≤ m) (hm : m ≤ 2 ^ 53) :
    computeOffsetDouble page limit = JSNum.fin ((m - 1 : ℕ) : ℚ) := by
  have hsub : JSNum.sub (JSNum.fin (m : ℚ)) (JSNum.fin 1) = JSNum.fin ((m - 1 : ℕ) : ℚ) := by
    simp only [JSNum.sub]
    congr 1
    push_cast [Nat.cast_sub hm1]
    ring
  have hmul : JSNum.mul (JSNum.fin ((m - 1 : ℕ) : ℚ)) (JSNum.fin ((1 : ℕ) : ℚ))
      = JSNum.fin ((m - 1 : ℕ) : ℚ) := by
    simp only [JSNum.mul]
    congr 1
    push_cast
    ring
  have hm' : m - 1 ≤ 2 ^ 53 := le_trans (Nat.sub_le m 1) hm
  rw [computeOffsetDouble, hpage, hlimit]
  simp only [JSNum.toDouble]
  rw [hround, hsub]
  simp only [JSNum.toDouble]
  rw [roundToDouble_natCast (m - 1) hm', roundToDouble_natCast 1 (by norm_num), hmul]
  exact roundToDouble_natCast (m - 1) hm'

/-- C5 as stated fails: the page `9007199254740993`, which is `2 ^ 53 + 1`, is no double.
As a query parameter with the limit `1` it converts to `9007199254740992`, so that the
offset the code computes is `9007199254740991` and not `(page - 1) * limit`, and the
`currentPage` it returns is `9007199254740992`; and a count of `9007199254740993` rows is
returned as the `totalCount` `9007199254740992`. -/
theorem page_beyond_two_pow_53_is_rounded :
    toNumber (JSVal.str "9007199254740993") = JSNum.fin ((9007199254740993 : ℕ) : ℚ) ∧
    toNumber (JSVal.str "1") = JSNum.fin ((1 : ℕ) : ℚ) ∧
    computeOffsetDouble (JSVal.str "9007199254740993") (JSVal.str "1")
      = JSNum.fin ((9007199254740991 : ℕ) : ℚ) ∧
    computeOffsetDouble (JSVal.str "9007199254740993") (JSVal.str "1")
      ≠ JSNum.fin (((9007199254740993 - 1) * 1 : ℕ) : ℚ) ∧
    (paginationOfDouble (JSVal.str "9007199254740993") (JSVal.str "1")
      (JSNum.fin 0)).currentPage = JSNum.fin ((9007199254740992 : ℕ) : ℚ) ∧
    parseInt (JSVal.str "9007199254740993") = JSNum.fin ((9007199254740993 : ℕ) : ℚ) ∧
    (paginationOfDouble (JSVal.str "1") (JSVal.str "1")
      (parseInt (JSVal.str "9007199254740993")).toDouble).totalCount
        = JSNum.fin ((9007199254740992 : ℕ) : ℚ) := by
  have hoff : computeOffsetDouble (JSVal.str "9007199254740993") (JSVal.str "1")
      = JSNum.fin ((9007199254740991 : ℕ) : ℚ) :=
    computeOffsetDouble_of_rounded _ _ 9007199254740993 9007199254740992 toNumber_page_text.1
      toNumber_page_text.2.2 roundToDouble_two_pow_53_succ (by norm_num) (by norm_num)
  refine ⟨toNumber_page_text.1, toNumber_page_text.2.2, hoff, ?_, ?_, toNumber_page_text.2.1, ?_⟩
  · rw [hoff]
    intro h
    have h2 := JSNum.fin.inj h
    norm_num at h2
  · simp only [paginationOfDouble]
    rw [toNumber_page_text.2.1]
    exact roundToDouble_two_pow_53_succ
  · simp only [paginationOfDouble]
    rw [toNumber_page_text.2.1]
    exact roundToDouble_two_pow_53_succ

/-- C5, on the range in which doubles are exact: for a page `p >= 1` and a limit `l >= 1`
with `p * l <= 2 ^ 53`, each given as a number or as a decimal string, `getAllBusinesses`
computes and binds the offset `(p - 1) * l` and, for every total count `T < 2 ^ 53`,
computes `totalPages = ceil(T / l)`, `totalCount = T`, `hasNext` iff `p * l < T` and
`hasPrev` iff `p > 1`; the pagination object of its response is this one for the number
`T` of rows that satisfy the predicate, and it does respond when the store does not
fail. -/
theorem getAllBusinesses_pagination_metadata (db : Db) (fault : Fault) (req : ListRequest)
    (p l : ℕ) (hp : 1 ≤ p) (hl : 1 ≤ l)
    (hpage : IsNatValue req.page p) (hlimit : IsNatValue req.limit l)
    (hsafe : p * l ≤ 2 ^ 53) (hrows : db.businesses.length < 2 ^ 53) :
    computeOffsetDouble req.page req.limit = JSNum.fin (((p - 1) * l : ℕ) : ℚ) ∧
    (getAllBusinessesQueries req).2.params
        = (getAllBusinessesQueries req).1.params
          ++ [req.limit, JSVal.num (computeOffsetDouble req.page req.limit)] ∧
    (∀ T : ℕ, T < 2 ^ 53 →
      paginationOfDouble req.page req.limit (parseInt (JSVal.str (toString T))).toDouble =
        { currentPage := JSNum.fin p,
          totalPages := JSNum.fin (⌈(T : ℚ) / l⌉ : ℤ),
          totalCount := JSNum.fin T,
          hasNext := decide (p * l < T),
          hasPrev := decide (1 < p) }) ∧
    (∀ body : ListBody, getAllBusinesses db fault req = Response.json 200 body →
      body.pagination = paginationOfDouble req.page req.limit
        (parseInt (JSVal.str (toString (db.businesses.filter fun b =>
          matchesPattern b req.category req.location req.search).length))).toDouble) ∧
    ∃ body : ListBody, getAllBusinesses db noFault req = Response.json 200 body := by
  have hoff := computeOffset_of_isNatValue hp hpage hlimit
  have hoffd := computeOffsetDouble_of_isNatValue hp hl hpage hlimit hsafe
  have hdp := withDefault_of_isNatValue (JSVal.num (JSNum.fin 1)) hpage
  have hdl := withDefault_of_isNatValue (JSVal.num (JSNum.fin 10)) hlimit
  have hl53 : l ≤ 2 ^ 53 := le_trans (Nat.le_mul_of_pos_left l hp) hsafe
  have hoff53 : (p - 1) * l ≤ 2 ^ 53 :=
    le_trans (Nat.mul_le_mul_right l (Nat.sub_le p 1)) hsafe
  have hcount : (db.businesses.filter fun b =>
      matchesPattern b req.category req.location req.search).length < 2 ^ 53 :=
    lt_of_le_of_lt (List.length_filter_le _ _) hrows
  refine ⟨hoffd.1, ?_, fun T hT => (paginationOfDouble_of_isNatValue hp hl hpage hlimit hsafe T hT).1,
    ?_, ?_⟩
  · rw [hoffd.1]
    simp only [getAllBusinessesQueries, hdp, hdl, hoff]
  · intro body h
    obtain ⟨_, _, _, _, _, hpag⟩ := getAllBusinesses_of_json db fault req body h
    rw [hpag, hdp, hdl, (paginationOfDouble_of_isNatValue hp hl hpage hlimit hsafe _ hcount).2]
  · refine ⟨_, getAllBusinesses_ok db req (some l) ((p - 1) * l) ?_ ?_⟩
    · rw [hdl]
      refine sqlLimit_of_isNatValue hlimit ?_
      have h : (l : ℤ) ≤ 2 ^ 53 := by exact_mod_cast hl53
      exact le_trans h (by norm_num [maxBigint])
    · rw [hdp, hdl, hoff]
      refine sqlOffset_natCast _ ?_
      have h : (((p - 1) * l : ℕ) : ℤ) ≤ 2 ^ 53 := by exact_mod_cast hoff53
      exact le_trans h (by norm_num [maxBigint])

theorem getAllBusinesses_pagination_metadata_witness :
    (1 ≤ 2 ∧ 1 ≤ 10 ∧ IsNatValue (pageRequest (JSVal.str "2") (JSVal.str "10")).page 2 ∧
      IsNatValue (pageRequest (JSVal.str "2") (JSVal.str "10")).limit 10 ∧
      2 * 10 ≤ 2 ^ 53 ∧ sampleDb.businesses.length < 2 ^ 53) ∧
    computeOffsetDouble (pageRequest (JSVal.str "2") (JSVal.str "10")).page
        (pageRequest (JSVal.str "2") (JSVal.str "10")).limit
      = JSNum.fin (((2 - 1) * 10 : ℕ) : ℚ) ∧
    ∃ body : ListBody,
      getAllBusinesses sampleDb noFault (pageRequest (JSVal.str "2") (JSVal.str "10"))
        = Response.json 200 body :=
  ⟨⟨by decide, by decide, Or.inr rfl, Or.inr rfl, by norm_num, by decide⟩,
    (getAllBusinesses_pagination_metadata sampleDb noFault
      (pageRequest (JSVal.str "2") (JSVal.str "10")) 2 10 (by decide) (by decide)
      (Or.inr rfl) (Or.inr rfl) (by norm_num) (by decide)).1,
    (getAllBusinesses_pagination_metadata sampleDb noFault
      (pageRequest (JSVal.str "2") (JSVal.str "10")) 2 10 (by decide) (by decide)
      (Or.inr rfl) (Or.inr rfl) (by norm_num) (by decide)).2.2.2.2⟩

/-! ## Paging values are passed on as they come -/

theorem computeOffset_zero_page :
    computeOffset (JSVal.str "0") (JSVal.num (JSNum.fin 10)) = JSNum.fin (-10) := by
  rw [computeOffset, show (JSVal.str "0") = JSVal.str (toString 0) from rfl, toNumber_toString]
  simp [toNumber, JSNum.sub, JSNum.mul]

/-- C6 as stated fails: `page=0` is not replaced by the default, it gives the offset
`-10` in `getAllBusinesses` and in `searchBusinesses`, which the store rejects; and
`limit=abc` is passed to the statement as it is. -/
theorem paging_values_not_replaced_by_defaults :
    (getAllBusinessesQueries (pageRequest (JSVal.str "0") JSVal.undefined)).2.params
      = [JSVal.num (JSNum.fin 10), JSVal.num (JSNum.fin (-10))] ∧
    (searchBusinessesQuery
        { q := none, category := none, location := none, page := JSVal.str "0",
          limit := JSVal.undefined }).params
      = [JSVal.null, JSVal.num (JSNum.fin 10), JSVal.num (JSNum.fin (-10))] ∧
    sqlOffset (JSVal.num (JSNum.fin (-10))) = none ∧
    (getAllBusinessesQueries (pageRequest JSVal.undefined (JSVal.str "abc"))).2.params
      = [JSVal.str "abc", JSVal.num JSNum.nan] ∧
    sqlLimit (JSVal.str "abc") = none := by
  refine ⟨?_, ?_, ?_, ?_, ?_⟩
  · simp only [getAllBusinessesQueries, pageRequest, withDefault, computeOffset_zero_page]
    rfl
  · simp only [searchBusinessesQuery, withDefault, computeOffset_zero_page]
    rfl
  · simp [sqlOffset, sqlBigint, Rat.isInt, maxBigint]
  · decide
  · decide

/-- C6, as the code has it: `page` is 1 and `limit` is 10 when absent, and a value that is
present is used as it is. When they are absent or positive whole numbers (as numbers or
decimal strings) with `page * limit <= 2 ^ 53`, the limit `getAllBusinesses` and
`searchBusinesses` bind is read by the statement as a positive integer, and the offset
they compute and bind as a non-negative integer. -/
theorem paging_of_whole_numbers (page limit : JSVal) (q category location search : Option String)
    (p l : ℕ) (hp : 1 ≤ p) (hl : 1 ≤ l)
    (hpage : IsNatValue (withDefault (JSVal.num (JSNum.fin 1)) page) p)
    (hlimit : IsNatValue (withDefault (JSVal.num (JSNum.fin 10)) limit) l)
    (hsafe : p * l ≤ 2 ^ 53) :
    (withDefault (JSVal.num (JSNum.fin 1)) JSVal.undefined = JSVal.num (JSNum.fin 1) ∧
      withDefault (JSVal.num (JSNum.fin 10)) JSVal.undefined = JSVal.num (JSNum.fin 10) ∧
      (page ≠ JSVal.undefined → withDefault (JSVal.num (JSNum.fin 1)) page = page) ∧
      (limit ≠ JSVal.undefined → withDefault (JSVal.num (JSNum.fin 10)) limit = limit)) ∧
    ((toNumber (withDefault (JSVal.num (JSNum.fin 10)) limit)).toDouble = JSNum.fin l ∧
      sqlLimit (withDefault (JSVal.num (JSNum.fin 10)) limit) = some (some l) ∧ 0 < l) ∧
    ∃ n : ℕ,
      computeOffsetDouble (withDefault (JSVal.num (JSNum.fin 1)) page)
        (withDefault (JSVal.num (JSNum.fin 10)) limit) = JSNum.fin n ∧
      sqlOffset (JSVal.num (JSNum.fin n)) = some n ∧
      (getAllBusinessesQueries
          { page := page, limit := limit, category := category, location := location,
            search := search }).2.params
        = (getAllBusinessesFilter category location search).params
          ++ [withDefault (JSVal.num (JSNum.fin 10)) limit, JSVal.num (JSNum.fin n)] ∧
      (searchBusinessesQuery
          { q := q, category := category, location := location, page := page,
            limit := limit }).params.drop
          ((searchBusinessesFilter q category location).params.length + 1)
        = [withDefault (JSVal.num (JSNum.fin 10)) limit, JSVal.num (JSNum.fin n)] := by
  have hoff := computeOffset_of_isNatValue hp hpage hlimit
  have hoffd := computeOffsetDouble_of_isNatValue hp hl hpage hlimit hsafe
  have hl53 : l ≤ 2 ^ 53 := le_trans (Nat.le_mul_of_pos_left l hp) hsafe
  have hoff53 : (p - 1) * l ≤ 2 ^ 53 :=
    le_trans (Nat.mul_le_mul_right l (Nat.sub_le p 1)) hsafe
  have hlmax : (l : ℤ) ≤ maxBigint := by
    have h : (l : ℤ) ≤ 2 ^ 53 := by exact_mod_cast hl53
    exact le_trans h (by norm_num [maxBigint])
  have homax : (((p - 1) * l : ℕ) : ℤ) ≤ maxBigint := by
    have h : (((p - 1) * l : ℕ) : ℤ) ≤ 2 ^ 53 := by exact_mod_cast hoff53
    exact le_trans h (by norm_num [maxBigint])
  refine ⟨⟨rfl, rfl, ?_, ?_⟩, ⟨?_, sqlLimit_of_isNatValue hlimit hlmax, hl⟩,
    (p - 1) * l, hoffd.1, sqlOffset_natCast _ homax, ?_, ?_⟩
  · intro h; cases page <;> first | rfl | exact absurd rfl h
  · intro h; cases limit <;> first | rfl | exact absurd rfl h
  · rw [toNumber_of_isNatValue hlimit]
    exact toDouble_natCast l hl53
  · simp only [getAllBusinessesQueries, hoff]
  · simp only [searchBusinessesQuery, hoff]
    rw [List.drop_append_eq_append_drop]
    simp

theorem paging_of_whole_numbers_witness :
    (1 ≤ 3 ∧ 1 ≤ 10 ∧ IsNatValue (withDefault (JSVal.num (JSNum.fin 1)) (JSVal.str "3")) 3 ∧
      IsNatValue (withDefault (JSVal.num (JSNum.fin 10)) JSVal.undefined) 10 ∧
      3 * 10 ≤ 2 ^ 53) ∧
    (toNumber (withDefault (JSVal.num (JSNum.fin 10)) JSVal.undefined)).toDouble
      = JSNum.fin ((10 : ℕ) : ℚ) ∧
    sqlLimit (withDefault (JSVal.num (JSNum.fin 10)) JSVal.undefined) = some (some 10) ∧
    0 < 10 :=
  ⟨⟨by decide, by decide, Or.inr rfl, Or.inl rfl, by norm_num⟩,
    (paging_of_whole_numbers (JSVal.str "3") JSVal.undefined none none none none 3 10
      (by decide) (by decide) (Or.inr rfl) (Or.inl rfl) (by norm_num)).2.1⟩

/-! ## The count statement and the row statement -/

set_option maxRecDepth 20000 in
theorem placeholders_listing_text (c l s : Bool) (params : List JSVal) :
    placeholders (ListingQuery.text
      { whereClause := getAllWhereOf c l s,
        limitPlaceholder := c.toNat + l.toNat + s.toNat + 1,
        offsetPlaceholder := c.toNat + l.toNat + s.toNat + 2,
        params := params })
      = List.range' 1 (c.toNat + l.toNat + s.toNat + 2) := by
  simp only [ListingQuery.text]
  cases c <;> cases l <;> cases s <;> decide

theorem placeholders_count_text (c l s : Bool) (params : List JSVal) :
    placeholders (CountQuery.text { whereClause := getAllWhereOf c l s, params := params })
      = List.range' 1 (c.toNat + l.toNat + s.toNat) := by
  simp only [CountQuery.text]
  cases c <;> cases l <;> cases s <;> decide

theorem window_length_le {α : Type} (limit : Option Nat) (offset : Nat) (rows : List α) :
    (window limit offset rows).length ≤ rows.length ∧
      ∀ n, limit = some n → (window limit offset rows).length ≤ n := by
  cases limit with
  | none =>
    refine ⟨?_, fun n h => by cases h⟩
    simp [window]
  | some m =>
    refine ⟨?_, fun n h => ?_⟩
    · simp only [window, List.length_take, List.length_drop]; omega
    · cases h
      simp only [window, List.length_take]; omega

/-- C7: the count statement and the row statement of `getAllBusinesses` have the same
WHERE clause; the row statement's parameters are those of the count statement followed
by limit and offset, bound to `$(n+1)` and `$(n+2)`; so `totalCount` is the number of all
rows that satisfy the predicate, whatever page and limit are, and the page returned has at
most `limit` rows. -/
theorem count_and_rows_share_predicate (db : Db) (fault : Fault) (req : ListRequest) :
    ((getAllBusinessesQueries req).1.whereClause = (getAllBusinessesQueries req).2.whereClause ∧
      (getAllBusinessesQueries req).2.params
        = (getAllBusinessesQueries req).1.params
          ++ [withDefault (JSVal.num (JSNum.fin 10)) req.limit,
              JSVal.num (computeOffset (withDefault (JSVal.num (JSNum.fin 1)) req.page)
                (withDefault (JSVal.num (JSNum.fin 10)) req.limit))] ∧
      (getAllBusinessesQueries req).2.limitPlaceholder
        = (getAllBusinessesQueries req).1.params.length + 1 ∧
      (getAllBusinessesQueries req).2.offsetPlaceholder
        = (getAllBusinessesQueries req).1.params.length + 2 ∧
      placeholders (getAllBusinessesQueries req).1.text
        = List.range' 1 (getAllBusinessesQueries req).1.params.length ∧
      placeholders (getAllBusinessesQueries req).2.text
        = List.range' 1 ((getAllBusinessesQueries req).1.params.length + 2)) ∧
    (∀ body : ListBody, getAllBusinesses db fault req = Response.json 200 body →
      body.pagination.totalCount
        = JSNum.fin ((db.businesses.filter fun b =>
            matchesPattern b req.category req.location req.search).length : ℕ) ∧
      body.businesses.length
        ≤ (db.businesses.filter fun b =>
            matchesPattern b req.category req.location req.search).length ∧
      ∀ n : ℕ, sqlLimit (withDefault (JSVal.num (JSNum.fin 10)) req.limit) = some (some n) →
        body.businesses.length ≤ n) ∧
    (∀ (page limit : JSVal) (fault' : Fault) (body body' : ListBody),
      getAllBusinesses db fault req = Response.json 200 body →
      getAllBusinesses db fault' { req with page := page, limit := limit }
        = Response.json 200 body' →
      body'.pagination.totalCount = body.pagination.totalCount) := by
  have hlen := getAllBusinessesFilter_params_length req.category req.location req.search
  have hpc := getAllBusinessesFilter_paramCount req.category req.location req.search
  have htotal : ∀ (r : ListRequest) (f : Fault) (body : ListBody),
      getAllBusinesses db f r = Response.json 200 body →
      body.pagination.totalCount
        = JSNum.fin ((db.businesses.filter fun b =>
            matchesPattern b r.category r.location r.search).length : ℕ) := by
    intro r f body h
    obtain ⟨_, _, _, _, _, hpag⟩ := getAllBusinesses_of_json db f r body h
    rw [hpag, paginationOf, parseInt_toString]
  refine ⟨⟨rfl, rfl, ?_, ?_, ?_, ?_⟩, ?_, ?_⟩
  · simp only [getAllBusinessesQueries, hlen, hpc]
  · simp only [getAllBusinessesQueries, hlen, hpc]
  · have := placeholders_count_text (truthy req.category) (truthy req.location)
      (truthy req.search) (getAllBusinessesFilter req.category req.location req.search).params
    rw [← getAllBusinessesFilter_whereClause, ← presentCount] at this
    simp only [getAllBusinessesQueries, hlen]
    exact this
  · have := placeholders_listing_text (truthy req.category) (truthy req.location)
      (truthy req.search)
      ((getAllBusinessesFilter req.category req.location req.search).params ++
        [withDefault (JSVal.num (JSNum.fin 10)) req.limit,
          JSVal.num (computeOffset (withDefault (JSVal.num (JSNum.fin 1)) req.page)
            (withDefault (JSVal.num (JSNum.fin 10)) req.limit))])
    rw [← getAllBusinessesFilter_whereClause, ← presentCount] at this
    simp only [getAllBusinessesQueries, hlen, hpc]
    exact this
  · intro body h
    refine ⟨htotal req fault body h, ?_⟩
    obtain ⟨limit, offset, hl, _, hrows, _⟩ := getAllBusinesses_of_json db fault req body h
    have hw := window_length_le limit offset
      ((orderByCreatedDesc (db.businesses.filter fun b =>
          matchesPattern b req.category req.location req.search)).map
        (aggregate db listingOwnerColumns))
    rw [← hrows] at hw
    constructor
    · have := hw.1
      simpa [orderByCreatedDesc, orderByDesc] using this
    · intro n hn
      rw [hl] at hn
      exact hw.2 n (Option.some.inj hn)
  · intro page limit fault' body body' h h'
    rw [htotal req fault body h, htotal _ fault' body' h']

theorem count_and_rows_share_predicate_witness :
    ∃ body : ListBody,
      getAllBusinesses sampleDb noFault (pageRequest (JSVal.str "1") (JSVal.str "1"))
        = Response.json 200 body ∧
      body.pagination.totalCount = JSNum.fin ((2 : ℕ) : ℚ) ∧ body.businesses.length ≤ 1 := by
  have hl : sqlLimit (withDefault (JSVal.num (JSNum.fin 10))
      (pageRequest (JSVal.str "1") (JSVal.str "1")).limit) = some (some 1) := by decide
  have ho : sqlOffset (JSVal.num (computeOffset
      (withDefault (JSVal.num (JSNum.fin 1)) (pageRequest (JSVal.str "1") (JSVal.str "1")).page)
      (withDefault (JSVal.num (JSNum.fin 10))
        (pageRequest (JSVal.str "1") (JSVal.str "1")).limit))) = some 0 := by
    have h1 : IsNatValue (JSVal.str "1") 1 := Or.inr rfl
    rw [show (pageRequest (JSVal.str "1") (JSVal.str "1")).page = JSVal.str "1" from rfl,
      show (pageRequest (JSVal.str "1") (JSVal.str "1")).limit = JSVal.str "1" from rfl,
      withDefault_of_isNatValue _ h1, withDefault_of_isNatValue _ h1,
      computeOffset_of_isNatValue (le_refl 1) h1 h1]
    exact sqlOffset_natCast _ (by decide)
  have h := getAllBusinesses_ok sampleDb (pageRequest (JSVal.str "1") (JSVal.str "1"))
    (some 1) 0 hl ho
  have hc := (count_and_rows_share_predicate sampleDb noFault
    (pageRequest (JSVal.str "1") (JSVal.str "1"))).2.1 _ h
  exact ⟨_, h, hc.1, hc.2.2 1 hl⟩

/-! ## Aggregates over the joined rows -/

theorem leftJoinSide_length {α : Type} (rows : List α) :
    (leftJoinSide rows).length = if rows.length = 0 then 1 else rows.length := by
  cases rows <;> simp [leftJoinSide]

theorem leftJoinSide_filterMap {α β : Type} (rows : List α) (f : α → β) :
    (leftJoinSide rows).filterMap (fun r => r.map f) = rows.map f := by
  cases rows with
  | nil => rfl
  | cons a as =>
    simp only [leftJoinSide, List.isEmpty_cons, Bool.false_eq_true, if_false,
      List.filterMap_map]
    induction (a :: as) with
    | nil => rfl
    | cons x xs ih => simp [List.filterMap_cons, ih]

/-- A review column over the joined rows of a business: the column over its reviews,
once for every product row of the join. -/
theorem joinedRows_review_column {β : Type} (db : Db) (b : Business) (f : Review → β) :
    (joinedRows db b).filterMap (fun row => row.2.map f)
      = (leftJoinSide (db.products.filter fun p => p.business_id = b.id)).flatMap fun _ =>
          (db.reviews.filter fun r => r.business_id = b.id).map f := by
  unfold joinedRows
  induction leftJoinSide (db.products.filter fun p => p.business_id = b.id) with
  | nil => rfl
  | cons p ps ih =>
    rw [List.flatMap_cons, List.filterMap_append, ih, List.flatMap_cons, List.filterMap_map]
    congr 1
    exact leftJoinSide_filterMap _ f

theorem flatMap_const_length {α β : Type} (xs : List α) (ys : List β) :
    (xs.flatMap fun _ => ys).length = xs.length * ys.length := by
  induction xs with
  | nil => simp
  | cons x xs ih => simp [List.flatMap_cons, ih, Nat.succ_mul, Nat.add_comm]

theorem flatMap_const_sum {α : Type} (xs : List α) (ys : List ℚ) :
    (xs.flatMap fun _ => ys).sum = xs.length * ys.sum := by
  induction xs with
  | nil => simp
  | cons x xs ih =>
    simp only [List.flatMap_cons, List.sum_append, ih, List.length_cons]
    push_cast
    ring

/-- `COUNT(r.id)` over the joined rows: the number of reviews times the number of
products, or the number of reviews when there is no product. -/
theorem aggregate_review_count (db : Db) (columns : List (String × (User → Option String)))
    (b : Business) :
    (aggregate db columns b).review_count
      = (if (db.products.filter fun p => p.business_id = b.id).length = 0 then 1
          else (db.products.filter fun p => p.business_id = b.id).length)
        * (db.reviews.filter fun r => r.business_id = b.id).length := by
  simp only [aggregate]
  rw [joinedRows_review_column, flatMap_const_length, leftJoinSide_length, List.length_map]

/-- `AVG(r.rating)` over the joined rows: NULL without reviews, else the mean of the
ratings of the reviews. -/
theorem aggregate_average_rating (db : Db) (columns : List (String × (User → Option String)))
    (b : Business) :
    (aggregate db columns b).average_rating
      = if (db.reviews.filter fun r => r.business_id = b.id) = [] then none
        else some (((db.reviews.filter fun r => r.business_id = b.id).map fun r => r.rating).sum
          / (db.reviews.filter fun r => r.business_id = b.id).length) := by
  simp only [aggregate]
  rw [joinedRows_review_column]
  have hpos : 0 < (leftJoinSide (db.products.filter fun p => p.business_id = b.id)).length := by
    rw [leftJoinSide_length]; split_ifs <;> omega
  generalize leftJoinSide (db.products.filter fun p => p.business_id = b.id) = ps at hpos
  generalize (db.reviews.filter fun r => r.business_id = b.id) = rs
  cases rs with
  | nil =>
    have : (ps.flatMap fun _ => (([] : List Review).map fun r => r.rating)) = [] := by
      induction ps with
      | nil => rfl
      | cons p ps ih => simp
    simp [sqlAvg, this]
  | cons r rs =>
    have hne : (ps.flatMap fun _ => ((r :: rs).map fun r => r.rating)).isEmpty = false := by
      cases ps with
      | nil => simp at hpos
      | cons p ps => simp [List.flatMap_cons]
    have hps : (ps.length : ℚ) ≠ 0 := by exact_mod_cast (by omega : ps.length ≠ 0)
    simp only [sqlAvg, hne, Bool.false_eq_true, if_false, flatMap_const_sum,
      flatMap_const_length, List.length_map, reduceCtorEq]
    congr 1
    push_cast
    rw [mul_div_mul_left _ _ hps]

theorem sample_listing_rows :
    getAllBusinesses sampleDb noFault (pageRequest JSVal.undefined JSVal.undefined)
      = Response.json 200
        { businesses := window (some 10) 0
            ((orderByCreatedDesc (sampleDb.businesses.filter fun b =>
                matchesPattern b none none none)).map (aggregate sampleDb listingOwnerColumns)),
          pagination := paginationOf (JSVal.num (JSNum.fin 1)) (JSVal.num (JSNum.fin 10))
            (parseInt (JSVal.str (toString (sampleDb.businesses.filter fun b =>
              matchesPattern b none none none).length))) } := by
  have h1 : IsNatValue (JSVal.num (JSNum.fin 1)) 1 := Or.inl rfl
  have h10 : IsNatValue (JSVal.num (JSNum.fin 10)) 10 := Or.inl rfl
  refine getAllBusinesses_ok sampleDb (pageRequest JSVal.undefined JSVal.undefined)
    (some 10) 0 (sqlLimit_of_isNatValue h10 (by decide)) ?_
  rw [show withDefault (JSVal.num (JSNum.fin 1)) (pageRequest JSVal.undefined JSVal.undefined).page
      = JSVal.num (JSNum.fin 1) from rfl,
    show withDefault (JSVal.num (JSNum.fin 10)) (pageRequest JSVal.undefined JSVal.undefined).limit
      = JSVal.num (JSNum.fin 10) from rfl,
    computeOffset_of_isNatValue (le_refl 1) h1 h10]
  exact sqlOffset_natCast _ (by decide)

/-- C8 fails on the code: business 1 of the sample store has 2 products and 3 reviews, and
its aggregate row, in the controller's `getBusinessById`, in the router's `GET /:id` and
in the listing of `getAllBusinesses`, has `product_count = 2` but `review_count = 6`, one
per product and review pair. -/
theorem review_count_inflated_by_product_join :
    (sampleDb.products.filter fun p => p.business_id = 1).length = 2 ∧
    (sampleDb.reviews.filter fun r => r.business_id = 1).length = 3 ∧
    (∃ body : DetailBody, getBusinessById sampleDb noFault 1 = Response.json 200 body ∧
      body.business.product_count = 2 ∧ body.business.review_count = 6) ∧
    (∃ body : DetailBody, routerGetById sampleDb noFault 1 = Response.json 200 body ∧
      body.business.product_count = 2 ∧ body.business.review_count = 6) ∧
    (∃ body : ListBody,
      getAllBusinesses sampleDb noFault (pageRequest JSVal.undefined JSVal.undefined)
        = Response.json 200 body ∧
      body.businesses.map (fun row => (row.business.id, row.product_count, row.review_count))
        = [(2, 0, 0), (1, 2, 6)]) :=
  ⟨by decide, by decide, ⟨_, rfl, by decide, by decide⟩, ⟨_, rfl, by decide, by decide⟩,
    ⟨_, sample_listing_rows, by decide⟩⟩

/-! ## The router's listing -/

theorem bindsAll_router (c l s : Bool) :
    bindsAll (getAllWhereOf c l s) (c.toNat + l.toNat + s.toNat) = true := by
  cases c <;> cases l <;> cases s <;> decide

/-- Router `GET /` returns the rows `matchesPattern` accepts, newest first, unless the
store fails. -/
theorem routerGetRoot_eq (db : Db) (fault : Fault) (c l s : Option String) :
    routerGetRoot db fault c l s =
      match fault 0 with
      | some _ => Response.error 500 "Error fetching businesses"
      | none =>
        Response.json 200
          ((orderByCreatedDesc (db.businesses.filter fun b => matchesPattern b c l s)).map
            (aggregate db [])) := by
  have hb := bindsAll_router (truthy c) (truthy l) (truthy s)
  rw [← presentCount, ← getAllBusinessesFilter_params_length,
    ← routerGetRootFilter_whereClause, ← routerGetRootFilter_params] at hb
  have hcomp : compileWhere (routerGetRootFilter c l s).whereClause
      (routerGetRootFilter c l s).params = some (listingConjuncts c l s) := by
    rw [routerGetRootFilter_whereClause, routerGetRootFilter_params,
      ← getAllBusinessesFilter_whereClause]
    exact compileWhere_listing c l s
  have hfilter : accepts (listingConjuncts c l s) = fun b => matchesPattern b c l s :=
    funext fun b => accepts_listing b _ _ _
  simp only [routerGetRoot, hb, if_true, hcomp, hfilter]
  cases fault 0 <;> rfl

theorem mem_window_map {α β : Type} {limit : Option Nat} {offset : Nat} {rows : List α}
    {f : α → β} {y : β} (h : y ∈ window limit offset (rows.map f)) : ∃ x ∈ rows, y = f x := by
  have hy : y ∈ rows.map f := by
    cases limit with
    | none => exact List.mem_of_mem_drop h
    | some n => exact List.mem_of_mem_drop (List.mem_of_mem_take h)
  obtain ⟨x, hx, rfl⟩ := List.mem_map.mp hy
  exact ⟨x, hx, rfl⟩

/-- C9: the `average_rating` of an aggregate row is NULL when the business has no reviews
and otherwise the mean of the ratings of its reviews, whatever products it has; for the
ratings 5, 4, 3 it is 4. This holds of every row `getAllBusinesses` and the router's
`GET /` return. -/
theorem average_rating_is_mean_of_reviews (db : Db) (fault : Fault) :
    (∀ (columns : List (String × (User → Option String))) (b : Business),
      (aggregate db columns b).average_rating
        = if (db.reviews.filter fun r => r.business_id = b.id) = [] then none
          else some
            (((db.reviews.filter fun r => r.business_id = b.id).map fun r => r.rating).sum
              / (db.reviews.filter fun r => r.business_id = b.id).length)) ∧
    (∀ (columns : List (String × (User → Option String))) (b : Business),
      ((db.reviews.filter fun r => r.business_id = b.id).map fun r => r.rating) = [5, 4, 3] →
      (aggregate db columns b).average_rating = some 4) ∧
    (∀ (req : ListRequest) (body : ListBody),
      getAllBusinesses db fault req = Response.json 200 body →
      ∀ row ∈ body.businesses,
        row.average_rating
          = if (db.reviews.filter fun r => r.business_id = row.business.id) = [] then none
            else some
              (((db.reviews.filter fun r => r.business_id = row.business.id).map
                  fun r => r.rating).sum
                / (db.reviews.filter fun r => r.business_id = row.business.id).length)) ∧
    (∀ (c l s : Option String) (rows : List AggregateRow),
      routerGetRoot db fault c l s = Response.json 200 rows →
      ∀ row ∈ rows,
        row.average_rating
          = if (db.reviews.filter fun r => r.business_id = row.business.id) = [] then none
            else some
              (((db.reviews.filter fun r => r.business_id = row.business.id).map
                  fun r => r.rating).sum
                / (db.reviews.filter fun r => r.business_id = row.business.id).length)) := by
  refine ⟨aggregate_average_rating db, ?_, ?_, ?_⟩
  · intro columns b h
    have hlen : (db.reviews.filter fun r => r.business_id = b.id).length = 3 := by
      have := congrArg List.length h
      simpa using this
    have hne : (db.reviews.filter fun r => r.business_id = b.id) ≠ [] := by
      intro h0; rw [h0] at hlen; cases hlen
    rw [aggregate_average_rating, if_neg hne, h, hlen]
    norm_num
  · intro req body h row hrow
    obtain ⟨limit, offset, _, _, hrows, _⟩ := getAllBusinesses_of_json db fault req body h
    rw [hrows] at hrow
    obtain ⟨b, _, rfl⟩ := mem_window_map hrow
    exact aggregate_average_rating db _ b
  · intro c l s rows h row hrow
    rw [routerGetRoot_eq] at h
    cases hf : fault 0 with
    | some e => simp [hf] at h
    | none =>
      simp only [hf, Response.json.injEq, true_and] at h
      rw [← h] at hrow
      obtain ⟨b, _, rfl⟩ := List.mem_map.mp hrow
      exact aggregate_average_rating db _ b

theorem average_rating_is_mean_of_reviews_witness :
    ((sampleDb.reviews.filter fun r => r.business_id = (sampleBusiness 1 "Kofi Foods" "Jollof" 5).id).map
        fun r => r.rating) = [5, 4, 3] ∧
    (aggregate sampleDb listingOwnerColumns (sampleBusiness 1 "Kofi Foods" "Jollof" 5)).average_rating
      = some 4 :=
  ⟨by decide,
    (average_rating_is_mean_of_reviews sampleDb noFault).2.1 listingOwnerColumns
      (sampleBusiness 1 "Kofi Foods" "Jollof" 5) (by decide)⟩

/-! ## Looking one business up -/

/-- C10: when the store does not fail, the controller's `getBusinessById` answers 404
`Business not found` if and only if every business with the given id (none, or the one
there is) is inactive; for an active business with that id, the only row with that id,
it answers with the aggregate row of that business and its `products` and `reviews`
lists. -/
theorem getBusinessById_not_found_iff (db : Db) (id : Nat) :
    (getBusinessById db noFault id = Response.error 404 "Business not found"
      ↔ ∀ b ∈ db.businesses, b.id = id → b.is_active = false) ∧
    (∀ b ∈ db.businesses, b.id = id → b.is_active = true →
      (∀ b' ∈ db.businesses, b'.id = id → b' = b) →
      getBusinessById db noFault id = Response.json 200
        { business := aggregate db detailOwnerColumns b,
          products := availableProducts db id,
          reviews := recentReviews db id 10 }) := by
  constructor
  · simp only [getBusinessById, runQuery, noFault]
    cases hrows : (db.businesses.filter fun b => b.id = id ∧ b.is_active = true) with
    | nil =>
      simp only [List.map_nil, true_iff]
      intro b hb hid
      have hnot : b ∉ db.businesses.filter fun b => b.id = id ∧ b.is_active = true := by
        rw [hrows]; exact List.not_mem_nil b
      cases hact : b.is_active with
      | false => rfl
      | true => exact absurd (List.mem_filter.mpr ⟨hb, by simp [hid, hact]⟩) hnot
    | cons x xs =>
      simp only [List.map_cons, reduceCtorEq, false_iff]
      intro hall
      have hx : x ∈ db.businesses.filter fun b => b.id = id ∧ b.is_active = true := by
        rw [hrows]; exact List.mem_cons_self _ _
      obtain ⟨hmem, hp⟩ := List.mem_filter.mp hx
      simp only [decide_eq_true_eq] at hp
      have := hall x hmem hp.1
      rw [hp.2] at this
      exact Bool.noConfusion this
  · intro b hb hid hact huniq
    simp only [getBusinessById, runQuery, noFault]
    cases hrows : (db.businesses.filter fun b => b.id = id ∧ b.is_active = true) with
    | nil =>
      have hnot : b ∉ db.businesses.filter fun b => b.id = id ∧ b.is_active = true := by
        rw [hrows]; exact List.not_mem_nil b
      exact absurd (List.mem_filter.mpr ⟨hb, by simp [hid, hact]⟩) hnot
    | cons x xs =>
      have hx : x ∈ db.businesses.filter fun b => b.id = id ∧ b.is_active = true := by
        rw [hrows]; exact List.mem_cons_self _ _
      obtain ⟨hmem, hp⟩ := List.mem_filter.mp hx
      simp only [decide_eq_true_eq] at hp
      rw [huniq x hmem hp.1]
      rfl

theorem getBusinessById_not_found_iff_witness :
    (sampleBusiness 1 "Kofi Foods" "Jollof" 5 ∈ sampleDb.businesses ∧
      (sampleBusiness 1 "Kofi Foods" "Jollof" 5).id = 1 ∧
      (sampleBusiness 1 "Kofi Foods" "Jollof" 5).is_active = true ∧
      ∀ b' ∈ sampleDb.businesses, b'.id = 1 → b' = sampleBusiness 1 "Kofi Foods" "Jollof" 5) ∧
    getBusinessById sampleDb noFault 1 = Response.json 200
      { business := aggregate sampleDb detailOwnerColumns (sampleBusiness 1 "Kofi Foods" "Jollof" 5),
        products := availableProducts sampleDb 1,
        reviews := recentReviews sampleDb 1 10 } ∧
    getBusinessById sampleDb noFault 3 = Response.error 404 "Business not found" :=
  ⟨⟨by decide, rfl, rfl, by decide⟩,
    (getBusinessById_not_found_iff sampleDb 1).2 (sampleBusiness 1 "Kofi Foods" "Jollof" 5)
      (by decide) rfl rfl (by decide),
    rfl⟩

/-! ## The router's lookup of one business -/

/-- Router `GET /:id` answers 404 exactly when no row of `businesses` has the id, active
or not, as long as the store does not fail. -/
theorem routerGetById_not_found_iff (db : Db) (id : Nat) :
    routerGetById db noFault id = Response.error 404 "Business not found"
      ↔ ∀ b ∈ db.businesses, b.id ≠ id := by
  simp only [routerGetById, runQuery, noFault]
  cases hrows : (db.businesses.filter fun b => b.id = id) with
  | nil =>
    simp only [List.map_nil, true_iff]
    intro b hb hid
    have hnot : b ∉ db.businesses.filter fun b => b.id = id := by
      rw [hrows]; exact List.not_mem_nil b
    exact hnot (List.mem_filter.mpr ⟨hb, by simp [hid]⟩)
  | cons x xs =>
    simp only [List.map_cons, reduceCtorEq, false_iff]
    intro hall
    have hx : x ∈ db.businesses.filter fun b => b.id = id := by
      rw [hrows]; exact List.mem_cons_self _ _
    obtain ⟨hmem, hp⟩ := List.mem_filter.mp hx
    simp only [decide_eq_true_eq] at hp
    exact hall x hmem hp

/-- C11 fails on the code: business 3 of the sample store is inactive, the controller's
`getBusinessById` answers 404 for it, and the router's `GET /:id` answers 200 with its
row. -/
theorem router_lookup_returns_inactive_business :
    (∃ b ∈ sampleDb.businesses, b.id = 3 ∧ b.is_active = false) ∧
    (∃ body : DetailBody, routerGetById sampleDb noFault 3 = Response.json 200 body ∧
      body.business.business.id = 3 ∧ body.business.business.is_active = false) ∧
    getBusinessById sampleDb noFault 3 = Response.error 404 "Business not found" :=
  ⟨by decide, ⟨_, rfl, rfl, rfl⟩, rfl⟩

/-! ## Running the statement of `searchBusinesses` -/

theorem searchBusinessesFilter_whereClause (q c l : Option String) :
    (searchBusinessesFilter q c l).whereClause
      = searchWhereOf (truthy q) (truthy c) (truthy l) := by
  rw [searchBusinessesFilter, addLocation_eq, addCategory_eq, addSearch_eq]
  cases truthy q <;> cases truthy c <;> cases truthy l <;> rfl

/-- The values a search request binds in its WHERE clause: those of the present
criteria, in the order term, category, location. -/
theorem searchBusinessesFilter_params (q c l : Option String) :
    (searchBusinessesFilter q c l).params =
      (if truthy q then [JSVal.str ("%" ++ q.getD "" ++ "%")] else [])
        ++ (if truthy c then [JSVal.str (c.getD "")] else [])
        ++ (if truthy l then [JSVal.str (l.getD "")] else []) := by
  simp only [searchBusinessesFilter, addSearch_eq, addLocation_eq, addCategory_eq]
  cases truthy q <;> cases truthy c <;> cases truthy l <;> rfl

theorem searchBusinessesFilter_paramCount (q c l : Option String) :
    (searchBusinessesFilter q c l).paramCount
      = (truthy q).toNat + (truthy c).toNat + (truthy l).toNat ∧
    (searchBusinessesFilter q c l).params.length
      = (truthy q).toNat + (truthy c).toNat + (truthy l).toNat := by
  simp only [searchBusinessesFilter, addSearch_eq, addLocation_eq, addCategory_eq]
  cases truthy q <;> cases truthy c <;> cases truthy l <;> exact ⟨rfl, rfl⟩

theorem parseWhere_search (q c l : Bool) :
    parseWhere (searchWhereOf q c l) = some (searchAst q c l) := by
  cases q <;> cases c <;> cases l <;> decide

theorem compileWhere_search_append (q c l : Option String) (extra : List JSVal) :
    compileWhere (searchBusinessesFilter q c l).whereClause
      ((searchBusinessesFilter q c l).params ++ extra) = some (searchConjuncts q c l) := by
  rw [searchBusinessesFilter_whereClause, searchBusinessesFilter_params, compileWhere,
    parseWhere_search]
  cases hq : truthy q <;> cases hc : truthy c <;> cases hl : truthy l <;>
    simp [searchAst, searchConjuncts, numberFrom, allSome, bindConjunct, bindAtom, textParam,
      hq, hc, hl]

/-- On a row the conjuncts of a search request decide as `matchesPattern` says, the term
taken as the search criterion. -/
theorem accepts_search (b : Business) (q c l : Option String) :
    accepts (searchConjuncts q c l) b = matchesPattern b c l q := by
  rw [accepts_eq_all]
  unfold searchConjuncts matchesPattern
  have hcat : truthy c = true → (b.category == c) = (b.category == some (c.getD "")) :=
    fun h => by rw [← truthy_some_getD h]
  have hloc : truthy l = true → (b.location == l) = (b.location == some (l.getD "")) :=
    fun h => by rw [← truthy_some_getD h]
  cases hq : truthy q <;> cases hc : truthy c <;> cases hl : truthy l <;>
    simp only [eval_eq_true, eval_search_true, eval_isActive_true, Column.value, hcat, hloc,
      hc, hl, if_true, if_false, Bool.false_eq_true, List.all_cons, List.all_nil,
      List.nil_append, List.cons_append, List.append_nil, Bool.and_true, Bool.not_true,
      Bool.not_false, Bool.true_or, Bool.false_or] <;>
    generalize b.is_active = x1 <;>
    generalize (b.category == some (c.getD "")) = x2 <;>
    generalize (b.location == some (l.getD "")) = x3 <;>
    generalize (ilikeWrapped b.name (q.getD "") || ilikeWrapped b.description (q.getD "")) = x4 <;>
    cases x1 <;> cases x2 <;> cases x3 <;> cases x4 <;> rfl

set_option maxRecDepth 20000 in
theorem placeholders_search_text (q c l : Bool) (params : List JSVal) :
    placeholders (SearchQuery.text
      { whereClause := searchWhereOf q c l,
        rankPlaceholder := q.toNat + c.toNat + l.toNat + 1,
        limitPlaceholder := q.toNat + c.toNat + l.toNat + 2,
        offsetPlaceholder := q.toNat + c.toNat + l.toNat + 3,
        params := params })
      = List.range' 1 (q.toNat + c.toNat + l.toNat + 3) := by
  simp only [SearchQuery.text]
  cases q <;> cases c <;> cases l <;> decide

set_option maxRecDepth 20000 in
theorem bindsAll_search (q c l : Bool) (params : List JSVal) :
    bindsAll (SearchQuery.text
      { whereClause := searchWhereOf q c l,
        rankPlaceholder := q.toNat + c.toNat + l.toNat + 1,
        limitPlaceholder := q.toNat + c.toNat + l.toNat + 2,
        offsetPlaceholder := q.toNat + c.toNat + l.toNat + 3,
        params := params })
      (q.toNat + c.toNat + l.toNat + 3) = true := by
  simp only [SearchQuery.text]
  cases q <;> cases c <;> cases l <;> decide

/-- The value bound to the rank placeholder, as `searchBusinesses` computes it. -/
theorem rank_value_eq (q : Option String) :
    (match q with
      | some t => if truthy (some t) then JSVal.str ("%" ++ t ++ "%") else JSVal.null
      | none => JSVal.null)
      = match searchRankParam q with
        | some p => JSVal.str p
        | none => JSVal.null := by
  cases q with
  | none => rfl
  | some t =>
    by_cases h : truthy (some t) = true
    · simp [searchRankParam, h]
    · simp [searchRankParam, h]

set_option maxRecDepth 20000 in
theorem untypedParameter_search_text (q c l : Bool) (params : List JSVal) :
    untypedParameter (SearchQuery.text
      { whereClause := searchWhereOf q c l,
        rankPlaceholder := q.toNat + c.toNat + l.toNat + 1,
        limitPlaceholder := q.toNat + c.toNat + l.toNat + 2,
        offsetPlaceholder := q.toNat + c.toNat + l.toNat + 3,
        params := params })
      = some (q.toNat + c.toNat + l.toNat + 1) := by
  simp only [SearchQuery.text]
  cases q <;> cases c <;> cases l <;> decide

/-- In the statement of every search request the first use of the rank parameter is
`$r IS NOT NULL`, which leaves it without a type. -/
theorem untypedParameter_search (req : SearchRequest) :
    untypedParameter (searchBusinessesQuery req).text
      = some ((searchBusinessesFilter req.q req.category req.location).params.length + 1) := by
  obtain ⟨hpc, hlen⟩ := searchBusinessesFilter_paramCount req.q req.category req.location
  have h := untypedParameter_search_text (truthy req.q) (truthy req.category)
    (truthy req.location) (searchBusinessesQuery req).params
  rw [← searchBusinessesFilter_whereClause, ← hlen] at h
  simp only [searchBusinessesQuery, hpc, hlen] at h ⊢
  exact h

/-- The statement of `searchBusinesses` is rejected for every request. -/
theorem runSearch_rejected (db : Db) (fault : Option DbError) (req : SearchRequest) :
    ∃ e : DbError, runSearch db fault (searchBusinessesQuery req) = Except.error e := by
  cases fault with
  | some e => exact ⟨e, rfl⟩
  | none =>
    simp only [runSearch, untypedParameter_search req]
    exact ⟨_, rfl⟩

/-- Every search request is answered with status 500. -/
theorem searchBusinesses_rejected (db : Db) (fault : Fault) (req : SearchRequest) :
    searchBusinesses db fault req = Response.error 500 "Error searching businesses" := by
  obtain ⟨e, he⟩ := runSearch_rejected db (fault 0) req
  simp only [searchBusinesses, he]

/-- C12 (the statement is rejected): in a store with the active businesses 1, whose name
contains `rice`, and 2, whose description does and whose name does not, a search for
`rice` is answered with status 500 `Error searching businesses` and returns no rows in
any order: the rank parameter `$2` is first used in `$2 IS NOT NULL`, which leaves it
without a type, and PostgreSQL rejects the statement. -/
theorem search_for_term_answers_500 :
    riceDb.businesses.map (fun b => (b.id, b.is_active, containsCI b.name "rice",
        containsCI b.description "rice"))
      = [(1, true, true, false), (2, true, false, true)] ∧
    (searchBusinessesQuery (termRequest "rice")).params
      = [JSVal.str "%rice%", JSVal.str "%rice%", JSVal.num (JSNum.fin 10),
         JSVal.num (JSNum.fin 0)] ∧
    untypedParameter (searchBusinessesQuery (termRequest "rice")).text = some 2 ∧
    searchBusinesses riceDb noFault (termRequest "rice")
      = Response.error 500 "Error searching businesses" := by
  refine ⟨by decide, ?_, untypedParameter_search (termRequest "rice"),
    searchBusinesses_rejected riceDb noFault (termRequest "rice")⟩
  simp [searchBusinessesQuery, termRequest, withDefault, computeOffset, toNumber, JSNum.sub,
    JSNum.mul, searchBusinessesFilter, addSearch_eq, addLocation_eq, addCategory_eq, truthy,
    baseFilter]

/-- C13 (the statement is rejected): `searchBusinesses` binds the rank value at `$(n+1)`,
the limit at `$(n+2)` and the offset at `$(n+3)`, `n` being the number of filter
parameters; the rank value is `%q%` when a term is present and null exactly when the
term is absent or empty, and the ranking key is then 3 for every row. But the first use
of the rank parameter is `$(n+1) IS NOT NULL`, which leaves it without a type: the
statement is rejected and every request, with a term or without, is answered with
status 500 instead of rows in any order. -/
theorem search_rank_parameter_untyped (db : Db) (fault : Fault) (req : SearchRequest) :
    ((searchBusinessesQuery req).rankPlaceholder
        = (searchBusinessesFilter req.q req.category req.location).params.length + 1 ∧
      (searchBusinessesQuery req).limitPlaceholder
        = (searchBusinessesFilter req.q req.category req.location).params.length + 2 ∧
      (searchBusinessesQuery req).offsetPlaceholder
        = (searchBusinessesFilter req.q req.category req.location).params.length + 3 ∧
      placeholders (searchBusinessesQuery req).text
        = List.range' 1
          ((searchBusinessesFilter req.q req.category req.location).params.length + 3)) ∧
    (searchBusinessesQuery req).params
      = (searchBusinessesFilter req.q req.category req.location).params
        ++ [match searchRankParam req.q with
            | some p => JSVal.str p
            | none => JSVal.null,
          withDefault (JSVal.num (JSNum.fin 10)) req.limit,
          JSVal.num (computeOffset (withDefault (JSVal.num (JSNum.fin 1)) req.page)
            (withDefault (JSVal.num (JSNum.fin 10)) req.limit))] ∧
    (searchRankParam req.q
      = if truthy req.q then some ("%" ++ req.q.getD "" ++ "%") else none) ∧
    (∀ b : Business, searchRank none b = 3) ∧
    untypedParameter (searchBusinessesQuery req).text
      = some ((searchBusinessesFilter req.q req.category req.location).params.length + 1) ∧
    searchBusinesses db fault req = Response.error 500 "Error searching businesses" := by
  obtain ⟨hpc, hlen⟩ := searchBusinessesFilter_paramCount req.q req.category req.location
  refine ⟨⟨?_, ?_, ?_, ?_⟩, ?_, rfl, fun _ => rfl, untypedParameter_search req,
    searchBusinesses_rejected db fault req⟩
  · simp only [searchBusinessesQuery, hpc, hlen]
  · simp only [searchBusinessesQuery, hpc, hlen]
  · simp only [searchBusinessesQuery, hpc, hlen]
  · have := placeholders_search_text (truthy req.q) (truthy req.category) (truthy req.location)
      (searchBusinessesQuery req).params
    rw [← searchBusinessesFilter_whereClause] at this
    simp only [searchBusinessesQuery, hpc, hlen] at this ⊢
    exact this
  · simp only [searchBusinessesQuery, rank_value_eq]

/-- With page and limit absent the window is the first ten rows. -/
theorem default_window :
    sqlLimit (withDefault (JSVal.num (JSNum.fin 10)) JSVal.undefined) = some (some 10) ∧
    sqlOffset (JSVal.num (computeOffset (withDefault (JSVal.num (JSNum.fin 1)) JSVal.undefined)
      (withDefault (JSVal.num (JSNum.fin 10)) JSVal.undefined))) = some 0 := by
  have h1 : IsNatValue (JSVal.num (JSNum.fin 1)) 1 := Or.inl rfl
  have h10 : IsNatValue (JSVal.num (JSNum.fin 10)) 10 := Or.inl rfl
  refine ⟨sqlLimit_of_isNatValue h10 (by decide), ?_⟩
  rw [show withDefault (JSVal.num (JSNum.fin 1)) JSVal.undefined = JSVal.num (JSNum.fin 1) from rfl,
    show withDefault (JSVal.num (JSNum.fin 10)) JSVal.undefined = JSVal.num (JSNum.fin 10)
      from rfl,
    computeOffset_of_isNatValue (le_refl 1) h1 h10]
  exact sqlOffset_natCast _ (by decide)

/-! ## The LIMIT/OFFSET window -/

theorem window_sublist {α : Type} (limit : Option Nat) (offset : Nat) (rows : List α) :
    (window limit offset rows).Sublist rows := by
  cases limit with
  | none => exact List.drop_sublist _ _
  | some n => exact (List.take_sublist _ _).trans (List.drop_sublist _ _)

/-! ## The router's search -/

/-- The rows of `orderByDesc` are in descending order of the key, and they are the rows
given. -/
theorem orderByDesc_sorted {α : Type} (key : α → Nat) (rows : List α) :
    (orderByDesc key rows).Pairwise (fun a b => key a ≥ key b) ∧
    (orderByDesc key rows).Perm rows := by
  haveI : IsTotal α (fun a b => key a ≥ key b) := ⟨fun a b => by
    show key a ≥ key b ∨ key b ≥ key a
    omega⟩
  haveI : IsTrans α (fun a b => key a ≥ key b) := ⟨fun a b c hab hbc => by
    show key a ≥ key c
    have h1 : key a ≥ key b := hab
    have h2 : key b ≥ key c := hbc
    omega⟩
  exact ⟨List.sorted_insertionSort (fun a b => key a ≥ key b) rows,
    List.perm_insertionSort (fun a b => key a ≥ key b) rows⟩

/-- Router `GET /search/:query` returns the rows `routerSearchAccepts` accepts, newest
first, unless the store fails. -/
theorem routerSearch_of_json (db : Db) (fault : Fault) (query : String)
    (rows : List AggregateRow) (h : routerSearch db fault query = Response.json 200 rows) :
    rows = (orderByCreatedDesc (db.businesses.filter (routerSearchAccepts query))).map
      (aggregate db []) := by
  unfold routerSearch runQuery at h
  cases hf : fault 0 with
  | some e => simp [hf] at h
  | none =>
    simp only [hf, Response.json.injEq, true_and] at h
    exact h.symm

theorem routerSearchAccepts_plain (query : String)
    (hplain : ∀ ch ∈ query.data, isLikeSpecial ch = false) (b : Business) :
    routerSearchAccepts query b
      = (containsCI b.name query || containsCI b.description query
          || containsCI b.category query) := by
  unfold routerSearchAccepts
  rw [ilikeWrapped_eq_containsCI _ _ hplain, ilikeWrapped_eq_containsCI _ _ hplain,
    ilikeWrapped_eq_containsCI _ _ hplain]

/-- C14, as the code has it by design: every business the router's `GET /search/:query`
returns has a name, a description or a category that matches the pattern `%query%`, which
for a query free of `%`, `_` and the backslash means that it contains the query without
regard to case; every active business of the store with such a match is returned, and
the rows come in descending order of creation time. -/
theorem routerSearch_rows (db : Db) (fault : Fault) (query : String)
    (rows : List AggregateRow) (h : routerSearch db fault query = Response.json 200 rows) :
    (∀ row ∈ rows, row.business ∈ db.businesses ∧
      routerSearchAccepts query row.business = true ∧
      ((∀ ch ∈ query.data, isLikeSpecial ch = false) →
        containsCI row.business.name query = true
          ∨ containsCI row.business.description query = true
          ∨ containsCI row.business.category query = true)) ∧
    (∀ b ∈ db.businesses, b.is_active = true → routerSearchAccepts query b = true →
      aggregate db [] b ∈ rows) ∧
    rows.Pairwise (fun x y => x.business.created_at ≥ y.business.created_at) := by
  have hrows := routerSearch_of_json db fault query rows h
  have hsorted := orderByDesc_sorted (fun b : Business => b.created_at)
    (db.businesses.filter (routerSearchAccepts query))
  refine ⟨?_, ?_, ?_⟩
  · intro row hrow
    rw [hrows] at hrow
    obtain ⟨b, hb, rfl⟩ := List.mem_map.mp hrow
    have hb' := List.mem_filter.mp ((hsorted.2.mem_iff).mp hb)
    refine ⟨hb'.1, hb'.2, ?_⟩
    intro hplain
    have hacc := hb'.2
    rw [routerSearchAccepts_plain query hplain] at hacc
    simpa [aggregate, or_assoc] using hacc
  · intro b hb _ hacc
    rw [hrows]
    exact List.mem_map.mpr ⟨b, (hsorted.2.mem_iff).mpr (List.mem_filter.mpr ⟨hb, hacc⟩), rfl⟩
  · rw [hrows, List.pairwise_map]
    exact hsorted.1

theorem routerSearch_rows_witness :
    routerSearch riceDb noFault "rice" = Response.json 200
      ((orderByCreatedDesc (riceDb.businesses.filter (routerSearchAccepts "rice"))).map
        (aggregate riceDb [])) ∧
    ((orderByCreatedDesc (riceDb.businesses.filter (routerSearchAccepts "rice"))).map
        (aggregate riceDb [])).Pairwise
      (fun x y => x.business.created_at ≥ y.business.created_at) :=
  ⟨rfl, (routerSearch_rows riceDb noFault "rice" _ rfl).2.2⟩

/-- C14 as stated fails: for the query `food` the router's search returns business 2 of
the sample store, which has `food` only in its category, and the inactive business 3;
and for the query `rice` it returns the business that has `rice` only in its description
before the one that has it in its name, because it is newer. -/
theorem routerSearch_unranked_and_unfiltered :
    (∃ rows : List AggregateRow, routerSearch sampleDb noFault "food" = Response.json 200 rows ∧
      rows.map (fun row => (row.business.id, row.business.is_active,
          containsCI row.business.name "food", containsCI row.business.description "food"))
        = [(2, true, false, false), (1, true, true, false), (3, false, false, false)]) ∧
    (∃ rows : List AggregateRow, routerSearch riceDb noFault "rice" = Response.json 200 rows ∧
      rows.map (fun row => (row.business.id,
          containsCI row.business.name "rice", containsCI row.business.description "rice"))
        = [(2, false, true), (1, true, false)]) :=
  ⟨⟨_, rfl, by decide⟩, ⟨_, rfl, by decide⟩⟩

/-! ## The analytics report -/

/-- The analytics handler answers with the results of its four statements when none of
them fails, and with the one failure response otherwise. -/
theorem routerAnalytics_eq (db : Db) (fault : Fault) (now id : Nat) :
    routerAnalytics db fault now id =
      if fault 0 = none ∧ fault 1 = none ∧ fault 2 = none ∧ fault 3 = none then
        Response.json 200
          { totals := orderTotals db id, ordersByStatus := statusBreakdown db id,
            topProducts := topProducts db id, ordersPerDay := dailyOrders db now id }
      else Response.error 500 "Error fetching analytics" := by
  unfold routerAnalytics runQuery
  cases h0 : fault 0 <;> cases h1 : fault 1 <;> cases h2 : fault 2 <;> cases h3 : fault 3 <;>
    simp

theorem routerAnalytics_of_json (db : Db) (fault : Fault) (now id : Nat) (body : AnalyticsBody)
    (h : routerAnalytics db fault now id = Response.json 200 body) :
    body = { totals := orderTotals db id, ordersByStatus := statusBreakdown db id,
             topProducts := topProducts db id, ordersPerDay := dailyOrders db now id } := by
  rw [routerAnalytics_eq] at h
  split_ifs at h
  simp only [Response.json.injEq, true_and] at h
  exact h.symm

/-- C15: the totals of the analytics report are the number of the business's orders, the
sum of their amounts and their mean, the sum and the mean being 0 when the business has
no orders; for the amounts 10, 20, 30 they are 3, 60 and 20. -/
theorem analytics_totals (db : Db) (fault : Fault) (now id : Nat) :
    ((orderTotals db id).total_orders = (db.orders.filter fun o => o.business_id = id).length ∧
      (orderTotals db id).total_revenue
        = ((db.orders.filter fun o => o.business_id = id).map fun o => o.total_amount).sum ∧
      (orderTotals db id).avg_order_value
        = if (db.orders.filter fun o => o.business_id = id) = [] then 0
          else ((db.orders.filter fun o => o.business_id = id).map fun o => o.total_amount).sum
            / (db.orders.filter fun o => o.business_id = id).length) ∧
    ((db.orders.filter fun o => o.business_id = id) = [] →
      orderTotals db id = { total_orders := 0, total_revenue := 0, avg_order_value := 0 }) ∧
    (((db.orders.filter fun o => o.business_id = id).map fun o => o.total_amount) = [10, 20, 30] →
      orderTotals db id = { total_orders := 3, total_revenue := 60, avg_order_value := 20 }) ∧
    (∀ body : AnalyticsBody, routerAnalytics db fault now id = Response.json 200 body →
      body.totals = orderTotals db id) := by
  refine ⟨⟨?_, ?_, ?_⟩, ?_, ?_, ?_⟩
  · simp [orderTotals]
  · simp only [orderTotals, sqlSum]
    cases (db.orders.filter fun o => o.business_id = id) <;> simp
  · simp only [orderTotals, sqlAvg]
    cases (db.orders.filter fun o => o.business_id = id) <;> simp
  · intro h
    simp [orderTotals, h, sqlSum, sqlAvg]
  · intro h
    simp only [orderTotals, h, sqlSum, sqlAvg]
    norm_num
  · intro body h
    rw [routerAnalytics_of_json db fault now id body h]

theorem analytics_totals_witness :
    ((ordersDb.orders.filter fun o => o.business_id = 1).map fun o => o.total_amount)
      = [10, 20, 30] ∧
    orderTotals ordersDb 1 = { total_orders := 3, total_revenue := 60, avg_order_value := 20 } ∧
    (ordersDb.orders.filter fun o => o.business_id = 2) = [] ∧
    orderTotals ordersDb 2 = { total_orders := 0, total_revenue := 0, avg_order_value := 0 } :=
  ⟨by decide, (analytics_totals ordersDb noFault 0 1).2.2.1 (by decide), by decide,
    (analytics_totals ordersDb noFault 0 2).2.1 (by decide)⟩

theorem productSales_spec (db : Db) (id : Nat) (g : ProductSales) (hg : g ∈ productSales db id) :
    ∃ p ∈ db.products, p.business_id = id ∧ g.id = p.id ∧ g.name = p.name ∧
      (db.order_items.filter fun oi => oi.product_id = p.id) ≠ [] ∧
      g.total_sold
        = ((db.order_items.filter fun oi => oi.product_id = p.id).map fun oi => oi.quantity).sum := by
  unfold productSales at hg
  obtain ⟨p, hp, hsome⟩ := List.mem_filterMap.mp hg
  obtain ⟨hpmem, hpid⟩ := List.mem_filter.mp hp
  simp only [decide_eq_true_eq] at hpid
  by_cases hitems : (db.order_items.filter fun oi => oi.product_id = p.id).isEmpty = true
  · simp [hitems] at hsome
  · simp only [hitems, Bool.false_eq_true, if_false, Option.some.injEq] at hsome
    refine ⟨p, hpmem, hpid, ?_, ?_, ?_, ?_⟩
    · rw [← hsome]
    · rw [← hsome]
    · intro h0; rw [h0] at hitems; exact hitems rfl
    · rw [← hsome]

theorem sorted_take_ge_rest {α : Type} (key : α → Int) (rows : List α) (n : Nat)
    (g : α) (hg : g ∈ rows.insertionSort fun a b => key a ≥ key b)
    (hnot : g ∉ (rows.insertionSort fun a b => key a ≥ key b).take n) :
    ∀ row ∈ (rows.insertionSort fun a b => key a ≥ key b).take n, key row ≥ key g := by
  haveI : IsTotal α (fun a b => key a ≥ key b) := ⟨fun a b => by
    show key a ≥ key b ∨ key b ≥ key a
    omega⟩
  haveI : IsTrans α (fun a b => key a ≥ key b) := ⟨fun a b c hab hbc => by
    show key a ≥ key c
    have h1 : key a ≥ key b := hab
    have h2 : key b ≥ key c := hbc
    omega⟩
  have hsorted : (rows.insertionSort fun a b => key a ≥ key b).Pairwise
      (fun a b => key a ≥ key b) := List.sorted_insertionSort _ rows
  rw [← List.take_append_drop n (rows.insertionSort fun a b => key a ≥ key b)] at hsorted hg
  rw [List.pairwise_append] at hsorted
  rcases List.mem_append.mp hg with h | h
  · exact absurd h hnot
  · intro row hrow
    exact hsorted.2.2 row hrow g h

/-- The `topProducts` list of the analytics report has at most 5 entries, each a product
of the business that has order items, with the sum of their quantities; it is in
descending order of that sum, and no product left out has a greater sum than one that is
in the list. This holds for every order of the groups with equal sums. -/
theorem top_products_by_quantity (db : Db) (fault : Fault) (now id : Nat) :
    (topProducts db id).length ≤ 5 ∧
    (topProducts db id).Pairwise (fun a b => a.total_sold ≥ b.total_sold) ∧
    (∀ row ∈ topProducts db id,
      ∃ p ∈ db.products, p.business_id = id ∧ row.id = p.id ∧ row.name = p.name ∧
        (db.order_items.filter fun oi => oi.product_id = p.id) ≠ [] ∧
        row.total_sold
          = ((db.order_items.filter fun oi => oi.product_id = p.id).map
              fun oi => oi.quantity).sum) ∧
    (∀ g ∈ productSales db id, g ∉ topProducts db id →
      ∀ row ∈ topProducts db id, row.total_sold ≥ g.total_sold) ∧
    (∀ body : AnalyticsBody, routerAnalytics db fault now id = Response.json 200 body →
      body.topProducts = topProducts db id) := by
  haveI : IsTotal ProductSales (fun a b => a.total_sold ≥ b.total_sold) := ⟨fun a b => by
    show a.total_sold ≥ b.total_sold ∨ b.total_sold ≥ a.total_sold
    omega⟩
  haveI : IsTrans ProductSales (fun a b => a.total_sold ≥ b.total_sold) :=
    ⟨fun a b c hab hbc => by
      show a.total_sold ≥ c.total_sold
      have h1 : a.total_sold ≥ b.total_sold := hab
      have h2 : b.total_sold ≥ c.total_sold := hbc
      omega⟩
  have hperm := List.perm_insertionSort (fun a b : ProductSales => a.total_sold ≥ b.total_sold)
    (productSales db id)
  refine ⟨?_, ?_, ?_, ?_, ?_⟩
  · simp only [topProducts, List.length_take]; omega
  · exact List.Pairwise.sublist (List.take_sublist _ _)
      (List.sorted_insertionSort _ (productSales db id))
  · intro row hrow
    exact productSales_spec db id row ((hperm.mem_iff).mp (List.mem_of_mem_take hrow))
  · intro g hg hnot
    exact sorted_take_ge_rest (fun r : ProductSales => r.total_sold) (productSales db id) 5 g
      ((hperm.mem_iff).mpr hg) hnot
  · intro body h
    rw [routerAnalytics_of_json db fault now id body h]

theorem top_products_by_quantity_witness :
    ({ id := 1, name := some "Jollof bowl", total_sold := 3 } : ProductSales)
      ∈ topProducts ordersDb 1 ∧
    ∃ p ∈ ordersDb.products, p.business_id = 1 ∧
      ({ id := 1, name := some "Jollof bowl", total_sold := 3 } : ProductSales).id = p.id ∧
      ({ id := 1, name := some "Jollof bowl", total_sold := 3 } : ProductSales).name = p.name ∧
      (ordersDb.order_items.filter fun oi => oi.product_id = p.id) ≠ [] ∧
      ({ id := 1, name := some "Jollof bowl", total_sold := 3 } : ProductSales).total_sold
        = ((ordersDb.order_items.filter fun oi => oi.product_id = p.id).map
            fun oi => oi.quantity).sum :=
  ⟨by decide,
    (top_products_by_quantity ordersDb noFault 0 1).2.2.1
      { id := 1, name := some "Jollof bowl", total_sold := 3 } (by decide)⟩

/-! ## Daily order counts -/

theorem dailyOrders_days (db : Db) (now id : Nat) :
    (dailyOrders db now id).map (fun row => row.day)
      = ((recentOrders db now id).map fun o => dayOf o.created_at).dedup.insertionSort
          fun a b => a ≤ b := by
  unfold dailyOrders
  rw [List.map_map]
  exact List.map_id _

theorem mem_recentOrders (db : Db) (now id : Nat) (o : Order) :
    o ∈ recentOrders db now id
      ↔ o ∈ db.orders ∧ o.business_id = id ∧ now - 30 * secondsPerDay ≤ o.created_at := by
  simp [recentOrders, List.mem_filter]

/-- C17: at a request time that no order of the store lies after, the `ordersPerDay` list
of the analytics report is in strictly ascending order of the day, has an entry for a day
exactly when the business has an order of that day created in the 30 days up to the
request time, counts the orders of that day in the window, at least 1, and has no day
before the day 30 days back. -/
theorem daily_orders_in_window (db : Db) (fault : Fault) (now id : Nat)
    (hpast : ∀ o ∈ db.orders, o.created_at ≤ now) :
    ((dailyOrders db now id).map fun row => row.day).Pairwise (fun a b => a < b) ∧
    (∀ d : Nat, d ∈ (dailyOrders db now id).map (fun row => row.day)
      ↔ ∃ o ∈ db.orders, o.business_id = id ∧ now - 30 * secondsPerDay ≤ o.created_at ∧
          o.created_at ≤ now ∧ dayOf o.created_at = d) ∧
    (∀ row ∈ dailyOrders db now id,
      1 ≤ row.orders ∧
      row.orders = (db.orders.filter fun o =>
        o.business_id = id ∧ now - 30 * secondsPerDay ≤ o.created_at ∧ o.created_at ≤ now
          ∧ dayOf o.created_at = row.day).length) ∧
    (∀ row ∈ dailyOrders db now id, dayOf (now - 30 * secondsPerDay) ≤ row.day) ∧
    (∀ body : AnalyticsBody, routerAnalytics db fault now id = Response.json 200 body →
      body.ordersPerDay = dailyOrders db now id) := by
  have hperm := List.perm_insertionSort (fun a b : Nat => a ≤ b)
    ((recentOrders db now id).map fun o => dayOf o.created_at).dedup
  have hmem : ∀ d : Nat, d ∈ (dailyOrders db now id).map (fun row => row.day)
      ↔ ∃ o ∈ recentOrders db now id, dayOf o.created_at = d := by
    intro d
    rw [dailyOrders_days, hperm.mem_iff, List.mem_dedup, List.mem_map]
  have hrow : ∀ row ∈ dailyOrders db now id,
      row.day ∈ (dailyOrders db now id).map (fun row => row.day) ∧
      row.orders
        = ((recentOrders db now id).filter fun o => dayOf o.created_at = row.day).length := by
    intro row h
    refine ⟨List.mem_map_of_mem _ h, ?_⟩
    unfold dailyOrders at h
    obtain ⟨d, _, rfl⟩ := List.mem_map.mp h
    rfl
  refine ⟨?_, ?_, ?_, ?_, ?_⟩
  · rw [dailyOrders_days]
    have hsorted : (((recentOrders db now id).map fun o => dayOf o.created_at).dedup.insertionSort
        fun a b => a ≤ b).Sorted (· ≤ ·) := List.sorted_insertionSort _ _
    exact hsorted.lt_of_le (hperm.nodup_iff.mpr (List.nodup_dedup _))
  · intro d
    rw [hmem]
    constructor
    · rintro ⟨o, ho, hd⟩
      obtain ⟨h1, h2, h3⟩ := (mem_recentOrders db now id o).mp ho
      exact ⟨o, h1, h2, h3, hpast o h1, hd⟩
    · rintro ⟨o, h1, h2, h3, _, hd⟩
      exact ⟨o, (mem_recentOrders db now id o).mpr ⟨h1, h2, h3⟩, hd⟩
  · intro row h
    obtain ⟨hday, hcount⟩ := hrow row h
    obtain ⟨o, ho, hd⟩ := (hmem row.day).mp hday
    constructor
    · rw [hcount]
      exact List.length_pos_of_mem (List.mem_filter.mpr ⟨ho, by simp [hd]⟩)
    · rw [hcount, recentOrders, List.filter_filter]
      congr 1
      apply List.filter_congr
      intro x hx
      have := hpast x hx
      simp only [Bool.decide_and, Bool.and_eq_true, decide_eq_true_eq, ge_iff_le]
      by_cases hx1 : dayOf x.created_at = row.day <;> by_cases hx2 : x.business_id = id <;>
        by_cases hx3 : now - 30 * secondsPerDay ≤ x.created_at <;> simp [hx1, hx2, hx3, this]
  · intro row h
    obtain ⟨o, ho, hd⟩ := (hmem row.day).mp (hrow row h).1
    obtain ⟨_, _, h3⟩ := (mem_recentOrders db now id o).mp ho
    rw [← hd]
    exact Nat.div_le_div_right h3
  · intro body h
    rw [routerAnalytics_of_json db fault now id body h]

theorem daily_orders_in_window_witness :
    (∀ o ∈ ordersDb.orders, o.created_at ≤ 131 * 86400) ∧
    dailyOrders ordersDb (131 * 86400) 1 = [{ day := 101, orders := 1 }] ∧
    dailyOrders ordersDb (110 * 86400) 1
      = [{ day := 100, orders := 2 }, { day := 101, orders := 1 }] ∧
    ((dailyOrders ordersDb (131 * 86400) 1).map fun row => row.day).Pairwise
      (fun a b => a < b) :=
  ⟨by decide, by decide, by decide,
    (daily_orders_in_window ordersDb noFault (131 * 86400) 1 (by decide)).1⟩

/-! ## Failures of the store -/

/-- C18: if one of the four statements of the analytics handler fails the response is
500 `Error fetching analytics` and nothing else; a report is returned if and only if all
four succeed, and then each of its keys holds the result of its own statement. -/
theorem analytics_all_or_nothing (db : Db) (fault : Fault) (now id : Nat) :
    ((∃ k, k < 4 ∧ fault k ≠ none) →
      routerAnalytics db fault now id = Response.error 500 "Error fetching analytics") ∧
    ((∃ body : AnalyticsBody, routerAnalytics db fault now id = Response.json 200 body)
      ↔ ∀ k, k < 4 → fault k = none) ∧
    (∀ body : AnalyticsBody, routerAnalytics db fault now id = Response.json 200 body →
      body.totals = orderTotals db id ∧ body.ordersByStatus = statusBreakdown db id ∧
      body.topProducts = topProducts db id ∧ body.ordersPerDay = dailyOrders db now id) := by
  have hall : (fault 0 = none ∧ fault 1 = none ∧ fault 2 = none ∧ fault 3 = none)
      ↔ ∀ k, k < 4 → fault k = none := by
    constructor
    · rintro ⟨h0, h1, h2, h3⟩ k hk
      interval_cases k <;> assumption
    · intro h
      exact ⟨h 0 (by omega), h 1 (by omega), h 2 (by omega), h 3 (by omega)⟩
  refine ⟨?_, ?_, ?_⟩
  · rintro ⟨k, hk, hfail⟩
    rw [routerAnalytics_eq, if_neg]
    intro h
    exact hfail (hall.mp h k hk)
  · rw [routerAnalytics_eq, ← hall]
    constructor
    · rintro ⟨body, h⟩
      by_contra hnot
      rw [if_neg hnot] at h
      cases h
    · intro h
      rw [if_pos h]
      exact ⟨_, rfl⟩
  · intro body h
    rw [routerAnalytics_of_json db fault now id body h]
    exact ⟨rfl, rfl, rfl, rfl⟩

theorem analytics_all_or_nothing_witness :
    (∃ k, k < 4 ∧ (fun k => if k = 2 then some (DbError.mk "connection lost") else none) k
      ≠ none) ∧
    routerAnalytics ordersDb
        (fun k => if k = 2 then some (DbError.mk "connection lost") else none) 0 1
      = Response.error 500 "Error fetching analytics" :=
  ⟨⟨2, by decide, by decide⟩,
    (analytics_all_or_nothing ordersDb
      (fun k => if k = 2 then some (DbError.mk "connection lost") else none) 0 1).1
      ⟨2, by decide, by decide⟩⟩

theorem getAllBusinesses_error (db : Db) (fault : Fault) (req : ListRequest) (st : Nat)
    (m : String) (h : getAllBusinesses db fault req = Response.error st m) :
    st = 500 ∧ m = "Error fetching businesses" := by
  simp only [getAllBusinesses] at h
  cases hc : runCount db (fault 0) (getAllBusinessesQueries req).1 with
  | error e =>
    simp only [hc, Response.error.injEq] at h
    exact ⟨h.1.symm, h.2.symm⟩
  | ok n =>
    cases hr : runListing db (fault 1) (getAllBusinessesQueries req).2 with
    | error e =>
      simp only [hc, hr, Response.error.injEq] at h
      exact ⟨h.1.symm, h.2.symm⟩
    | ok rows => simp [hc, hr] at h

theorem getAllBusinesses_fault (db : Db) (fault : Fault) (req : ListRequest)
    (h : fault 0 ≠ none ∨ fault 1 ≠ none) :
    getAllBusinesses db fault req = Response.error 500 "Error fetching businesses" := by
  simp only [getAllBusinesses]
  cases hc : runCount db (fault 0) (getAllBusinessesQueries req).1 with
  | error e => rfl
  | ok n =>
    cases hr : runListing db (fault 1) (getAllBusinessesQueries req).2 with
    | error e => rfl
    | ok rows =>
      exfalso
      rcases h with h | h
      · cases hf : fault 0 with
        | none => exact h hf
        | some e => simp [runCount, hf] at hc
      · cases hf : fault 1 with
        | none => exact h hf
        | some e => simp [runListing, hf] at hr

theorem getBusinessById_error (db : Db) (fault : Fault) (id : Nat) (st : Nat) (m : String)
    (h : getBusinessById db fault id = Response.error st m) :
    (st = 500 ∧ m = "Error fetching business") ∨ (st = 404 ∧ m = "Business not found") := by
  unfold getBusinessById runQuery at h
  generalize ((db.businesses.filter fun b => b.id = id ∧ b.is_active = true).map
    (aggregate db detailOwnerColumns)) = rows at h
  cases h0 : fault 0 <;> cases h1 : fault 1 <;> cases h2 : fault 2 <;> cases rows <;>
    simp [h0, h1, h2] at h <;>
    first
      | exact Or.inl ⟨h.1.symm, h.2.symm⟩
      | exact Or.inr ⟨h.1.symm, h.2.symm⟩

theorem getBusinessById_fault (db : Db) (fault : Fault) (id : Nat) :
    (fault 0 ≠ none →
      getBusinessById db fault id = Response.error 500 "Error fetching business") ∧
    ((fault 1 ≠ none ∨ fault 2 ≠ none) →
      (∃ b ∈ db.businesses, b.id = id ∧ b.is_active = true) → fault 0 = none →
      getBusinessById db fault id = Response.error 500 "Error fetching business") := by
  constructor
  · intro h
    unfold getBusinessById runQuery
    cases h0 : fault 0 with
    | none => exact absurd h0 h
    | some e => rfl
  · rintro h ⟨b, hb, hid, hact⟩ h0
    unfold getBusinessById runQuery
    have hmem : b ∈ db.businesses.filter fun b => b.id = id ∧ b.is_active = true :=
      List.mem_filter.mpr ⟨hb, by simp [hid, hact]⟩
    cases hrows : (db.businesses.filter fun b => b.id = id ∧ b.is_active = true) with
    | nil => rw [hrows] at hmem; cases hmem
    | cons x xs =>
      cases h1 : fault 1 <;> cases h2 : fault 2 <;> simp [h0, h1, h2] at h ⊢

theorem routerGetById_error (db : Db) (fault : Fault) (id : Nat) (st : Nat) (m : String)
    (h : routerGetById db fault id = Response.error st m) :
    (st = 500 ∧ m = "Error fetching business") ∨ (st = 404 ∧ m = "Business not found") := by
  unfold routerGetById runQuery at h
  generalize ((db.businesses.filter fun b => b.id = id).map (aggregate db [])) = rows at h
  cases h0 : fault 0 <;> cases h1 : fault 1 <;> cases h2 : fault 2 <;> cases rows <;>
    simp [h0, h1, h2] at h <;>
    first
      | exact Or.inl ⟨h.1.symm, h.2.symm⟩
      | exact Or.inr ⟨h.1.symm, h.2.symm⟩

theorem searchBusinesses_error (db : Db) (fault : Fault) (req : SearchRequest) (st : Nat)
    (m : String) (h : searchBusinesses db fault req = Response.error st m) :
    st = 500 ∧ m = "Error searching businesses" := by
  unfold searchBusinesses at h
  cases hr : runSearch db (fault 0) (searchBusinessesQuery req) with
  | error e =>
    simp only [hr, Response.error.injEq] at h
    exact ⟨h.1.symm, h.2.symm⟩
  | ok rows => simp [hr] at h

theorem first_query_fault (db : Db) (fault : Fault) (e : DbError) (h : fault 0 = some e)
    (req : ListRequest) (sreq : SearchRequest) (c l s : Option String) (query : String)
    (now id : Nat) :
    getAllBusinesses db fault req = Response.error 500 "Error fetching businesses" ∧
    getBusinessById db fault id = Response.error 500 "Error fetching business" ∧
    searchBusinesses db fault sreq = Response.error 500 "Error searching businesses" ∧
    routerGetRoot db fault c l s = Response.error 500 "Error fetching businesses" ∧
    routerGetById db fault id = Response.error 500 "Error fetching business" ∧
    routerSearch db fault query = Response.error 500 "Error searching businesses" ∧
    routerAnalytics db fault now id = Response.error 500 "Error fetching analytics" := by
  have hne : fault 0 ≠ none := by rw [h]; exact Option.some_ne_none e
  refine ⟨getAllBusinesses_fault db fault req (Or.inl hne),
    (getBusinessById_fault db fault id).1 hne, ?_, ?_, ?_, ?_, ?_⟩
  · simp [searchBusinesses, runSearch, h]
  · rw [routerGetRoot_eq, h]
  · simp [routerGetById, runQuery, h]
  · simp [routerSearch, runQuery, h]
  · rw [routerAnalytics_eq, if_neg]
    rintro ⟨h0, _⟩
    exact hne h0

theorem routerGetById_fault (db : Db) (fault : Fault) (id : Nat)
    (h : fault 1 ≠ none ∨ fault 2 ≠ none) (hb : ∃ b ∈ db.businesses, b.id = id)
    (h0 : fault 0 = none) :
    routerGetById db fault id = Response.error 500 "Error fetching business" := by
  obtain ⟨b, hb, hid⟩ := hb
  unfold routerGetById runQuery
  have hmem : b ∈ db.businesses.filter fun b => b.id = id :=
    List.mem_filter.mpr ⟨hb, by simp [hid]⟩
  cases hrows : (db.businesses.filter fun b => b.id = id) with
  | nil => rw [hrows] at hmem; cases hmem
  | cons x xs =>
    cases h1 : fault 1 <;> cases h2 : fault 2 <;> simp [h0, h1, h2] at h ⊢

theorem router_reads_error (db : Db) (fault : Fault) (c l s : Option String) (query : String)
    (now id : Nat) (st : Nat) (m : String) :
    (routerGetRoot db fault c l s = Response.error st m →
      st = 500 ∧ m = "Error fetching businesses") ∧
    (routerSearch db fault query = Response.error st m →
      st = 500 ∧ m = "Error searching businesses") ∧
    (routerAnalytics db fault now id = Response.error st m →
      st = 500 ∧ m = "Error fetching analytics") := by
  refine ⟨?_, ?_, ?_⟩
  · intro h
    rw [routerGetRoot_eq] at h
    cases h0 : fault 0 <;> simp [h0] at h
    exact ⟨h.1.symm, h.2.symm⟩
  · intro h
    unfold routerSearch runQuery at h
    cases h0 : fault 0 <;> simp [h0] at h
    exact ⟨h.1.symm, h.2.symm⟩
  · intro h
    rw [routerAnalytics_eq] at h
    split_ifs at h
    simp only [Response.error.injEq] at h
    exact ⟨h.1.symm, h.2.symm⟩

/-- A listing request with default paging that matches no row is answered with
status 200 and an empty list. -/
theorem empty_listing_ok (db : Db) (req : ListRequest)
    (hnone : ∀ b ∈ db.businesses, matchesPattern b req.category req.location req.search = false)
    (hpage : req.page = JSVal.undefined) (hlimit : req.limit = JSVal.undefined) :
    (∃ body : ListBody, getAllBusinesses db noFault req = Response.json 200 body ∧
      body.businesses = []) ∧
    routerGetRoot db noFault req.category req.location req.search = Response.json 200 [] := by
  have hfilter : (db.businesses.filter fun b =>
      matchesPattern b req.category req.location req.search) = [] :=
    List.filter_eq_nil_iff.mpr fun b hb => by simp [hnone b hb]
  constructor
  · refine ⟨_, getAllBusinesses_ok db req (some 10) 0 ?_ ?_, ?_⟩
    · rw [hlimit]; exact default_window.1
    · rw [hpage, hlimit]; exact default_window.2
    · simp only [hfilter]
      rfl
  · rw [routerGetRoot_eq, hfilter]
    rfl

/-- C19: when a statement of a read handler fails, the response is status 500 with the
handler's one message, whatever the error is; every failure response of these handlers
is that one or, for the lookups, 404 `Business not found`, which differs from it; and a
listing that matches no row is answered with status 200 and an empty list. -/
theorem store_failures_are_generic (db : Db) (fault : Fault) (req : ListRequest)
    (sreq : SearchRequest) (c l s : Option String) (query : String) (now id : Nat) :
    (∀ e : DbError, fault 0 = some e →
      getAllBusinesses db fault req = Response.error 500 "Error fetching businesses" ∧
      getBusinessById db fault id = Response.error 500 "Error fetching business" ∧
      searchBusinesses db fault sreq = Response.error 500 "Error searching businesses" ∧
      routerGetRoot db fault c l s = Response.error 500 "Error fetching businesses" ∧
      routerGetById db fault id = Response.error 500 "Error fetching business" ∧
      routerSearch db fault query = Response.error 500 "Error searching businesses" ∧
      routerAnalytics db fault now id = Response.error 500 "Error fetching analytics") ∧
    (∀ e : DbError, fault 1 = some e →
      getAllBusinesses db fault req = Response.error 500 "Error fetching businesses") ∧
    (∀ e : DbError, fault 0 = none → (fault 1 = some e ∨ fault 2 = some e) →
      ((∃ b ∈ db.businesses, b.id = id ∧ b.is_active = true) →
        getBusinessById db fault id = Response.error 500 "Error fetching business") ∧
      ((∃ b ∈ db.businesses, b.id = id) →
        routerGetById db fault id = Response.error 500 "Error fetching business")) ∧
    (∀ e : DbError, (fault 1 = some e ∨ fault 2 = some e ∨ fault 3 = some e) →
      routerAnalytics db fault now id = Response.error 500 "Error fetching analytics") ∧
    (∀ (st : Nat) (m : String),
      (getAllBusinesses db fault req = Response.error st m →
        st = 500 ∧ m = "Error fetching businesses") ∧
      (searchBusinesses db fault sreq = Response.error st m →
        st = 500 ∧ m = "Error searching businesses") ∧
      (routerGetRoot db fault c l s = Response.error st m →
        st = 500 ∧ m = "Error fetching businesses") ∧
      (routerSearch db fault query = Response.error st m →
        st = 500 ∧ m = "Error searching businesses") ∧
      (routerAnalytics db fault now id = Response.error st m →
        st = 500 ∧ m = "Error fetching analytics") ∧
      (getBusinessById db fault id = Response.error st m →
        (st = 500 ∧ m = "Error fetching business") ∨ (st = 404 ∧ m = "Business not found")) ∧
      (routerGetById db fault id = Response.error st m →
        (st = 500 ∧ m = "Error fetching business") ∨ (st = 404 ∧ m = "Business not found"))) ∧
    ((∀ b ∈ db.businesses, matchesPattern b req.category req.location req.search = false) →
      req.page = JSVal.undefined → req.limit = JSVal.undefined →
      (∃ body : ListBody, getAllBusinesses db noFault req = Response.json 200 body ∧
        body.businesses = []) ∧
      routerGetRoot db noFault req.category req.location req.search = Response.json 200 []) := by
  refine ⟨?_, ?_, ?_, ?_, ?_, ?_⟩
  · intro e h
    exact first_query_fault db fault e h req sreq c l s query now id
  · intro e h
    exact getAllBusinesses_fault db fault req (Or.inr (by rw [h]; exact Option.some_ne_none e))
  · intro e h0 h
    have hne : fault 1 ≠ none ∨ fault 2 ≠ none := by
      rcases h with h | h
      · exact Or.inl (by rw [h]; exact Option.some_ne_none e)
      · exact Or.inr (by rw [h]; exact Option.some_ne_none e)
    exact ⟨fun hb => (getBusinessById_fault db fault id).2 hne hb h0,
      fun hb => routerGetById_fault db fault id hne hb h0⟩
  · intro e h
    rw [routerAnalytics_eq, if_neg]
    rintro ⟨_, h1, h2, h3⟩
    rcases h with h | h | h
    · rw [h1] at h; cases h
    · rw [h2] at h; cases h
    · rw [h3] at h; cases h
  · intro st m
    obtain ⟨hr1, hr2, hr3⟩ := router_reads_error db fault c l s query now id st m
    exact ⟨getAllBusinesses_error db fault req st m, searchBusinesses_error db fault sreq st m,
      hr1, hr2, hr3, getBusinessById_error db fault id st m, routerGetById_error db fault id st m⟩
  · intro hnone hpage hlimit
    exact empty_listing_ok db req hnone hpage hlimit

theorem store_failures_are_generic_witness :
    (fun k => if k = 0 then some (DbError.mk "relation businesses does not exist") else none) 0
      = some (DbError.mk "relation businesses does not exist") ∧
    getAllBusinesses sampleDb
        (fun k => if k = 0 then some (DbError.mk "relation businesses does not exist") else none)
        (pageRequest JSVal.undefined JSVal.undefined)
      = Response.error 500 "Error fetching businesses" ∧
    getBusinessById sampleDb
        (fun k => if k = 0 then some (DbError.mk "relation businesses does not exist") else none)
        1
      = Response.error 500 "Error fetching business" :=
  ⟨rfl,
    ((store_failures_are_generic sampleDb
      (fun k => if k = 0 then some (DbError.mk "relation businesses does not exist") else none)
      (pageRequest JSVal.undefined JSVal.undefined) (termRequest "rice") none none none "rice"
      0 1).1 _ rfl).1,
    ((store_failures_are_generic sampleDb
      (fun k => if k = 0 then some (DbError.mk "relation businesses does not exist") else none)
      (pageRequest JSVal.undefined JSVal.undefined) (termRequest "rice") none none none "rice"
      0 1).1 _ rfl).2.1⟩

/-! ## Deleting a business -/

theorem getBusinessById_of_all_inactive (db : Db) (id : Nat)
    (h : ∀ b ∈ db.businesses, b.id = id → b.is_active = false) :
    getBusinessById db noFault id = Response.error 404 "Business not found" := by
  have hfilter : (db.businesses.filter fun b => b.id = id ∧ b.is_active = true) = [] := by
    apply List.filter_eq_nil_iff.mpr
    intro b hb
    simp only [decide_eq_true_eq, not_and, Bool.not_eq_true]
    exact h b hb
  unfold getBusinessById runQuery
  rw [hfilter]
  rfl

/-- The controller's `deleteBusiness` keeps every row: on success the rows with the id
have the active flag cleared and `updated_at` set, nothing else changes, and a lookup of
the id answers 404 afterwards. -/
theorem deleteBusiness_soft (db : Db) (now id : Nat)
    (h : ∃ b ∈ db.businesses, b.id = id ∧ b.is_active = true) :
    (deleteBusiness db noFault now id).1 = Response.json 200 "Business deleted successfully" ∧
    (deleteBusiness db noFault now id).2.businesses
      = db.businesses.map (fun b =>
          if b.id = id then { b with is_active := false, updated_at := now } else b) ∧
    (deleteBusiness db noFault now id).2.products = db.products ∧
    (deleteBusiness db noFault now id).2.reviews = db.reviews ∧
    getBusinessById (deleteBusiness db noFault now id).2 noFault id
      = Response.error 404 "Business not found" := by
  obtain ⟨b, hb, hid, hact⟩ := h
  have hmem : b ∈ db.businesses.filter fun b => b.id = id ∧ b.is_active = true :=
    List.mem_filter.mpr ⟨hb, by simp [hid, hact]⟩
  have hdel : deleteBusiness db noFault now id
      = (Response.json 200 "Business deleted successfully", softDelete db now id) := by
    unfold deleteBusiness runQuery
    cases hrows : (db.businesses.filter fun b => b.id = id ∧ b.is_active = true) with
    | nil => rw [hrows] at hmem; cases hmem
    | cons x xs => rfl
  rw [hdel]
  refine ⟨rfl, rfl, rfl, rfl, ?_⟩
  apply getBusinessById_of_all_inactive
  intro b' hb' hid'
  simp only [softDelete, List.mem_map] at hb'
  obtain ⟨b0, _, rfl⟩ := hb'
  by_cases h0 : b0.id = id
  · simp [h0]
  · simp only [h0, if_false] at hid'

/-- C20 fails on the code: the router's `DELETE /:id` answers `Business deleted
successfully` for business 1 of the sample store and the store has no row with id 1
afterwards, while the controller's `deleteBusiness` keeps the row with its active flag
cleared. -/
theorem router_delete_removes_row :
    (routerDelete sampleDb noFault 1).1 = Response.json 200 "Business deleted successfully" ∧
    (routerDelete sampleDb noFault 1).2.businesses.map (fun b => b.id) = [2, 3] ∧
    (deleteBusiness sampleDb noFault 50 1).1
      = Response.json 200 "Business deleted successfully" ∧
    (deleteBusiness sampleDb noFault 50 1).2.businesses.map
        (fun b => (b.id, b.is_active, b.updated_at))
      = [(1, false, 50), (2, true, 7), (3, false, 1)] :=
  ⟨rfl, by decide, rfl, by decide⟩

/-! ## Creating a business -/

theorem insertBusiness_ok (db : Db) (fresh now : Nat) (body : CreateBody) (owner : Option Nat)
    (row : Business) (db' : Db) (h : insertBusiness db fresh now body owner = Except.ok (row, db')) :
    row.owner_id = owner ∧ row.id = fresh ∧ row.is_active = isActiveDefault ∧
    row.name = body.name ∧ row.created_at = now ∧
    db'.businesses = db.businesses ++ [row] ∧ db'.products = db.products ∧
    db'.reviews = db.reviews ∧ db'.users = db.users ∧ db'.orders = db.orders ∧
    db'.order_items = db.order_items := by
  unfold insertBusiness at h
  split_ifs at h
  simp only [Except.ok.injEq, Prod.mk.injEq] at h
  obtain ⟨hrow, hdb⟩ := h
  subst hrow
  subst hdb
  simp

theorem insertBusiness_of_fresh (db : Db) (fresh now : Nat) (body : CreateBody)
    (owner : Option Nat) (hfresh : ∀ b ∈ db.businesses, b.id ≠ fresh) :
    ∃ row db', insertBusiness db fresh now body owner = Except.ok (row, db') := by
  unfold insertBusiness
  rw [if_neg]
  · exact ⟨_, _, rfl⟩
  · simpa using hfresh

/-- The controller's create either leaves the store as it was or appends one row whose
owner had no active business before. -/
theorem createBusiness_store (db : Db) (fault : Fault) (fresh now : Nat) (body : CreateBody) :
    ((createBusiness db fault fresh now body).2 = db ∧
      ∀ message row, (createBusiness db fault fresh now body).1
        ≠ CreateResponse.created message row) ∨
    ∃ (row : Business) (owner : Option Nat), row.owner_id = owner ∧
      (createBusiness db fault fresh now body).1
        = CreateResponse.created "Business created successfully" row ∧
      sqlKey body.owner_id = some owner ∧
      (db.businesses.filter fun b => owner ≠ none ∧ b.owner_id = owner ∧ b.is_active = true) = [] ∧
      (createBusiness db fault fresh now body).2.businesses = db.businesses ++ [row] := by
  unfold createBusiness
  split_ifs
  · exact Or.inl ⟨rfl, by intro _ _ hc; cases hc⟩
  · cases hk : sqlKey body.owner_id with
    | none => exact Or.inl ⟨rfl, by intro _ _ hc; cases hc⟩
    | some owner =>
      simp only []
      cases fault 0 with
      | some e => exact Or.inl ⟨rfl, by intro _ _ hc; cases hc⟩
      | none =>
        simp only [runQuery]
        generalize (db.users.filter fun u => some u.id = owner) = us
        cases us with
        | nil => exact Or.inl ⟨rfl, by intro _ _ hc; cases hc⟩
        | cons u us =>
          simp only []
          cases fault 1 with
          | some e => exact Or.inl ⟨rfl, by intro _ _ hc; cases hc⟩
          | none =>
            simp only []
            cases hex : (db.businesses.filter fun b =>
                owner ≠ none ∧ b.owner_id = owner ∧ b.is_active = true) with
            | cons b bs => exact Or.inl ⟨rfl, by intro _ _ hc; cases hc⟩
            | nil =>
              simp only []
              cases fault 2 with
              | some e => exact Or.inl ⟨rfl, by intro _ _ hc; cases hc⟩
              | none =>
                simp only [Except.bind]
                cases hi : insertBusiness db fresh now body owner with
                | error e => exact Or.inl ⟨rfl, by intro _ _ hc; cases hc⟩
                | ok p =>
                  obtain ⟨row, db'⟩ := p
                  have hok := insertBusiness_ok db fresh now body owner row db' hi
                  exact Or.inr ⟨row, owner, hok.1, rfl, rfl, hex, hok.2.2.2.2.2.1⟩

/-- The controller's create keeps the store at one active business per owner at most. -/
theorem createBusiness_preserves (db : Db) (fault : Fault) (fresh now : Nat) (body : CreateBody)
    (h : OneActivePerOwner db) :
    OneActivePerOwner (createBusiness db fault fresh now body).2 := by
  rcases createBusiness_store db fault fresh now body with
    ⟨hsame, -⟩ | ⟨row, owner, hrow, -, -, hnone, hdb⟩
  · rw [hsame]; exact h
  · intro o
    rw [hdb, List.filter_append]
    by_cases ho : owner = some o
    · subst ho
      have : (db.businesses.filter fun b => b.owner_id = some o ∧ b.is_active = true) = [] := by
        rw [← hnone]
        apply List.filter_congr
        intro b _
        simp
      rw [this]
      simp only [List.nil_append]
      exact (List.length_filter_le _ _).trans (by simp)
    · have hrow' : (List.filter (fun b => decide (b.owner_id = some o ∧ b.is_active = true)) [row])
          = [] := by
        simp only [List.filter_eq_nil_iff, List.mem_singleton, forall_eq, decide_eq_true_eq,
          not_and]
        intro hc
        exact absurd (hrow.symm.trans hc) ho
      rw [hrow', List.append_nil]
      exact h o

/-- The controller rejects a create for an owner who has an active business, and the
store stays as it was. -/
theorem createBusiness_rejects (db : Db) (fault : Fault) (fresh now : Nat) (body : CreateBody)
    (owner : Nat) (hkey : sqlKey body.owner_id = some (some owner))
    (b : Business) (hb : b ∈ db.businesses) (ho : b.owner_id = some owner)
    (ha : b.is_active = true) :
    (createBusiness db fault fresh now body).2 = db ∧
    ∀ message row, (createBusiness db fault fresh now body).1
      ≠ CreateResponse.created message row := by
  rcases createBusiness_store db fault fresh now body with hsame | ⟨row, o, -, -, hk, hnone, -⟩
  · exact hsame
  · exfalso
    rw [hkey] at hk
    cases hk
    have : b ∈ (db.businesses.filter fun b =>
        some owner ≠ none ∧ b.owner_id = some owner ∧ b.is_active = true) := by
      simp [hb, ho, ha]
    rw [hnone] at this
    cases this


theorem oneActivePerOwner_ownerDb : OneActivePerOwner ownerDb := by
  intro owner
  exact (List.length_filter_le _ _).trans (by decide)

/-- C21 (the router's side): in a store where user 1 owns one active business, the
controller's `createBusiness` for owner 1 answers 400 and leaves the store as it was,
while the router's `POST /` by user 1 answers 201 and stores a second active business of
owner 1, so that the store no longer has at most one active business per owner. -/
theorem router_post_adds_second_active_business :
    OneActivePerOwner ownerDb ∧
    (createBusiness ownerDb noFault 2 20 (shopBody (JSVal.str "1"))).1
      = CreateResponse.error 400 "User already has an active business" ∧
    (createBusiness ownerDb noFault 2 20 (shopBody (JSVal.str "1"))).2.businesses
      = ownerDb.businesses ∧
    (∃ row, (routerPost ownerDb noFault 2 20 1 (shopBody (JSVal.str "1"))).1
      = Response.json 201 row) ∧
    (routerPost ownerDb noFault 2 20 1 (shopBody (JSVal.str "1"))).2.businesses.map
      (fun b => (b.id, b.owner_id, b.is_active)) = [(1, some 1, true), (2, some 1, true)] ∧
    ¬ OneActivePerOwner (routerPost ownerDb noFault 2 20 1 (shopBody (JSVal.str "1"))).2 := by
  refine ⟨oneActivePerOwner_ownerDb, by decide, by decide, ⟨_, rfl⟩, by decide, ?_⟩
  intro h
  exact absurd (h 1) (by decide)

/-- C24: a create through the router's `POST /` that the store carries out answers 201
with the new row, whose `owner_id` is the id of the authenticated user, and appends that
row to the store; whatever the body gives as `owner_id`, response and store are the
same. -/
theorem routerPost_owner_is_user (db : Db) (fault : Fault) (fresh now userId : Nat)
    (body : CreateBody) (v : JSVal)
    (hfault : fault 0 = none) (hfresh : ∀ b ∈ db.businesses, b.id ≠ fresh) :
    (∃ row, (routerPost db fault fresh now userId body).1 = Response.json 201 row ∧
      row.owner_id = some userId ∧
      (routerPost db fault fresh now userId body).2.businesses = db.businesses ++ [row]) ∧
    routerPost db fault fresh now userId { body with owner_id := v }
      = routerPost db fault fresh now userId body := by
  have hsame : routerPost db fault fresh now userId { body with owner_id := v }
      = routerPost db fault fresh now userId body := rfl
  refine ⟨?_, hsame⟩
  obtain ⟨row, db', hi⟩ := insertBusiness_of_fresh db fresh now body (some userId) hfresh
  have hok := insertBusiness_ok db fresh now body (some userId) row db' hi
  refine ⟨row, ?_, hok.1, ?_⟩
  · simp [routerPost, hfault, runQuery, Except.bind, hi]
  · simp [routerPost, hfault, runQuery, Except.bind, hi, hok.2.2.2.2.2.1]

theorem routerPost_owner_is_user_witness :
    (∃ row, (routerPost ownerDb noFault 2 20 2 (shopBody (JSVal.str "1"))).1
        = Response.json 201 row ∧
      row.owner_id = some 2 ∧
      (routerPost ownerDb noFault 2 20 2 (shopBody (JSVal.str "1"))).2.businesses
        = ownerDb.businesses ++ [row]) ∧
    routerPost ownerDb noFault 2 20 2 { shopBody (JSVal.str "1") with owner_id := JSVal.null }
      = routerPost ownerDb noFault 2 20 2 (shopBody (JSVal.str "1")) :=
  routerPost_owner_is_user ownerDb noFault 2 20 2 (shopBody (JSVal.str "1")) JSVal.null rfl
    (by decide)

/-! ## The order of a listing -/

/-- The first page of ten of a listing without criteria. -/
theorem getAllBusinesses_first_page (db : Db) :
    getAllBusinesses db noFault (pageRequest JSVal.undefined JSVal.undefined)
      = Response.json 200
        { businesses := window (some 10) 0
            ((orderByCreatedDesc (db.businesses.filter fun b =>
                matchesPattern b none none none)).map (aggregate db listingOwnerColumns)),
          pagination := paginationOf (JSVal.num (JSNum.fin 1)) (JSVal.num (JSNum.fin 10))
            (parseInt (JSVal.str (toString (db.businesses.filter fun b =>
              matchesPattern b none none none).length))) } :=
  getAllBusinesses_ok db (pageRequest JSVal.undefined JSVal.undefined) (some 10) 0
    default_window.1 default_window.2

theorem orderByCreatedDesc_aggregate (db : Db) (columns : List (String × (User → Option String)))
    (rows : List Business) :
    ((orderByCreatedDesc rows).map (aggregate db columns)).Pairwise
      (fun x y => x.business.created_at ≥ y.business.created_at) ∧
    (((orderByCreatedDesc rows).map (aggregate db columns)).map fun row => row.business).Perm
      rows := by
  have h := orderByDesc_sorted (fun b : Business => b.created_at) rows
  constructor
  · rw [List.pairwise_map]
    exact h.1
  · rw [List.map_map]
    have hid : ((fun row : AggregateRow => row.business) ∘ aggregate db columns) = id := rfl
    rw [hid, List.map_id]
    exact h.2

/-- The rows of a listing, in `getAllBusinesses` and in the router's `GET /`, are in
descending order of creation time, every row being at least as new as each row after
it, and they are rows of the businesses the predicate accepts. This holds for every
order of the businesses with equal creation times. -/
theorem listing_newest_first (db : Db) (fault : Fault) (req : ListRequest) :
    (∀ body : ListBody, getAllBusinesses db fault req = Response.json 200 body →
      body.businesses.Pairwise
        (fun x y => x.business.created_at ≥ y.business.created_at) ∧
      ∀ row ∈ body.businesses, row.business ∈ db.businesses ∧
        matchesPattern row.business req.category req.location req.search = true) ∧
    (∀ rows : List AggregateRow,
      routerGetRoot db fault req.category req.location req.search = Response.json 200 rows →
      rows.Pairwise (fun x y => x.business.created_at ≥ y.business.created_at) ∧
      (rows.map fun row => row.business).Perm
        (db.businesses.filter fun b =>
          matchesPattern b req.category req.location req.search)) := by
  constructor
  · intro body h
    obtain ⟨limit, offset, -, -, hrows, -⟩ := getAllBusinesses_of_json db fault req body h
    have hs := orderByCreatedDesc_aggregate db listingOwnerColumns
      (db.businesses.filter fun b => matchesPattern b req.category req.location req.search)
    rw [hrows]
    refine ⟨List.Pairwise.sublist (window_sublist _ _ _) hs.1, ?_⟩
    intro row hrow
    have hmem := (window_sublist limit offset _).subset hrow
    have hb : row.business ∈ db.businesses.filter fun b =>
        matchesPattern b req.category req.location req.search :=
      hs.2.subset (List.mem_map_of_mem (fun row : AggregateRow => row.business) hmem)
    simpa using hb
  · intro rows h
    rw [routerGetRoot_eq] at h
    cases hf : fault 0 with
    | some e => rw [hf] at h; cases h
    | none =>
      rw [hf] at h
      simp only [Response.json.injEq, true_and] at h
      rw [← h]
      exact orderByCreatedDesc_aggregate db []
        (db.businesses.filter fun b => matchesPattern b req.category req.location req.search)

theorem listing_newest_first_witness :
    (sampleDb.businesses.filter fun b => matchesPattern b none none none).length = 2 ∧
    ((orderByCreatedDesc (sampleDb.businesses.filter fun b =>
        matchesPattern b none none none)).map (aggregate sampleDb [])).Pairwise
      (fun x y => x.business.created_at ≥ y.business.created_at) :=
  ⟨by decide,
   ((listing_newest_first sampleDb noFault (pageRequest JSVal.undefined JSVal.undefined)).2 _
      (routerGetRoot_eq sampleDb noFault none none none)).1⟩

/-! ## The products and reviews of one business -/

theorem leftJoinSide_ne_nil {α : Type} (rows : List α) : leftJoinSide rows ≠ [] := by
  cases rows <;> simp [leftJoinSide]

theorem mem_joinedRows_product_ids (db : Db) (b : Business) (x : Nat) :
    x ∈ (joinedRows db b).filterMap (fun row => row.1.map fun p => p.id)
      ↔ x ∈ (db.products.filter fun p => p.business_id = b.id).map fun p => p.id := by
  obtain ⟨r, hr⟩ := List.exists_mem_of_ne_nil _
    (leftJoinSide_ne_nil (db.reviews.filter fun r => r.business_id = b.id))
  unfold joinedRows
  simp only [List.mem_filterMap, List.mem_flatMap, List.mem_map, Option.map_eq_some']
  constructor
  · rintro ⟨row, ⟨p, hp, r', -, rfl⟩, q, hq, rfl⟩
    simp only at hq
    subst hq
    cases hrows : (db.products.filter fun p => p.business_id = b.id) with
    | nil => rw [hrows] at hp; simp [leftJoinSide] at hp
    | cons a as =>
      rw [hrows] at hp
      simp only [leftJoinSide, List.isEmpty_cons, Bool.false_eq_true, if_false, List.mem_map,
        Option.some.injEq] at hp
      obtain ⟨q', hq', rfl⟩ := hp
      exact ⟨q', hq', rfl⟩
  · rintro ⟨p, hp, rfl⟩
    refine ⟨(some p, r), ⟨some p, ?_, r, hr, rfl⟩, p, rfl, rfl⟩
    cases hrows : (db.products.filter fun p => p.business_id = b.id) with
    | nil => rw [hrows] at hp; cases hp
    | cons a as =>
      rw [hrows] at hp
      simp only [leftJoinSide, List.isEmpty_cons, Bool.false_eq_true, if_false, List.mem_map,
        Option.some.injEq]
      exact ⟨p, hp, rfl⟩

/-- `COUNT(DISTINCT p.id)`: the number of products of the business, available or not,
the ids of `products` being a key. -/
theorem aggregate_product_count (db : Db) (columns : List (String × (User → Option String)))
    (b : Business) (hkey : (db.products.map fun p => p.id).Nodup) :
    (aggregate db columns b).product_count
      = (db.products.filter fun p => p.business_id = b.id).length := by
  have hsub : ((db.products.filter fun p => p.business_id = b.id).map fun p => p.id).Nodup :=
    List.Nodup.sublist (List.Sublist.map _ (List.filter_sublist _)) hkey
  simp only [aggregate]
  rw [← List.card_toFinset, List.toFinset.ext (mem_joinedRows_product_ids db b),
    List.card_toFinset, List.Nodup.dedup hsub, List.length_map]


/-- In a list without repeated keys, the rows with a key that occurs are one row. -/
theorem filter_key_singleton {α : Type} (key : α → Nat) (k : Nat) (rows : List α)
    (hkey : (rows.map key).Nodup) (hk : ∃ x ∈ rows, key x = k) :
    ∃ x, x ∈ rows ∧ key x = k ∧ (rows.filter fun y => k = key y) = [x] := by
  induction rows with
  | nil => obtain ⟨x, hx, -⟩ := hk; cases hx
  | cons a as ih =>
    rw [List.map_cons, List.nodup_cons] at hkey
    by_cases ha : k = key a
    · refine ⟨a, List.mem_cons_self _ _, ha.symm, ?_⟩
      have hrest : (as.filter fun y => k = key y) = [] := by
        rw [List.filter_eq_nil_iff]
        intro y hy
        simp only [decide_eq_true_eq]
        intro hky
        exact hkey.1 (List.mem_map.mpr ⟨y, hy, by rw [← hky, ha]⟩)
      rw [List.filter_cons, if_pos (by simpa using ha), hrest]
    · obtain ⟨x, hx, hxk⟩ := hk
      have hxas : x ∈ as := by
        rcases List.mem_cons.mp hx with rfl | h
        · exact absurd hxk.symm ha
        · exact h
      obtain ⟨y, hy, hyk, hfil⟩ := ih hkey.2 ⟨x, hxas, hxk⟩
      exact ⟨y, List.mem_cons_of_mem _ hy, hyk, by simp [List.filter_cons, ha, hfil]⟩

/-- `reviews r JOIN users u ON r.user_id = u.id`, when `users.id` is a key and every
review has its author's row: one joined row per review, in the order of the reviews. -/
theorem review_join_fst (users : List User) (reviews : List Review)
    (husers : (users.map fun u => u.id).Nodup)
    (hauthors : ∀ r ∈ reviews, ∃ u ∈ users, u.id = r.user_id) :
    ((reviews.flatMap fun r =>
        (users.filter fun u => r.user_id = u.id).map fun u => (r, u)).map Prod.fst) = reviews := by
  induction reviews with
  | nil => rfl
  | cons r rs ih =>
    obtain ⟨u, -, -, hfil⟩ := filter_key_singleton (fun u : User => u.id) r.user_id users husers
      (hauthors r (List.mem_cons_self _ _))
    rw [List.flatMap_cons, List.map_append, ih fun r' hr' => hauthors r' (List.mem_cons_of_mem _ hr')]
    rw [hfil]
    rfl

theorem filter_map_fst {α β : Type} (p : α → Bool) (rows : List (α × β)) :
    (rows.filter fun ru => p ru.1).map Prod.fst = (rows.map Prod.fst).filter p := by
  induction rows with
  | nil => rfl
  | cons a as ih => by_cases h : p a.1 <;> simp [List.filter_cons, h, ih]

/-- The embedded reviews: the `n` most recent reviews of the business, newest first, each
with the `users` row of its author. -/
theorem recentReviews_spec (db : Db) (id n : Nat)
    (husers : (db.users.map fun u => u.id).Nodup)
    (hauthors : ∀ r ∈ db.reviews, ∃ u ∈ db.users, u.id = r.user_id) :
    IsMostRecent n (db.reviews.filter fun r => r.business_id = id)
      ((recentReviews db id n).map Prod.fst) ∧
    ∀ ru ∈ recentReviews db id n, ru.2 ∈ db.users ∧ ru.2.id = ru.1.user_id := by
  have hsorted := orderByDesc_sorted (fun ru : Review × User => ru.1.created_at)
    ((db.reviews.flatMap fun r =>
        (db.users.filter fun u => r.user_id = u.id).map fun u => (r, u)).filter
      fun ru => ru.1.business_id = id)
  have hfst : (((db.reviews.flatMap fun r =>
        (db.users.filter fun u => r.user_id = u.id).map fun u => (r, u)).filter
      fun ru => decide (ru.1.business_id = id)).map Prod.fst)
      = db.reviews.filter fun r => r.business_id = id := by
    rw [filter_map_fst (fun r : Review => decide (r.business_id = id)),
      review_join_fst db.users db.reviews husers hauthors]
  have hperm := (hsorted.2.map Prod.fst).trans (List.Perm.of_eq hfst)
  unfold recentReviews
  generalize (orderByDesc (fun ru : Review × User => ru.1.created_at)
    ((db.reviews.flatMap fun r =>
        (db.users.filter fun u => r.user_id = u.id).map fun u => (r, u)).filter
      fun ru => ru.1.business_id = id)) = sorted at hsorted hperm
  refine ⟨⟨?_, ?_, (sorted.drop n).map Prod.fst, ?_, ?_⟩, ?_⟩
  · rw [List.length_map, List.length_take, ← List.Perm.length_eq hperm, List.length_map]
  · rw [List.pairwise_map]
    exact List.Pairwise.sublist (List.take_sublist _ _) hsorted.1
  · rw [← List.map_append, List.take_append_drop]
    exact hperm
  · intro x hx y hy
    obtain ⟨a, ha, rfl⟩ := List.mem_map.mp hx
    obtain ⟨c, hc, rfl⟩ := List.mem_map.mp hy
    have hp := hsorted.1
    rw [← List.take_append_drop n sorted, List.pairwise_append] at hp
    exact hp.2.2 a ha c hc
  · intro ru hru
    have hmem := hsorted.2.subset ((List.take_sublist _ _).subset hru)
    simp only [List.mem_filter, List.mem_flatMap, List.mem_map] at hmem
    obtain ⟨⟨r, -, u, hu, rfl⟩, -⟩ := hmem
    simp only [decide_eq_true_eq] at hu
    exact ⟨hu.1, hu.2.symm⟩


/-- For an active business with the given id both lookups answer 200, with the aggregate
row of the first stored row that has the id and the two embedded lists. -/
theorem lookups_found (db : Db) (id : Nat) (b : Business) (hb : b ∈ db.businesses)
    (hid : b.id = id) (hact : b.is_active = true) :
    (∃ b1 ∈ db.businesses, b1.id = id ∧
      getBusinessById db noFault id = Response.json 200
        { business := aggregate db detailOwnerColumns b1,
          products := availableProducts db id,
          reviews := recentReviews db id 10 }) ∧
    (∃ b2 ∈ db.businesses, b2.id = id ∧
      routerGetById db noFault id = Response.json 200
        { business := aggregate db [] b2,
          products := availableProducts db id,
          reviews := recentReviews db id 20 }) := by
  constructor
  · simp only [getBusinessById, runQuery, noFault]
    cases hrows : (db.businesses.filter fun b => b.id = id ∧ b.is_active = true) with
    | nil =>
      have hnot : b ∉ db.businesses.filter fun b => b.id = id ∧ b.is_active = true := by
        rw [hrows]; exact List.not_mem_nil b
      exact absurd (List.mem_filter.mpr ⟨hb, by simp [hid, hact]⟩) hnot
    | cons x xs =>
      have hx : x ∈ db.businesses.filter fun b => b.id = id ∧ b.is_active = true := by
        rw [hrows]; exact List.mem_cons_self _ _
      obtain ⟨hmem, hp⟩ := List.mem_filter.mp hx
      simp only [decide_eq_true_eq] at hp
      exact ⟨x, hmem, hp.1, rfl⟩
  · simp only [routerGetById, runQuery, noFault]
    cases hrows : (db.businesses.filter fun b => b.id = id) with
    | nil =>
      have hnot : b ∉ db.businesses.filter fun b => b.id = id := by
        rw [hrows]; exact List.not_mem_nil b
      exact absurd (List.mem_filter.mpr ⟨hb, by simp [hid]⟩) hnot
    | cons x xs =>
      have hx : x ∈ db.businesses.filter fun b => b.id = id := by
        rw [hrows]; exact List.mem_cons_self _ _
      obtain ⟨hmem, hp⟩ := List.mem_filter.mp hx
      simp only [decide_eq_true_eq] at hp
      exact ⟨x, hmem, hp, rfl⟩

/-- C23: for an active business, in a store whose `products.id` and `users.id` are keys
and whose reviews all have their author's row, the controller's `getBusinessById` and the
router's `GET /:id` both answer 200; `products` holds exactly the products of the
business with `is_available = true`, newest first, while `product_count` is the number
of all its products; `reviews` holds the most recent reviews of the business, newest
first, 10 at most in the controller and 20 at most in the router, each with the row of
its author. -/
theorem detail_embeds_products_and_reviews (db : Db) (id : Nat) (b : Business)
    (hb : b ∈ db.businesses) (hid : b.id = id) (hact : b.is_active = true)
    (hproducts : (db.products.map fun p => p.id).Nodup)
    (husers : (db.users.map fun u => u.id).Nodup)
    (hauthors : ∀ r ∈ db.reviews, ∃ u ∈ db.users, u.id = r.user_id) :
    ∃ c r : DetailBody,
      getBusinessById db noFault id = Response.json 200 c ∧
      routerGetById db noFault id = Response.json 200 r ∧
      c.products.Perm
        (db.products.filter fun p => p.business_id = id ∧ p.is_available = true) ∧
      c.products.Pairwise (fun x y => x.created_at ≥ y.created_at) ∧
      r.products = c.products ∧
      c.business.product_count = (db.products.filter fun p => p.business_id = id).length ∧
      r.business.product_count = (db.products.filter fun p => p.business_id = id).length ∧
      IsMostRecent 10 (db.reviews.filter fun x => x.business_id = id)
        (c.reviews.map Prod.fst) ∧
      IsMostRecent 20 (db.reviews.filter fun x => x.business_id = id)
        (r.reviews.map Prod.fst) ∧
      (∀ ru ∈ c.reviews, ru.2 ∈ db.users ∧ ru.2.id = ru.1.user_id) ∧
      (∀ ru ∈ r.reviews, ru.2 ∈ db.users ∧ ru.2.id = ru.1.user_id) := by
  obtain ⟨⟨b1, -, hb1, hc⟩, ⟨b2, -, hb2, hr⟩⟩ := lookups_found db id b hb hid hact
  have hprod := orderByDesc_sorted (fun p : Product => p.created_at)
    (db.products.filter fun p => p.business_id = id ∧ p.is_available = true)
  have h10 := recentReviews_spec db id 10 husers hauthors
  have h20 := recentReviews_spec db id 20 husers hauthors
  refine ⟨_, _, hc, hr, hprod.2, hprod.1, rfl, ?_, ?_, h10.1, h20.1, h10.2, h20.2⟩
  · show (aggregate db detailOwnerColumns b1).product_count = _
    rw [aggregate_product_count db detailOwnerColumns b1 hproducts, hb1]
  · show (aggregate db [] b2).product_count = _
    rw [aggregate_product_count db [] b2 hproducts, hb2]

theorem detail_embeds_products_and_reviews_witness :
    (sampleDb.products.filter fun p => p.business_id = 1).length = 2 ∧
    (sampleDb.products.filter fun p => p.business_id = 1 ∧ p.is_available = true).map
      (fun p => p.id) = [1] ∧
    ∃ c r : DetailBody,
      getBusinessById sampleDb noFault 1 = Response.json 200 c ∧
      routerGetById sampleDb noFault 1 = Response.json 200 r ∧
      c.products.Perm
        (sampleDb.products.filter fun p => p.business_id = 1 ∧ p.is_available = true) ∧
      c.products.Pairwise (fun x y => x.created_at ≥ y.created_at) ∧
      r.products = c.products ∧
      c.business.product_count = (sampleDb.products.filter fun p => p.business_id = 1).length ∧
      r.business.product_count = (sampleDb.products.filter fun p => p.business_id = 1).length ∧
      IsMostRecent 10 (sampleDb.reviews.filter fun x => x.business_id = 1)
        (c.reviews.map Prod.fst) ∧
      IsMostRecent 20 (sampleDb.reviews.filter fun x => x.business_id = 1)
        (r.reviews.map Prod.fst) ∧
      (∀ ru ∈ c.reviews, ru.2 ∈ sampleDb.users ∧ ru.2.id = ru.1.user_id) ∧
      (∀ ru ∈ r.reviews, ru.2 ∈ sampleDb.users ∧ ru.2.id = ru.1.user_id) :=
  ⟨by decide, by decide,
   detail_embeds_products_and_reviews sampleDb 1 (sampleBusiness 1 "Kofi Foods" "Jollof" 5)
    (by decide) rfl rfl (by decide) (by decide) (by decide)⟩

/-! ## The three builders side by side -/

/-- C26: for every criteria set the controller's `getAllBusinesses` and the router's
`GET /` build the same WHERE text and the same parameter list; `searchBusinesses`, with
the search criterion as its term `q`, builds a predicate whose conjuncts, with the
parameters filled in, are those of the listing predicate in another order, and its
parameter list is a permutation of the listing's: the term first, then the category, then
the location. -/
theorem builders_build_same_predicate (category location search : Option String) :
    (routerGetRootFilter category location search).whereClause
      = (getAllBusinessesFilter category location search).whereClause ∧
    (routerGetRootFilter category location search).params
      = (getAllBusinessesFilter category location search).params ∧
    (∃ listing searching : List BoundConjunct,
      compileWhere (getAllBusinessesFilter category location search).whereClause
        (getAllBusinessesFilter category location search).params = some listing ∧
      compileWhere (searchBusinessesFilter search category location).whereClause
        (searchBusinessesFilter search category location).params = some searching ∧
      searching.Perm listing ∧
      ∀ b : Business, accepts searching b = accepts listing b) ∧
    (searchBusinessesFilter search category location).params.Perm
      (getAllBusinessesFilter category location search).params ∧
    (searchBusinessesFilter search category location).params =
      (if truthy search then [JSVal.str ("%" ++ search.getD "" ++ "%")] else [])
        ++ (if truthy category then [JSVal.str (category.getD "")] else [])
        ++ (if truthy location then [JSVal.str (location.getD "")] else []) := by
  refine ⟨?_, routerGetRootFilter_params category location search, ?_, ?_,
    searchBusinessesFilter_params search category location⟩
  · rw [routerGetRootFilter_whereClause, getAllBusinessesFilter_whereClause]
  · refine ⟨listingConjuncts category location search,
      searchConjuncts search category location, compileWhere_listing category location search,
      ?_, ?_, ?_⟩
    · have h := compileWhere_search_append search category location []
      rwa [List.append_nil] at h
    · unfold searchConjuncts listingConjuncts
      refine List.Perm.cons _ ?_
      rw [List.append_assoc]
      exact List.perm_append_comm
    · intro b
      rw [accepts_search, accepts_listing]
  · rw [searchBusinessesFilter_params, getAllBusinessesFilter_params, List.append_assoc]
    exact List.perm_append_comm

/-! ## Pages and offset windows -/

theorem lt_ceil_div_iff (a T l : ℕ) (hl : 1 ≤ l) :
    ((a : ℤ) < ⌈(T : ℚ) / l⌉) ↔ a * l < T := by
  have hl0 : (0 : ℚ) < l := by exact_mod_cast hl
  rw [Int.lt_ceil, Int.cast_natCast, lt_div_iff₀ hl0]
  exact_mod_cast Iff.rfl

theorem window_iff_page (i l q : ℕ) (hl : 1 ≤ l) (hq : 1 ≤ q) :
    ((q - 1) * l ≤ i ∧ i < (q - 1) * l + l) ↔ q = i / l + 1 := by
  have h1 : (q - 1) * l ≤ i ↔ q - 1 ≤ i / l := (Nat.le_div_iff_mul_le hl).symm
  have h2 : i < (q - 1) * l + l ↔ i / l < q - 1 + 1 := by
    rw [Nat.div_lt_iff_lt_mul hl, Nat.add_mul, Nat.one_mul]
  rw [h1, h2]
  omega

/-- C27: for a total count `T`, a page `p` and a limit `l >= 1`, whole numbers given as
numbers or decimal strings (`p >= 1` is not needed), the pagination object of `getAllBusinesses` has `hasNext` exactly
when `currentPage < totalPages`; `totalPages` is a natural number `n`, and every row
index `i < T` lies in the offset window `[offset, offset + l)` of page `i / l + 1`, which
is one of the pages `1 .. n`, and in the window of no other page. -/
theorem pagination_self_consistent (T p l : ℕ) (page limit : JSVal)
    (hl : 1 ≤ l) (hpage : IsNatValue page p) (hlimit : IsNatValue limit l) :
    (paginationOf page limit (parseInt (JSVal.str (toString T)))).hasNext
      = JSNum.lt (paginationOf page limit (parseInt (JSVal.str (toString T)))).currentPage
          (paginationOf page limit (parseInt (JSVal.str (toString T)))).totalPages ∧
    (paginationOf page limit (parseInt (JSVal.str (toString T)))).currentPage
      = JSNum.fin p ∧
    ∃ n : ℕ,
      (paginationOf page limit (parseInt (JSVal.str (toString T)))).totalPages
        = JSNum.fin n ∧
      ∀ i : ℕ, i < T → 1 ≤ i / l + 1 ∧ i / l + 1 ≤ n ∧
        ∀ (q : ℕ) (pageq : JSVal), 1 ≤ q → IsNatValue pageq q →
          ∃ offset : ℕ, computeOffset pageq limit = JSNum.fin offset ∧
            offset = (q - 1) * l ∧
            ((offset ≤ i ∧ i < offset + l) ↔ q = i / l + 1) := by
  rw [paginationOf_of_isNatValue hl hpage hlimit T]
  have hceil : (0 : ℤ) ≤ ⌈(T : ℚ) / l⌉ := Int.ceil_nonneg (by positivity)
  refine ⟨?_, rfl, ⌈(T : ℚ) / l⌉.toNat, ?_, ?_⟩
  · simp only [JSNum.lt]
    rw [decide_eq_decide, ← lt_ceil_div_iff p T l hl]
    exact_mod_cast Iff.rfl
  · simp only [JSNum.fin.injEq]
    exact_mod_cast (Int.toNat_of_nonneg hceil).symm
  · intro i hi
    refine ⟨Nat.le_add_left 1 _, ?_, ?_⟩
    · have hlt : ((i / l : ℕ) : ℤ) < ⌈(T : ℚ) / l⌉ :=
        (lt_ceil_div_iff (i / l) T l hl).mpr
          (lt_of_le_of_lt (Nat.div_mul_le_self i l) hi)
      omega
    · intro q pageq hq hpageq
      refine ⟨(q - 1) * l, ?_, rfl, window_iff_page i l q hl hq⟩
      rw [computeOffset_of_isNatValue hq hpageq hlimit]

theorem pagination_self_consistent_witness :
    (paginationOf (JSVal.str "2") (JSVal.num (JSNum.fin 10))
        (parseInt (JSVal.str (toString 25)))).hasNext
      = JSNum.lt (paginationOf (JSVal.str "2") (JSVal.num (JSNum.fin 10))
            (parseInt (JSVal.str (toString 25)))).currentPage
          (paginationOf (JSVal.str "2") (JSVal.num (JSNum.fin 10))
            (parseInt (JSVal.str (toString 25)))).totalPages ∧
    (paginationOf (JSVal.str "2") (JSVal.num (JSNum.fin 10))
        (parseInt (JSVal.str (toString 25)))).currentPage = JSNum.fin (2 : ℕ) ∧
    ∃ n : ℕ,
      (paginationOf (JSVal.str "2") (JSVal.num (JSNum.fin 10))
        (parseInt (JSVal.str (toString 25)))).totalPages = JSNum.fin n ∧
      ∀ i : ℕ, i < 25 → 1 ≤ i / 10 + 1 ∧ i / 10 + 1 ≤ n ∧
        ∀ (q : ℕ) (pageq : JSVal), 1 ≤ q → IsNatValue pageq q →
          ∃ offset : ℕ, computeOffset pageq (JSVal.num (JSNum.fin 10)) = JSNum.fin offset ∧
            offset = (q - 1) * 10 ∧
            ((offset ≤ i ∧ i < offset + 10) ↔ q = i / 10 + 1) :=
  pagination_self_consistent 25 2 10 (JSVal.str "2") (JSVal.num (JSNum.fin 10))
    (by decide) (Or.inr rfl) (Or.inl rfl)

/-! ## Logging out -/

theorem getItem_removeItem (storage : Storage) (key : String) :
    (storage.removeItem key).getItem key = none := by
  unfold Storage.getItem Storage.removeItem
  rw [Option.map_eq_none', List.find?_eq_none]
  intro entry h
  have := (List.mem_filter.mp h).2
  simpa using this

/-- Whatever happens to the request, `logout` leaves no user, no token and no stored
`token` entry, and `isAuthenticated` is false afterwards. -/
theorem logout_clears_credentials (run : LogoutRun) (st : AuthState) :
    (logout run st).currentUser = none ∧ (logout run st).token = none ∧
    (logout run st).localStorage.getItem "token" = none ∧
    isAuthenticated (logout run st) = false := by
  cases run with
  | rejected => exact ⟨rfl, rfl, getItem_removeItem _ _, rfl⟩
  | answered status uiThrows =>
    cases uiThrows
    · exact ⟨rfl, rfl, getItem_removeItem _ _, rfl⟩
    · exact ⟨rfl, rfl, getItem_removeItem _ _, rfl⟩

/-- When the request is answered, the `welcomeShown` flag is removed. -/
theorem logout_answered_removes_flag (status : Nat) (uiThrows : Bool) (st : AuthState) :
    (logout (LogoutRun.answered status uiThrows) st).sessionStorage.getItem "welcomeShown"
      = none := by
  cases uiThrows
  · exact getItem_removeItem _ _
  · exact getItem_removeItem _ _

/-- C25 (the failure path): on a logged-in page with the `welcomeShown` flag set, a
logout whose request is answered removes the flag, while a logout whose request throws
leaves it at `true`: the states after the two paths differ. User, token and the stored
`token` entry are cleared on both paths. -/
theorem logout_failure_keeps_welcome_flag :
    (logout (LogoutRun.answered 200 false) loggedIn).sessionStorage.getItem "welcomeShown"
      = none ∧
    (logout LogoutRun.rejected loggedIn).sessionStorage.getItem "welcomeShown"
      = some "true" ∧
    logout LogoutRun.rejected loggedIn ≠ logout (LogoutRun.answered 200 false) loggedIn ∧
    (logout LogoutRun.rejected loggedIn).currentUser = none ∧
    (logout LogoutRun.rejected loggedIn).token = none ∧
    (logout LogoutRun.rejected loggedIn).localStorage.getItem "token" = none ∧
    isAuthenticated (logout LogoutRun.rejected loggedIn) = false := by
  decide

/-! ## The cart -/

theorem parseIntString10_digits {ds : List Char} (hne : ds ≠ [])
    (hdig : ∀ c ∈ ds, c.isDigit = true) :
    parseIntString10 (String.mk ds)
      = if doubleOverflow ≤ natOfDigits ds then JSNum.posInf
        else JSNum.fin (natOfDigits ds) := by
  have h1 : ds.takeWhile Char.isDigit = ds := List.takeWhile_eq_self_iff.mpr hdig
  simp [parseIntString10, dropWhile_whitespace_digits hdig, dropSign_digits hdig, h1, hne,
    head_digits hdig '-' (by decide)]

theorem natOfDigits_nines (n : Nat) : natOfDigits (List.replicate n '9') + 1 = 10 ^ n := by
  induction n with
  | zero => rfl
  | succ n ih =>
    have h : List.replicate (n + 1) '9' = List.replicate n '9' ++ ['9'] := by
      rw [List.replicate_succ']
    have hd : digitVal '9' = 9 := by decide
    rw [h, natOfDigits_append_singleton, hd, pow_succ]
    omega

theorem parseInt10_hugeQuantity : parseInt10 (JSVal.str hugeQuantity) = JSNum.posInf := by
  have hne : List.replicate 310 '9' ≠ [] := by
    intro h
    have hlen := congrArg List.length h
    rw [List.length_replicate] at hlen
    exact absurd hlen (by decide)
  have hdig : ∀ c ∈ List.replicate 310 '9', c.isDigit = true := by
    intro c hc
    rw [List.eq_of_mem_replicate hc]
    decide
  have hbig : doubleOverflow ≤ natOfDigits (List.replicate 310 '9') := by
    have hval := natOfDigits_nines 310
    have e : (1024 : ℕ) = 93 * 11 + 1 := rfl
    have e' : (310 : ℕ) = 28 * 11 + 2 := rfl
    have h2 : 2 ^ 1024 ≤ (10 ^ 28) ^ 11 * 10 := by
      calc 2 ^ 1024 = (2 ^ 93) ^ 11 * 2 := by rw [e, pow_succ, pow_mul]
        _ ≤ (10 ^ 28) ^ 11 * 10 :=
          Nat.mul_le_mul (Nat.pow_le_pow_left (by norm_num) 11) (by norm_num)
    have h3 : 10 ^ 310 = (10 ^ 28) ^ 11 * 100 := by
      rw [e', pow_add, pow_mul]
      rfl
    have h4 : doubleOverflow ≤ 2 ^ 1024 := Nat.sub_le _ _
    have h5 : 0 < (10 ^ 28) ^ 11 := by positivity
    generalize (10 ^ 28) ^ 11 = a at h2 h3 h5
    generalize 2 ^ 1024 = b at h2 h4
    generalize 10 ^ 310 = c at h3 hval
    omega
  show parseIntString10 (String.mk (List.replicate 310 '9')) = JSNum.posInf
  rw [parseIntString10_digits hne hdig, if_pos hbig]

theorem updateQuantity_of_infinite (items : List CartItem) (productId : CartId)
    (quantity : JSVal) (h : parseInt10 quantity = JSNum.posInf) :
    updateQuantity items productId quantity
      = updateFirst (fun item => item.id.toText = productId.toText)
          (fun item => { item with quantity := JSNum.posInf }) items := by
  unfold updateQuantity
  rw [h]
  cases hfind : items.find? fun item => item.id.toText = productId.toText with
  | some item => rfl
  | none =>
    simp only []
    rw [List.find?_eq_none] at hfind
    clear h
    induction items with
    | nil => rfl
    | cons a as ih =>
      have ha := hfind a (List.mem_cons_self _ _)
      rw [updateFirst, if_neg ha, ← ih fun x hx => hfind x (List.mem_cons_of_mem _ hx)]

/-- C28 (a quantity beyond the doubles): after `addItem` of a product with id 1,
`updateQuantity('1', q)` with `q` the text of 310 nines stores `Infinity` as the quantity
of the item, `parseInt` giving `Infinity`, which is neither falsy nor `<= 0`; the item
stays in the cart with a quantity that is no integer. -/
theorem cart_quantity_becomes_infinite :
    parseInt10 (JSVal.str hugeQuantity) = JSNum.posInf ∧
    (cartAfter [CartCall.addItem bowl,
        CartCall.updateQuantity (CartId.str "1") (JSVal.str hugeQuantity)]).map
      (fun item => (item.id, item.quantity)) = [(CartId.num 1, JSNum.posInf)] ∧
    ¬ ∃ n : ℤ, JSNum.posInf = JSNum.fin n := by
  refine ⟨parseInt10_hugeQuantity, ?_, ?_⟩
  · simp only [cartAfter, List.foldl_cons, List.foldl_nil, CartCall.run]
    rw [updateQuantity_of_infinite _ _ _ parseInt10_hugeQuantity]
    decide
  · rintro ⟨n, h⟩
    cases h


theorem mem_updateFirst {α : Type} (p : α → Bool) (f : α → α) (rows : List α) (x : α)
    (hx : x ∈ updateFirst p f rows) : x ∈ rows ∨ ∃ y ∈ rows, p y = true ∧ x = f y := by
  induction rows with
  | nil => cases hx
  | cons a as ih =>
    unfold updateFirst at hx
    split_ifs at hx with ha
    · rcases List.mem_cons.mp hx with rfl | h
      · exact Or.inr ⟨a, List.mem_cons_self _ _, ha, rfl⟩
      · exact Or.inl (List.mem_cons_of_mem _ h)
    · rcases List.mem_cons.mp hx with rfl | h
      · exact Or.inl (List.mem_cons_self _ _)
      · rcases ih h with h' | ⟨y, hy, hpy, rfl⟩
        · exact Or.inl (List.mem_cons_of_mem _ h')
        · exact Or.inr ⟨y, List.mem_cons_of_mem _ hy, hpy, rfl⟩

theorem updateFirst_length {α : Type} (p : α → Bool) (f : α → α) (rows : List α) :
    (updateFirst p f rows).length = rows.length := by
  induction rows with
  | nil => rfl
  | cons a as ih =>
    unfold updateFirst
    split_ifs
    · rfl
    · simp [ih]

theorem updateFirst_map {α β : Type} (p : α → Bool) (f : α → α) (g : α → β)
    (hg : ∀ a, g (f a) = g a) (rows : List α) :
    (updateFirst p f rows).map g = rows.map g := by
  induction rows with
  | nil => rfl
  | cons a as ih =>
    unfold updateFirst
    split_ifs
    · simp [hg]
    · simp [ih]

/-- What `parseInt(value, 10)` can give: NaN, an infinity, or an integer. -/
theorem parseInt10_cases (v : JSVal) :
    parseInt10 v = JSNum.nan ∨ parseInt10 v = JSNum.posInf ∨ parseInt10 v = JSNum.negInf ∨
      ∃ z : ℤ, parseInt10 v = JSNum.fin z := by
  cases v with
  | undefined => exact Or.inl rfl
  | null => exact Or.inl rfl
  | num n =>
    cases n with
    | fin q => exact Or.inr (Or.inr (Or.inr ⟨truncate q, rfl⟩))
    | nan => exact Or.inl rfl
    | posInf => exact Or.inl rfl
    | negInf => exact Or.inl rfl
  | str s =>
    simp only [parseInt10, parseIntString10]
    split_ifs
    · exact Or.inl rfl
    · exact Or.inr (Or.inr (Or.inl rfl))
    · exact Or.inr (Or.inl rfl)
    · exact Or.inr (Or.inr (Or.inr ⟨-(natOfDigits _ : ℤ), by push_cast; rfl⟩))
    · exact Or.inr (Or.inr (Or.inr ⟨(natOfDigits _ : ℤ), by push_cast; rfl⟩))

/-- A quantity that passes the guard `!q || q <= 0` of `updateQuantity` is a whole number
from 1 on, or `Infinity`. -/
theorem isCartQuantity_of_guard (v : JSVal)
    (h : (!(parseInt10 v).truthy || JSNum.le (parseInt10 v) (JSNum.fin 0)) = false) :
    IsCartQuantity (parseInt10 v) := by
  rcases parseInt10_cases v with hv | hv | hv | ⟨z, hv⟩
  · rw [hv] at h; exact absurd h (by decide)
  · exact Or.inr hv
  · rw [hv] at h; exact absurd h (by simp [JSNum.truthy, JSNum.le, JSNum.lt])
  · rw [hv] at h ⊢
    simp only [JSNum.truthy, JSNum.le, JSNum.lt, Bool.or_eq_false_iff, Bool.not_eq_false',
      decide_eq_true_eq, Bool.not_eq_false', decide_eq_true_eq, ne_eq] at h
    have hz : (0 : ℚ) < z := h.2
    have hz' : 0 < z := by exact_mod_cast hz
    refine Or.inl ⟨z.toNat, by omega, ?_⟩
    congr 1
    have : ((z.toNat : ℤ) : ℚ) = (z : ℚ) := by rw [Int.toNat_of_nonneg hz'.le]
    exact_mod_cast this.symm


theorem isCartQuantity_add_one (q : JSNum) (h : IsCartQuantity q) :
    IsCartQuantity (JSNum.add q (JSNum.fin 1)) := by
  rcases h with ⟨n, -, rfl⟩ | rfl
  · refine Or.inl ⟨n + 1, by omega, ?_⟩
    simp only [JSNum.add]
    push_cast
    rfl
  · exact Or.inr rfl

theorem removeItem_of_absent (items : List CartItem) (productId : CartId)
    (h : (items.find? fun item => item.id.toText = productId.toText) = none) :
    removeItem items productId = items := by
  rw [List.find?_eq_none] at h
  unfold removeItem
  rw [List.filter_eq_self]
  intro item hitem
  simpa using h item hitem

/-- `updateQuantity` for an id that no item has, compared as strings, leaves the items as
they are. -/
theorem updateQuantity_of_absent (items : List CartItem) (productId : CartId)
    (quantity : JSVal)
    (h : ∀ item ∈ items, item.id.toText ≠ productId.toText) :
    updateQuantity items productId quantity = items := by
  have hfind : (items.find? fun item => item.id.toText = productId.toText) = none := by
    rw [List.find?_eq_none]
    intro item hitem
    simpa using h item hitem
  unfold updateQuantity
  rw [hfind]

/-- `updateQuantity` with a quantity that `parseInt` reads as NaN, as zero or as a
negative number removes the items with that id. -/
theorem updateQuantity_removes (items : List CartItem) (productId : CartId) (quantity : JSVal)
    (h : parseInt10 quantity = JSNum.nan ∨
      ∃ z : ℤ, z ≤ 0 ∧ parseInt10 quantity = JSNum.fin z) :
    updateQuantity items productId quantity = removeItem items productId := by
  unfold updateQuantity
  cases hfind : items.find? fun item => item.id.toText = productId.toText with
  | none => exact (removeItem_of_absent items productId hfind).symm
  | some item =>
    simp only []
    rw [if_pos]
    rcases h with h | ⟨z, hz, h⟩
    · rw [h]; rfl
    · rw [h]
      have hq : (z : ℚ) ≤ 0 := by exact_mod_cast hz
      simp only [JSNum.truthy, JSNum.le, JSNum.lt, Bool.or_eq_true, Bool.not_eq_true',
        decide_eq_false_iff_not, not_lt, decide_eq_true_eq]
      exact Or.inr hq

/-- One call keeps every quantity a whole number from 1 on, or `Infinity`. -/
theorem run_quantities (items : List CartItem) (call : CartCall)
    (h : ∀ item ∈ items, IsCartQuantity item.quantity) :
    ∀ item ∈ call.run items, IsCartQuantity item.quantity := by
  cases call with
  | clear => intro item hitem; cases hitem
  | removeItem productId =>
    intro item hitem
    exact h item (List.mem_filter.mp hitem).1
  | addItem product =>
    intro item hitem
    simp only [CartCall.run, addItem] at hitem
    cases hfind : (items.find? fun item => item.id = cartItemId product) with
    | none =>
      rw [hfind] at hitem
      rcases List.mem_append.mp hitem with hold | hnew
      · exact h item hold
      · rw [List.mem_singleton.mp hnew]
        exact Or.inl ⟨1, le_refl 1, by simp⟩
    | some found =>
      rw [hfind] at hitem
      rcases mem_updateFirst _ _ _ _ hitem with hold | ⟨y, hy, -, rfl⟩
      · exact h item hold
      · exact isCartQuantity_add_one _ (h y hy)
  | updateQuantity productId quantity =>
    intro item hitem
    simp only [CartCall.run, updateQuantity] at hitem
    cases hfind : (items.find? fun item => item.id.toText = productId.toText) with
    | none => rw [hfind] at hitem; exact h item hitem
    | some found =>
      rw [hfind] at hitem
      simp only [] at hitem
      cases hguard : (!(parseInt10 quantity).truthy
          || JSNum.le (parseInt10 quantity) (JSNum.fin 0)) with
      | true =>
        rw [hguard, if_pos rfl] at hitem
        exact h item (List.mem_filter.mp hitem).1
      | false =>
        rw [hguard, if_neg (by decide)] at hitem
        rcases mem_updateFirst _ _ _ _ hitem with hold | ⟨y, -, -, rfl⟩
        · exact h item hold
        · exact isCartQuantity_of_guard quantity hguard

theorem foldl_run_quantities (calls : List CartCall) (items : List CartItem)
    (h : ∀ item ∈ items, IsCartQuantity item.quantity) :
    ∀ item ∈ calls.foldl CartCall.run items, IsCartQuantity item.quantity := by
  induction calls generalizing items with
  | nil => exact h
  | cons call calls ih => exact ih _ (run_quantities items call h)

/-- After every sequence of calls on the empty cart, every quantity is a whole number
from 1 on, or `Infinity`. -/
theorem cart_quantities (calls : List CartCall) :
    ∀ item ∈ cartAfter calls, IsCartQuantity item.quantity :=
  foldl_run_quantities calls [] (fun _ h => nomatch h)


theorem updateFirst_split {α : Type} (p : α → Bool) (f : α → α) (rows : List α)
    (h : ∃ x ∈ rows, p x = true) :
    ∃ (before : List α) (x : α) (after : List α), rows = before ++ x :: after ∧
      (∀ y ∈ before, p y = false) ∧ p x = true ∧
      updateFirst p f rows = before ++ f x :: after := by
  induction rows with
  | nil => obtain ⟨x, hx, -⟩ := h; cases hx
  | cons a as ih =>
    cases ha : p a with
    | true =>
      refine ⟨[], a, as, rfl, (by intro y hy; cases hy), ha, ?_⟩
      unfold updateFirst
      rw [if_pos ha]
      rfl
    | false =>
      obtain ⟨x, hx, hpx⟩ := h
      have hxas : x ∈ as := by
        rcases List.mem_cons.mp hx with rfl | h'
        · rw [ha] at hpx; cases hpx
        · exact h'
      obtain ⟨before, y, after, hrows, hbefore, hy, hupd⟩ := ih ⟨x, hxas, hpx⟩
      refine ⟨a :: before, y, after, by rw [hrows]; rfl, ?_, hy, ?_⟩
      · intro z hz
        rcases List.mem_cons.mp hz with rfl | h'
        · exact ha
        · exact hbefore z h'
      · unfold updateFirst
        rw [if_neg (by simp [ha]), hupd]
        rfl

/-- `addItem` for a product whose id an item has (compared with `===`): the first such
item gets its quantity raised by 1, everything else stays. -/
theorem addItem_existing (items : List CartItem) (product : CartProduct)
    (h : ∃ item ∈ items, item.id = cartItemId product) :
    ∃ (before : List CartItem) (item : CartItem) (after : List CartItem),
      items = before ++ item :: after ∧ item.id = cartItemId product ∧
      (∀ other ∈ before, other.id ≠ cartItemId product) ∧
      addItem items product
        = before ++ { item with quantity := JSNum.add item.quantity (JSNum.fin 1) } :: after := by
  obtain ⟨x, hx, hid⟩ := h
  obtain ⟨before, item, after, hrows, hbefore, hitem, hupd⟩ :=
    updateFirst_split (fun item : CartItem => decide (item.id = cartItemId product))
      (fun item => { item with quantity := JSNum.add item.quantity (JSNum.fin 1) }) items
      ⟨x, hx, by simpa using hid⟩
  refine ⟨before, item, after, hrows, by simpa using hitem, ?_, ?_⟩
  · intro other hother
    simpa using hbefore other hother
  · simp only [addItem]
    cases hfind : (items.find? fun item => item.id = cartItemId product) with
    | none =>
      rw [List.find?_eq_none] at hfind
      exact absurd (by simpa using hid) (hfind x hx)
    | some found => exact hupd

/-- `addItem` for a product whose id no item has (compared with `===`): one item with
quantity 1 is put at the end. -/
theorem addItem_new (items : List CartItem) (product : CartProduct)
    (h : ∀ item ∈ items, item.id ≠ cartItemId product) :
    addItem items product
      = items ++ [{ id := cartItemId product, name := product.name,
                    business_name := product.business_name, business := product.business,
                    price := product.price, quantity := JSNum.fin 1 }] := by
  have hfind : (items.find? fun item => item.id = cartItemId product) = none := by
    rw [List.find?_eq_none]
    intro item hitem
    simpa using h item hitem
  simp only [addItem]
  rw [hfind]

theorem updateFirst_ids (p : CartItem → Bool) (q : CartItem → JSNum) (items : List CartItem) :
    (updateFirst p (fun item => { item with quantity := q item }) items).map
        (fun item => item.id)
      = items.map fun item => item.id :=
  updateFirst_map p (fun item => { item with quantity := q item }) (fun item => item.id)
    (fun _ => rfl) items

/-- One call keeps the ids of the items distinct. -/
theorem run_ids_nodup (items : List CartItem) (call : CartCall)
    (h : (items.map fun item => item.id).Nodup) :
    ((call.run items).map fun item => item.id).Nodup := by
  cases call with
  | clear => exact List.nodup_nil
  | removeItem productId =>
    exact List.Nodup.sublist (List.Sublist.map _ (List.filter_sublist _)) h
  | addItem product =>
    by_cases hex : ∃ item ∈ items, item.id = cartItemId product
    · simp only [CartCall.run, addItem]
      cases hfind : (items.find? fun item => item.id = cartItemId product) with
      | none =>
        rw [List.find?_eq_none] at hfind
        obtain ⟨x, hx, hid⟩ := hex
        exact absurd (by simpa using hid) (hfind x hx)
      | some found =>
        simp only []
        rw [updateFirst_ids]
        exact h
    · have hnew : ∀ item ∈ items, item.id ≠ cartItemId product :=
        fun item hitem hid => hex ⟨item, hitem, hid⟩
      simp only [CartCall.run]
      rw [addItem_new items product hnew, List.map_append, List.map_singleton]
      refine List.Nodup.append h (List.nodup_singleton _) ?_
      intro id hid hid'
      rw [List.mem_singleton.mp hid'] at hid
      obtain ⟨item, hitem, hitemid⟩ := List.mem_map.mp hid
      exact hnew item hitem hitemid
  | updateQuantity productId quantity =>
    simp only [CartCall.run, updateQuantity]
    cases hfind : (items.find? fun item => item.id.toText = productId.toText) with
    | none => exact h
    | some found =>
      simp only []
      split_ifs
      · exact List.Nodup.sublist (List.Sublist.map _ (List.filter_sublist _)) h
      · rw [updateFirst_ids]
        exact h

/-- After every sequence of calls on the empty cart, no two items have the same id, ids
compared as `addItem` compares them (same type and same value). -/
theorem cart_ids_nodup (calls : List CartCall) :
    ((cartAfter calls).map fun item => item.id).Nodup := by
  have key : ∀ (calls : List CartCall) (items : List CartItem),
      (items.map fun item => item.id).Nodup →
      ((calls.foldl CartCall.run items).map fun item => item.id).Nodup := by
    intro calls
    induction calls with
    | nil => exact fun _ h => h
    | cons call calls ih => exact fun items h => ih _ (run_ids_nodup items call h)
  exact key calls [] List.nodup_nil

/-- C29 (ids compared as strings): `addItem` of a product with the number 1 as id and
then of a product with the string `1` as id leaves two items, since `addItem` compares
ids with `===`; the string forms of the two ids are equal, and `removeItem('1')`, which
compares string forms, removes both. -/
theorem cart_holds_two_items_with_one_id_text :
    (cartAfter [CartCall.addItem bowl, CartCall.addItem bowlText]).map
      (fun item => (item.id, item.id.toText, item.quantity))
      = [(CartId.num 1, "1", JSNum.fin 1), (CartId.str "1", "1", JSNum.fin 1)] ∧
    ¬ ((cartAfter [CartCall.addItem bowl, CartCall.addItem bowlText]).map
      fun item => item.id.toText).Nodup ∧
    cartAfter [CartCall.addItem bowl, CartCall.addItem bowlText,
      CartCall.removeItem (CartId.str "1")] = [] := by
  decide

/-! ## Star ratings -/

/-- The loop of `generateStarRating` joins the icons of its five rounds. -/
theorem generateStarRating_eq_join (rating : JSVal) :
    generateStarRating rating
      = String.join ((List.range 5).map
          (starIcon (starCounts rating).1 (starCounts rating).2)) := by
  unfold generateStarRating String.join
  rw [List.foldl_map]

theorem starCounts_of_nonneg (rating : JSVal) (r : ℚ) (hr : toNumber rating = JSNum.fin r)
    (h0 : 0 ≤ r) :
    starCounts rating = (JSNum.fin (⌊r⌋.toNat : ℕ), decide (r ≠ ⌊r⌋)) := by
  have hfloor : (0 : ℤ) ≤ ⌊r⌋ := Int.floor_nonneg.mpr h0
  have hcast : ((⌊r⌋.toNat : ℕ) : ℚ) = (⌊r⌋ : ℚ) := by
    have : ((⌊r⌋.toNat : ℕ) : ℤ) = ⌊r⌋ := Int.toNat_of_nonneg hfloor
    exact_mod_cast this
  unfold starCounts
  rw [hr]
  simp only [JSNum.floor, JSNum.mod, one_ne_zero, if_false, div_one, truncate, h0, if_true,
    one_mul, JSNum.strictEq, Prod.mk.injEq, JSNum.fin.injEq]
  refine ⟨hcast.symm, ?_⟩
  by_cases hint : r = ⌊r⌋
  · have hz : r - ⌊r⌋ = 0 := sub_eq_zero.mpr hint
    rw [decide_eq_true hz, decide_eq_false (not_not.mpr hint)]
    rfl
  · have hz : ¬ (r - ⌊r⌋ = 0) := fun h => hint (sub_eq_zero.mp h)
    rw [decide_eq_false hz, decide_eq_true hint]
    rfl

theorem starIcon_nat (n : ℕ) (half : Bool) (i : ℕ) :
    starIcon (JSNum.fin (n : ℕ)) half i
      = if i < n then fullStarIcon
        else if i = n ∧ half = true then halfStarIcon else emptyStarIcon := by
  unfold starIcon
  simp only [JSNum.lt, JSNum.strictEq, JSNum.fin.injEq, Nat.cast_lt, Nat.cast_inj,
    decide_eq_true_eq, Bool.and_eq_true]

theorem star_icons_nat (n : ℕ) (half : Bool) :
    (List.range 5).map (starIcon (JSNum.fin (n : ℕ)) half)
      = List.replicate (min n 5) fullStarIcon
        ++ (if half = true ∧ n < 5 then [halfStarIcon] else [])
        ++ List.replicate (5 - min n 5 - (if half = true ∧ n < 5 then 1 else 0))
            emptyStarIcon := by
  have hrange : List.range 5 = [0, 1, 2, 3, 4] := rfl
  rw [hrange]
  simp only [List.map_cons, List.map_nil, starIcon_nat]
  by_cases hn : n < 5
  · interval_cases n <;> cases half <;> rfl
  · have h5 : min n 5 = 5 := by omega
    have h0 : (0 : ℕ) < n := by omega
    have h1 : 1 < n := by omega
    have h2 : 2 < n := by omega
    have h3 : 3 < n := by omega
    have h4 : 4 < n := by omega
    rw [h5, if_pos h0, if_pos h1, if_pos h2, if_pos h3, if_pos h4, if_neg (fun h => hn h.2),
      if_neg (fun h => hn h.2)]
    rfl

/-- C30: for a rating whose number is `r >= 0`, `generateStarRating` returns the icons
of `min(floor(r), 5)` full stars, then one half star if `r` is no integer and
`floor(r) < 5`, then empty stars, five icons in all; for a whole `r` from 0 to 5 these are
`r` full stars and `5 - r` empty ones. For `Infinity` it returns five full stars. -/
theorem generateStarRating_icons (rating : JSVal) (r : ℚ)
    (hr : toNumber rating = JSNum.fin r) (h0 : 0 ≤ r) :
    generateStarRating rating = String.join (expectedStars r) ∧
    (expectedStars r).length = 5 ∧
    (∀ k : ℕ, k ≤ 5 → r = k →
      expectedStars r
        = List.replicate k fullStarIcon ++ List.replicate (5 - k) emptyStarIcon) ∧
    generateStarRating (JSVal.num JSNum.posInf)
      = String.join (List.replicate 5 fullStarIcon) := by
  have hexp : (List.range 5).map (starIcon (starCounts rating).1 (starCounts rating).2)
      = expectedStars r := by
    rw [starCounts_of_nonneg rating r hr h0, star_icons_nat]
    unfold expectedStars
    have hlt : (⌊r⌋.toNat < 5) ↔ ⌊r⌋ < 5 := by
      have hfloor : (0 : ℤ) ≤ ⌊r⌋ := Int.floor_nonneg.mpr h0
      omega
    simp only [decide_eq_true_eq, hlt]
  refine ⟨by rw [generateStarRating_eq_join, hexp], ?_, ?_, by decide⟩
  · rw [← hexp, List.length_map, List.length_range]
  · intro k hk hrk
    subst hrk
    unfold expectedStars
    have hfl : ⌊(k : ℚ)⌋ = k := Int.floor_natCast k
    have hmin : min k 5 = k := by omega
    simp [hfl, hmin]

theorem generateStarRating_icons_witness :
    generateStarRating (JSVal.str "3.5") = String.join (expectedStars (7 / 2)) ∧
    (expectedStars (7 / 2)).length = 5 ∧
    (∀ k : ℕ, k ≤ 5 → (7 / 2 : ℚ) = k →
      expectedStars (7 / 2)
        = List.replicate k fullStarIcon ++ List.replicate (5 - k) emptyStarIcon) ∧
    generateStarRating (JSVal.num JSNum.posInf)
      = String.join (List.replicate 5 fullStarIcon) :=
  generateStarRating_icons (JSVal.str "3.5") (7 / 2)
    (by
      show stringToNumber "3.5" = JSNum.fin (7 / 2)
      simp [stringToNumber, jsTrim, isJSWhitespace, radixOfMarker, dropSign,
        parseUnsignedDecimal, parseExponent, natOfDigits, digitVal]
      norm_num)
    (by norm_num)

end EnterpriseHub
